import Mathlib

/-!
# Briter encoder drivers (RS485 and CAN): frame construction, CRC-16 and decoding

Shallow embedding of `briter_encoder_rs485.c` and `briter_encoder_can.c`.

Conventions of the embedding:

* `uint8_t`, `uint16_t` and `uint32_t` values are natural numbers; every store into a
  narrower object is written with an explicit `% 256`, `% 65536` or `% 4294967296`.
* A byte buffer reached through a pointer is a `List Nat`; reading index `i` of a
  buffer that has no such element is the fault `Fault.outOfBounds`.
* The byte loop of `Calculate_CRC` is run with an explicit step budget (`fuel`);
  exhausting it is the fault `Fault.outOfFuel`.
-/

namespace Briter

/-! ## Execution results -/

/-- The two ways in which running a function of the driver can fail to produce a value. -/
inductive Fault where
  | outOfBounds
  | outOfFuel
  deriving DecidableEq, Repr

/-- Outcome of running a function of the driver. -/
abbrev Run (α : Type) := Except Fault α

/-- Read of `pData[i]`. -/
def rd (pData : List Nat) (i : Nat) : Run Nat :=
  match pData[i]? with
  | some b => .ok b
  | none => .error .outOfBounds

/-- Every element of the buffer is an octet. -/
def IsBytes (p : List Nat) : Prop := ∀ b ∈ p, b < 256

instance (p : List Nat) : Decidable (IsBytes p) := by
  unfold IsBytes; infer_instance

/-- Modelled from the spec: the HAL status type `HAL_StatusTypeDef`, declared in the vendor
header `stm32f4xx_hal_def.h`, which is outside the sources. -/
inductive HAL_StatusTypeDef where
  | HAL_OK
  | HAL_ERROR
  | HAL_BUSY
  | HAL_TIMEOUT
  deriving DecidableEq, Repr

open HAL_StatusTypeDef

/-! ## `briter_encoder_rs485.c`: CRC -/

/-- Body of the inner `for (j = 0; j < 8; j++)` loop of `Calculate_CRC`:
`if (wcrc & 0x0001) { wcrc >>= 1; wcrc ^= 0xa001; } else wcrc >>= 1;` on a `uint16_t`. -/
def Calculate_CRC_bit (wcrc : Nat) : Nat :=
  if wcrc &&& 0x0001 ≠ 0 then
    ((wcrc >>> 1) ^^^ 0xa001) % 65536
  else
    wcrc >>> 1

/-- The inner loop of `Calculate_CRC`, `n` iterations remaining. -/
def Calculate_CRC_inner : Nat → Nat → Nat
  | 0, wcrc => wcrc
  | n + 1, wcrc => Calculate_CRC_inner n (Calculate_CRC_bit wcrc)

/-- The outer `for (i = 0; i < num; i++)` loop of `Calculate_CRC`, from the state
`(i, wcrc)`. The counter `i` is a `uint8_t`, so `i++` is `(i + 1) % 256`, while `num` is a
`uint16_t`. -/
def Calculate_CRC_loop (pbuf : List Nat) (num : Nat) : Nat → Nat → Nat → Run Nat
  | 0, _, _ => .error .outOfFuel
  | fuel + 1, i, wcrc =>
    if i < num then
      match rd pbuf i with
      | .error e => .error e
      | .ok b =>
        Calculate_CRC_loop pbuf num fuel ((i + 1) % 256)
          (Calculate_CRC_inner 8 ((wcrc ^^^ b) % 65536))
    else
      .ok wcrc

/-- `static uint16_t Calculate_CRC(uint8_t pbuf[], uint16_t num)`. -/
def Calculate_CRC (fuel : Nat) (pbuf : List Nat) (num : Nat) : Run Nat :=
  Calculate_CRC_loop pbuf num fuel 0 0xffff

/-- Number of times the body of the byte loop of `Calculate_CRC` is entered, from the state
`i`, within the step budget. -/
def Calculate_CRC_iterations (num : Nat) : Nat → Nat → Nat
  | 0, _ => 0
  | fuel + 1, i =>
    if i < num then Calculate_CRC_iterations num fuel ((i + 1) % 256) + 1 else 0

/-! ### The CRC-16 of the specification (section 4.1) -/

/-- One of the 8 iterations: if the low bit of the accumulator is set, right-shift by one and
XOR with 0xA001, else right-shift by one with no XOR. -/
def crc16_shift (acc : Nat) : Nat :=
  if acc % 2 = 1 then (acc / 2) ^^^ 0xA001 else acc / 2

/-- XOR the octet into the low byte of the accumulator, then perform 8 iterations. -/
def crc16_octet (acc octet : Nat) : Nat :=
  crc16_shift^[8] (acc ^^^ octet)

/-- The reference CRC-16/MODBUS, following the words of the specification: the accumulator
starts at 0xFFFF and absorbs the octets in order. -/
def crc16 (bytes : List Nat) : Nat :=
  bytes.foldl crc16_octet 0xFFFF

/-! ## `briter_encoder_rs485.c`: frames -/

/-- The function codes `RS485_Enc_Func_e`. -/
inductive RS485_Enc_Func_e where
  | ENC_READ
  | ENC_WRITE_SINGLE
  | ENC_WRITE_MULTI
  deriving DecidableEq, Repr

open RS485_Enc_Func_e

/-- Numeric value of a function code: `ENC_READ = 0x03`, `ENC_WRITE_SINGLE = 0x06`,
`ENC_WRITE_MULTI = 0x10`. -/
def RS485_Enc_Func_e.toNat : RS485_Enc_Func_e → Nat
  | ENC_READ => 0x03
  | ENC_WRITE_SINGLE => 0x06
  | ENC_WRITE_MULTI => 0x10

/-- `static void Encoder_Send_Construct(Encoder_TX_t *txbuf, RS485_Enc_Func_e func,
uint16_t own_addr, uint16_t send_addr, uint16_t send_value)`. The union `Encoder_TX_t` is its
8-byte view `buf`; the fields of `send_info` are the bytes 0, 1, 2-3, 4-5 and 6-7 of it. -/
def Encoder_Send_Construct (fuel : Nat) (txbuf : List Nat) (func : RS485_Enc_Func_e)
    (own_addr send_addr send_value : Nat) : Run (List Nat) :=
  let txbuf := txbuf.set 0 (own_addr % 256)
  let txbuf := txbuf.set 1 (func.toNat % 256)
  let txbuf := txbuf.set 2 (((send_addr >>> 8) &&& 0xFF) % 256)
  let txbuf := txbuf.set 3 (((send_addr >>> 0) &&& 0xFF) % 256)
  let register_number := send_value % 65536
  let txbuf := txbuf.set 4 (((register_number >>> 8) &&& 0xFF) % 256)
  let txbuf := txbuf.set 5 (((register_number >>> 0) &&& 0xFF) % 256)
  match Calculate_CRC fuel txbuf (8 - 2) with
  | .error e => .error e
  | .ok crc =>
    let txbuf := txbuf.set 6 (((crc >>> 0) &&& 0xFF) % 256)
    let txbuf := txbuf.set 7 (((crc >>> 8) &&& 0xFF) % 256)
    .ok txbuf

/-- `static HAL_StatusTypeDef Encoder_CheckRX(uint8_t *pData, uint8_t address,
RS485_Enc_Func_e func)`. `total_byte` is a `uint8_t`; the index `total_byte + 1` is computed
in `int`. Both `||` are evaluated left to right and stop at the first true operand. -/
def Encoder_CheckRX (fuel : Nat) (pData : List Nat) (address : Nat)
    (func : RS485_Enc_Func_e) : Run HAL_StatusTypeDef :=
  match rd pData 0 with
  | .error e => .error e
  | .ok p0 =>
  if p0 ≠ address then .ok HAL_ERROR else
  match rd pData 1 with
  | .error e => .error e
  | .ok p1 =>
  if p1 ≠ func.toNat then .ok HAL_ERROR else
  let total : Run Nat :=
    if p1 = ENC_READ.toNat then
      match rd pData 2 with
      | .error e => .error e
      | .ok p2 => .ok ((p2 + 3) % 256)
    else
      .ok ((8 - 2) % 256)
  match total with
  | .error e => .error e
  | .ok total_byte =>
  match Calculate_CRC fuel pData total_byte with
  | .error e => .error e
  | .ok crc =>
  match rd pData total_byte with
  | .error e => .error e
  | .ok lo =>
  if lo ≠ ((crc >>> 0) &&& 0xFF) % 256 then .ok HAL_ERROR else
  match rd pData (total_byte + 1) with
  | .error e => .error e
  | .ok hi =>
  if hi ≠ ((crc >>> 8) &&& 0xFF) % 256 then .ok HAL_ERROR else
  .ok HAL_OK

/-! ### The serial transport -/

/-- Modelled from the spec: the byte-transfer primitives behind `UART_HandleTypeDef *huart`
(`HAL_UART_Transmit`, `HAL_UART_Transmit_DMA`, `HAL_UART_Receive` of the vendor HAL, outside
the sources): the status each transmit returns for the bytes handed to it, the status of a
receive, and the contents the receive leaves in the buffer (byte `i` is `RxData i % 256`). -/
structure UART_HandleTypeDef where
  Transmit : List Nat → HAL_StatusTypeDef
  Transmit_DMA : List Nat → HAL_StatusTypeDef
  Receive : HAL_StatusTypeDef
  RxData : Nat → Nat

/-- The handle `Briter_Encoder_t`. -/
structure Briter_Encoder_t where
  addr : Nat
  encoder_value : Nat
  huart : UART_HandleTypeDef

/-- What a call of a driver function leaves behind: its return value, the handle after the
call, and the frames it handed to the transmit primitive, in order. -/
structure Outcome (H F α : Type) where
  ret : α
  handler : H
  sent : List F

/-- `static HAL_StatusTypeDef Encoder_Transmit(huart, pData, Size)`:
`HAL_UART_Transmit(huart, pData, Size, 10)`. -/
def Encoder_Transmit (huart : UART_HandleTypeDef) (pData : List Nat) (Size : Nat) :
    HAL_StatusTypeDef :=
  huart.Transmit (pData.take Size)

/-- `static HAL_StatusTypeDef Encoder_Transmit_DMA(huart, pData, Size)`:
`HAL_UART_Transmit_DMA(huart, pData, Size)`. -/
def Encoder_Transmit_DMA (huart : UART_HandleTypeDef) (pData : List Nat) (Size : Nat) :
    HAL_StatusTypeDef :=
  huart.Transmit_DMA (pData.take Size)

/-- `static HAL_StatusTypeDef Encoder_Receive(huart, pData, Size)`:
`HAL_UART_Receive(huart, pData, Size, 10)`; the status and the `Size` bytes of the buffer
after the call. -/
def Encoder_Receive (huart : UART_HandleTypeDef) (Size : Nat) :
    HAL_StatusTypeDef × List Nat :=
  (huart.Receive, (List.range Size).map fun i => huart.RxData i % 256)

/-! ### Register map and error value (`briter_encoder_rs485.h`) -/

def BRITER_RS485_VALUE_ADDR : Nat := 0x00
def BRITER_RS485_ADDRESS_ADDR : Nat := 0x04
def BRITER_RS485_BAUDRATE_ADDR : Nat := 0x05
def BRITER_RS485_MODE_ADDR : Nat := 0x06
def BRITER_RS485_RETURN_TIME_ADDR : Nat := 0x07
def BRITER_RS485_INCREASING_DIRECTION_ADDR : Nat := 0x09

/-- `#define BRITER_RS485_ERROR -1`. -/
def BRITER_RS485_ERROR : Int := -1

/-- Conversion of an `int` to `uint32_t`. -/
def toUInt32 (z : Int) : Nat := (z % 4294967296).toNat

/-- The shift `b << n` of a promoted byte in a 32-bit `int`, as a 32-bit pattern. -/
def shl32 (b n : Nat) : Nat := (b <<< n) % 4294967296

/-- `RS485_Enc_Baudrate_e`. -/
inductive RS485_Enc_Baudrate_e where
  | RS485_ENC_BAUDRATE_9600
  | RS485_ENC_BAUDRATE_19200
  | RS485_ENC_BAUDRATE_38400
  | RS485_ENC_BAUDRATE_57600
  | RS485_ENC_BAUDRATE_115200
  deriving DecidableEq, Repr

/-- Numeric value of a baud-rate enumerator, `0x00` upwards. -/
def RS485_Enc_Baudrate_e.toNat : RS485_Enc_Baudrate_e → Nat
  | RS485_ENC_BAUDRATE_9600 => 0
  | RS485_ENC_BAUDRATE_19200 => 1
  | RS485_ENC_BAUDRATE_38400 => 2
  | RS485_ENC_BAUDRATE_57600 => 3
  | RS485_ENC_BAUDRATE_115200 => 4

/-- `RS485_Enc_Mode_e`. -/
inductive RS485_Enc_Mode_e where
  | RS485_ENC_MODE_QUERY
  | RS485_ENC_MODE_BACKHAUL
  deriving DecidableEq, Repr

/-- Numeric value of a mode enumerator. -/
def RS485_Enc_Mode_e.toNat : RS485_Enc_Mode_e → Nat
  | RS485_ENC_MODE_QUERY => 0
  | RS485_ENC_MODE_BACKHAUL => 1

/-- `RS485_Enc_Direction_e`. -/
inductive RS485_Enc_Direction_e where
  | RS485_ENC_DIRECTION_CLOCKWISE
  | RS485_ENC_DIRECTION_COUNTERCLOCKWISE
  deriving DecidableEq, Repr

/-- Numeric value of a direction enumerator. -/
def RS485_Enc_Direction_e.toNat : RS485_Enc_Direction_e → Nat
  | RS485_ENC_DIRECTION_CLOCKWISE => 0
  | RS485_ENC_DIRECTION_COUNTERCLOCKWISE => 1

/-! ### Exported functions of `briter_encoder_rs485.c` -/

/-- The expression `pData[3] << (3 * 8) | pData[4] << (2 * 8) | pData[5] << (1 * 8)
| pData[6] << (0 * 8)` stored into a `uint32_t`. -/
def RS485_assemble (pData : List Nat) : Run Nat :=
  match rd pData 3, rd pData 4, rd pData 5, rd pData 6 with
  | .ok b3, .ok b4, .ok b5, .ok b6 =>
    .ok ((shl32 b3 (3 * 8) ||| shl32 b4 (2 * 8) ||| shl32 b5 (1 * 8) ||| shl32 b6 (0 * 8))
      % 4294967296)
  | _, _, _, _ => .error .outOfBounds

/-- `uint32_t BRITER_RS485_GetEncoderValue(Briter_Encoder_t *handler)`. -/
def BRITER_RS485_GetEncoderValue (fuel : Nat) (handler : Briter_Encoder_t) :
    Run (Outcome Briter_Encoder_t (List Nat) Nat) :=
  match Encoder_Send_Construct fuel (List.replicate 8 0) ENC_READ (handler.addr % 65536)
      BRITER_RS485_VALUE_ADDR 2 with
  | .error e => .error e
  | .ok send_t =>
  if Encoder_Transmit handler.huart send_t 8 ≠ HAL_OK then
    .ok ⟨toUInt32 BRITER_RS485_ERROR, handler, [send_t.take 8]⟩
  else
  let receive_buf := (Encoder_Receive handler.huart 9).2
  if (Encoder_Receive handler.huart 9).1 ≠ HAL_OK then
    .ok ⟨toUInt32 BRITER_RS485_ERROR, handler, [send_t.take 8]⟩
  else
  match Encoder_CheckRX fuel receive_buf (handler.addr % 256) ENC_READ with
  | .error e => .error e
  | .ok status =>
  if status ≠ HAL_OK then
    .ok ⟨toUInt32 BRITER_RS485_ERROR, handler, [send_t.take 8]⟩
  else
  match RS485_assemble receive_buf with
  | .error e => .error e
  | .ok encoder_value => .ok ⟨encoder_value, handler, [send_t.take 8]⟩

/-- `HAL_StatusTypeDef BRITER_RS485_GetEncoderValue_DMA(Briter_Encoder_t *handler)`. -/
def BRITER_RS485_GetEncoderValue_DMA (fuel : Nat) (handler : Briter_Encoder_t) :
    Run (Outcome Briter_Encoder_t (List Nat) HAL_StatusTypeDef) :=
  match Encoder_Send_Construct fuel (List.replicate 8 0) ENC_READ (handler.addr % 65536)
      BRITER_RS485_VALUE_ADDR 2 with
  | .error e => .error e
  | .ok send_t =>
    .ok ⟨Encoder_Transmit_DMA handler.huart send_t 8, handler, [send_t.take 8]⟩

/-- `uint32_t BRITER_RS485_GetEncoderValue_DMA_Callback(Briter_Encoder_t *handler,
uint8_t *pData)`. -/
def BRITER_RS485_GetEncoderValue_DMA_Callback (fuel : Nat) (handler : Briter_Encoder_t)
    (pData : List Nat) : Run (Outcome Briter_Encoder_t (List Nat) Nat) :=
  match Encoder_CheckRX fuel pData (handler.addr % 256) ENC_READ with
  | .error e => .error e
  | .ok status =>
  if status ≠ HAL_OK then
    .ok ⟨toUInt32 BRITER_RS485_ERROR, handler, []⟩
  else
  match RS485_assemble pData with
  | .error e => .error e
  | .ok encoder_value => .ok ⟨encoder_value, handler, []⟩

/-- The comparison `receive_buf[2] == send_t.buf[2] && receive_buf[3] == send_t.buf[3] &&
receive_buf[4] == send_t.buf[4] && receive_buf[5] == send_t.buf[5]` on two 8-byte arrays. -/
def RS485_echo_matches (receive_buf send_t : List Nat) : Bool :=
  receive_buf[2]? == send_t[2]? && receive_buf[3]? == send_t[3]?
    && receive_buf[4]? == send_t[4]? && receive_buf[5]? == send_t[5]?

/-- The body shared, word for word, by `BRITER_RS485_SetBaudrate`, `BRITER_RS485_SetDataMode`,
`BRITER_RS485_SetAddress`, `BRITER_RS485_SetReturnTime` and `BRITER_RS485_SetDirection`; they
differ in the register and in the value handed to `Encoder_Send_Construct` (both converted to
`uint16_t` there). -/
def RS485_write_single (fuel : Nat) (handler : Briter_Encoder_t) (send_addr send_value : Nat) :
    Run (Outcome Briter_Encoder_t (List Nat) HAL_StatusTypeDef) :=
  match Encoder_Send_Construct fuel (List.replicate 8 0) ENC_WRITE_SINGLE
      (handler.addr % 65536) (send_addr % 65536) (send_value % 65536) with
  | .error e => .error e
  | .ok send_t =>
  if Encoder_Transmit handler.huart send_t 8 ≠ HAL_OK then
    .ok ⟨HAL_ERROR, handler, [send_t.take 8]⟩
  else
  let receive_buf := (Encoder_Receive handler.huart 8).2
  if (Encoder_Receive handler.huart 8).1 ≠ HAL_OK then
    .ok ⟨HAL_ERROR, handler, [send_t.take 8]⟩
  else
  match Encoder_CheckRX fuel receive_buf (handler.addr % 256) ENC_WRITE_SINGLE with
  | .error e => .error e
  | .ok status =>
  if status ≠ HAL_OK then
    .ok ⟨HAL_ERROR, handler, [send_t.take 8]⟩
  else if RS485_echo_matches receive_buf send_t then
    .ok ⟨HAL_OK, handler, [send_t.take 8]⟩
  else
    .ok ⟨HAL_ERROR, handler, [send_t.take 8]⟩

/-- `HAL_StatusTypeDef BRITER_RS485_SetBaudrate(Briter_Encoder_t *handler,
RS485_Enc_Baudrate_e baudrate)`. -/
def BRITER_RS485_SetBaudrate (fuel : Nat) (handler : Briter_Encoder_t)
    (baudrate : RS485_Enc_Baudrate_e) :=
  RS485_write_single fuel handler BRITER_RS485_BAUDRATE_ADDR baudrate.toNat

/-- `HAL_StatusTypeDef BRITER_RS485_SetDataMode(Briter_Encoder_t *handler,
RS485_Enc_Mode_e mode)`. -/
def BRITER_RS485_SetDataMode (fuel : Nat) (handler : Briter_Encoder_t)
    (mode : RS485_Enc_Mode_e) :=
  RS485_write_single fuel handler BRITER_RS485_MODE_ADDR mode.toNat

/-- `HAL_StatusTypeDef BRITER_RS485_SetAddress(Briter_Encoder_t *handler,
uint8_t to_address)`. -/
def BRITER_RS485_SetAddress (fuel : Nat) (handler : Briter_Encoder_t) (to_address : Nat) :=
  RS485_write_single fuel handler BRITER_RS485_ADDRESS_ADDR (to_address % 256)

/-- `HAL_StatusTypeDef BRITER_RS485_SetReturnTime(Briter_Encoder_t *handler,
uint16_t time)`. -/
def BRITER_RS485_SetReturnTime (fuel : Nat) (handler : Briter_Encoder_t) (time : Nat) :=
  RS485_write_single fuel handler BRITER_RS485_RETURN_TIME_ADDR (time % 65536)

/-- `HAL_StatusTypeDef BRITER_RS485_SetDirection(Briter_Encoder_t *handler,
RS485_Enc_Direction_e direction)`. -/
def BRITER_RS485_SetDirection (fuel : Nat) (handler : Briter_Encoder_t)
    (direction : RS485_Enc_Direction_e) :=
  RS485_write_single fuel handler BRITER_RS485_INCREASING_DIRECTION_ADDR direction.toNat

/-! ## `briter_encoder_can.c` -/

/-- Modelled from the spec: the identifier type of a CAN frame (`CAN_ID_STD`, `CAN_ID_EXT` of
the vendor HAL, outside the sources): standard or extended. -/
inductive CAN_identifier_type where
  | CAN_ID_STD
  | CAN_ID_EXT
  deriving DecidableEq, Repr

/-- Modelled from the spec: the frame type of a CAN frame (`CAN_RTR_DATA`, `CAN_RTR_REMOTE` of
the vendor HAL, outside the sources): data frame or remote-transmission request. -/
inductive CAN_remote_transmission_request where
  | CAN_RTR_DATA
  | CAN_RTR_REMOTE
  deriving DecidableEq, Repr

/-- Modelled from the spec: `FunctionalState` of the vendor HAL, outside the sources. -/
inductive FunctionalState where
  | DISABLE
  | ENABLE
  deriving DecidableEq, Repr

/-- Modelled from the spec: the transmit header `CAN_TxHeaderTypeDef` of the vendor HAL,
outside the sources, with the six fields `CAN_Tx` assigns. -/
structure CAN_TxHeaderTypeDef where
  StdId : Nat
  ExtId : Nat
  IDE : CAN_identifier_type
  RTR : CAN_remote_transmission_request
  DLC : Nat
  TransmitGlobalTime : FunctionalState
  deriving DecidableEq, Repr

/-- Modelled from the spec: the bus transmit primitive behind `CAN_HandleTypeDef *hcan`
(`HAL_CAN_AddTxMessage` of the vendor HAL, outside the sources): the status it returns for a
header and a data buffer. -/
structure CAN_HandleTypeDef where
  AddTxMessage : CAN_TxHeaderTypeDef → List Nat → HAL_StatusTypeDef

/-- `#define BRITER_CAN_ERROR 0xFFFFFFFF`. -/
def BRITER_CAN_ERROR : Nat := 0xFFFFFFFF

def BRITER_CAN_PPR : Nat := 4096
def BRITER_CAN_NO_OF_TURN : Nat := 24
def BRITER_CAN_MAX_VALUE : Nat := BRITER_CAN_PPR * BRITER_CAN_NO_OF_TURN

/-- The handle `Briter_CAN_Handler_t`. -/
structure Briter_CAN_Handler_t where
  hcan : CAN_HandleTypeDef
  address : Nat
  position : Nat

/-- `Briter_CAN_Command_e`. -/
inductive Briter_CAN_Command_e where
  | BRITER_CAN_GET_VALUE
  | BRITER_CAN_SET_ID
  | BRITER_CAN_SET_BAUDRATE
  | BRITER_CAN_SET_MODE
  | BRITER_CAN_SET_RETURN_TIME
  | BRITER_CAN_SET_ZERO
  deriving DecidableEq, Repr

open Briter_CAN_Command_e

/-- Numeric value of a command: `BRITER_CAN_GET_VALUE = 0x01`, then consecutive. -/
def Briter_CAN_Command_e.toNat : Briter_CAN_Command_e → Nat
  | BRITER_CAN_GET_VALUE => 0x01
  | BRITER_CAN_SET_ID => 0x02
  | BRITER_CAN_SET_BAUDRATE => 0x03
  | BRITER_CAN_SET_MODE => 0x04
  | BRITER_CAN_SET_RETURN_TIME => 0x05
  | BRITER_CAN_SET_ZERO => 0x06

/-- `Briter_CAN_Baudrate_e`. -/
inductive Briter_CAN_Baudrate_e where
  | BRITER_CAN_BAUDRATE_500K
  | BRITER_CAN_BAUDRATE_1000K
  | BRITER_CAN_BAUDRATE_250K
  | BRITER_CAN_BAUDRATE_125K
  | BRITER_CAN_BAUDRATE_100K
  deriving DecidableEq, Repr

/-- Numeric value of a CAN baud-rate enumerator, `0x00` upwards. -/
def Briter_CAN_Baudrate_e.toNat : Briter_CAN_Baudrate_e → Nat
  | BRITER_CAN_BAUDRATE_500K => 0
  | BRITER_CAN_BAUDRATE_1000K => 1
  | BRITER_CAN_BAUDRATE_250K => 2
  | BRITER_CAN_BAUDRATE_125K => 3
  | BRITER_CAN_BAUDRATE_100K => 4

/-- `Briter_CAN_Mode_e`. -/
inductive Briter_CAN_Mode_e where
  | RS485_ENC_MODE_QUERY
  | RS485_ENC_MODE_BACKHAUL
  deriving DecidableEq, Repr

/-- Numeric value of a CAN mode enumerator. -/
def Briter_CAN_Mode_e.toNat : Briter_CAN_Mode_e → Nat
  | RS485_ENC_MODE_QUERY => 0
  | RS485_ENC_MODE_BACKHAUL => 1

/-- Store `buf[i] = v` into a block of `buf.length` bytes. -/
def wr (buf : List Nat) (i v : Nat) : Run (List Nat) :=
  if i < buf.length then .ok (buf.set i v) else .error .outOfBounds

/-- `static HAL_StatusTypeDef CAN_Tx(Briter_CAN_Handler_t *handler, Briter_CAN_Command_e cmd,
uint8_t data_length, uint16_t selection)`.

`assert_param` does not alter the control flow. `malloc` is taken to succeed; the block it
returns has `data_length` bytes whose initial contents are arbitrary (`heap k % 256`). The
outcome records the header and the block handed to `HAL_CAN_AddTxMessage`. -/
def CAN_Tx (heap : Nat → Nat) (handler : Briter_CAN_Handler_t) (cmd : Briter_CAN_Command_e)
    (data_length selection : Nat) :
    Run (Outcome Briter_CAN_Handler_t (CAN_TxHeaderTypeDef × List Nat) HAL_StatusTypeDef) :=
  let canTxHeader : CAN_TxHeaderTypeDef :=
    { DLC := data_length
      IDE := .CAN_ID_STD
      RTR := .CAN_RTR_DATA
      StdId := handler.address
      TransmitGlobalTime := .DISABLE
      ExtId := 0 }
  let tx_buf := (List.range (data_length * 1)).map fun k => heap k % 256
  match wr tx_buf 0 (canTxHeader.DLC % 256) with
  | .error e => .error e
  | .ok tx_buf =>
  match wr tx_buf 1 (canTxHeader.StdId % 256) with
  | .error e => .error e
  | .ok tx_buf =>
  match wr tx_buf 2 (cmd.toNat % 256) with
  | .error e => .error e
  | .ok tx_buf =>
  let payload : Run (List Nat) :=
    if data_length = 4 then
      wr tx_buf 3 (selection % 256)
    else if data_length = 5 then
      match wr tx_buf 3 (((selection >>> 0) &&& 0xFF) % 256) with
      | .error e => .error e
      | .ok tx_buf => wr tx_buf 4 (((selection >>> 8) &&& 0xFF) % 256)
    else
      .ok tx_buf
  match payload with
  | .error e => .error e
  | .ok tx_buf =>
    .ok ⟨handler.hcan.AddTxMessage canTxHeader tx_buf, handler, [(canTxHeader, tx_buf)]⟩

/-- `HAL_StatusTypeDef BRITER_CAN_ReadValue(Briter_CAN_Handler_t *handler)`. -/
def BRITER_CAN_ReadValue (heap : Nat → Nat) (handler : Briter_CAN_Handler_t) :=
  CAN_Tx heap handler BRITER_CAN_GET_VALUE 4 0

/-- `uint32_t BRITER_CAN_GetEncoderValue_Callback(Briter_CAN_Handler_t *handler,
uint8_t *pData)`. The three operands of `||` are evaluated left to right. -/
def BRITER_CAN_GetEncoderValue_Callback (handler : Briter_CAN_Handler_t) (pData : List Nat) :
    Run (Outcome Briter_CAN_Handler_t (CAN_TxHeaderTypeDef × List Nat) Nat) :=
  match rd pData 1 with
  | .error e => .error e
  | .ok p1 =>
  if handler.address ≠ p1 then .ok ⟨BRITER_CAN_ERROR, handler, []⟩ else
  match rd pData 0 with
  | .error e => .error e
  | .ok p0 =>
  if p0 ≠ 0x07 then .ok ⟨BRITER_CAN_ERROR, handler, []⟩ else
  match rd pData 2 with
  | .error e => .error e
  | .ok p2 =>
  if p2 ≠ BRITER_CAN_GET_VALUE.toNat then .ok ⟨BRITER_CAN_ERROR, handler, []⟩ else
  match rd pData 3, rd pData 4, rd pData 5, rd pData 6 with
  | .ok b3, .ok b4, .ok b5, .ok b6 =>
    let position :=
      (shl32 b3 (0 * 8) ||| shl32 b4 (1 * 8) ||| shl32 b5 (2 * 8) ||| shl32 b6 (3 * 8))
        % 4294967296
    .ok ⟨position, { handler with position := position }, []⟩
  | _, _, _, _ => .error .outOfBounds

/-- `HAL_StatusTypeDef BRITER_CAN_SetBaudrate(Briter_CAN_Handler_t *handler,
Briter_CAN_Baudrate_e baudrate)`. -/
def BRITER_CAN_SetBaudrate (heap : Nat → Nat) (handler : Briter_CAN_Handler_t)
    (baudrate : Briter_CAN_Baudrate_e) :=
  CAN_Tx heap handler BRITER_CAN_SET_BAUDRATE 4 (baudrate.toNat % 65536)

/-- `HAL_StatusTypeDef BRITER_CAN_SetAddress(Briter_CAN_Handler_t *handler,
uint8_t to_address)`. -/
def BRITER_CAN_SetAddress (heap : Nat → Nat) (handler : Briter_CAN_Handler_t)
    (to_address : Nat) :=
  CAN_Tx heap handler BRITER_CAN_SET_ID 4 (to_address % 256)

/-- `HAL_StatusTypeDef BRITER_CAN_SetDataMode(Briter_CAN_Handler_t *handler,
Briter_CAN_Mode_e mode)`. -/
def BRITER_CAN_SetDataMode (heap : Nat → Nat) (handler : Briter_CAN_Handler_t)
    (mode : Briter_CAN_Mode_e) :=
  CAN_Tx heap handler BRITER_CAN_SET_MODE 4 (mode.toNat % 65536)

/-- `HAL_StatusTypeDef BRITER_CAN_SetReturnTime(Briter_CAN_Handler_t *handler,
uint16_t time)`. -/
def BRITER_CAN_SetReturnTime (heap : Nat → Nat) (handler : Briter_CAN_Handler_t) (time : Nat) :=
  CAN_Tx heap handler BRITER_CAN_SET_RETURN_TIME 4 (time % 65536)

/-- `HAL_StatusTypeDef BRITER_CAN_SetZero(Briter_CAN_Handler_t *handler)`. -/
def BRITER_CAN_SetZero (heap : Nat → Nat) (handler : Briter_CAN_Handler_t) :=
  CAN_Tx heap handler BRITER_CAN_SET_ZERO 4 0

/-! ## The acceptance condition of the specification (section 4.2) -/

/-- The validity of a response following the words of the specification: byte 0 is the
expected address, byte 1 the expected function code, and the two bytes after the covered
bytes (`3 + N` of them for a READ response whose byte 2 is `N`, 6 otherwise) are the low and
the high byte of the CRC-16 of the covered bytes. -/
def RS485_response_valid (p : List Nat) (a : Nat) (f : RS485_Enc_Func_e) : Prop :=
  p[0]? = some a ∧ p[1]? = some f.toNat
    ∧ p[(if f = ENC_READ then 3 + p.getD 2 0 else 6)]?
        = some (crc16 (p.take (if f = ENC_READ then 3 + p.getD 2 0 else 6)) &&& 0xFF)
    ∧ p[(if f = ENC_READ then 3 + p.getD 2 0 else 6) + 1]?
        = some (crc16 (p.take (if f = ENC_READ then 3 + p.getD 2 0 else 6)) >>> 8)

instance (p : List Nat) (a : Nat) (f : RS485_Enc_Func_e) :
    Decidable (RS485_response_valid p a f) := by
  unfold RS485_response_valid; infer_instance

/-- A READ response of device 1 declaring 253 data bytes (0xE1, 0x71, then 251 zero bytes),
followed by the CRC-16 of its 256 leading bytes, 0x0000, low byte first: 258 bytes. -/
def read_response_253 : List Nat :=
  [0x01, 0x03, 0xFD, 0xE1, 0x71] ++ List.replicate 251 0x00 ++ [0x00, 0x00]

/-! ## Requests and corrupted frames in the words of the specification -/

/-- The RS485 request of the specification (section 6):
`[addr, func, regHi, regLo, valHi, valLo, crcLo, crcHi]`, the CRC-16 of the six leading bytes
stored low byte first. -/
def RS485_request (addr func reg val : Nat) : List Nat :=
  [addr, func, reg >>> 8, reg &&& 0xFF, val >>> 8, val &&& 0xFF,
    crc16 [addr, func, reg >>> 8, reg &&& 0xFF, val >>> 8, val &&& 0xFF] &&& 0xFF,
    crc16 [addr, func, reg >>> 8, reg &&& 0xFF, val >>> 8, val &&& 0xFF] >>> 8]

/-- The frame `p` with a single bit flipped: bit `pos % 8` of the byte `pos / 8`. -/
def flip_bit (p : List Nat) (pos : Nat) : List Nat :=
  p.set (pos / 8) (p.getD (pos / 8) 0 ^^^ 2 ^ (pos % 8))

/-! ## The configuration commands, indexed -/

/-- The five RS485 configuration commands of section 4.4, each with its scalar parameter. -/
inductive RS485_command where
  | SetBaudrate (baudrate : RS485_Enc_Baudrate_e)
  | SetDataMode (mode : RS485_Enc_Mode_e)
  | SetAddress (to_address : Nat)
  | SetReturnTime (time : Nat)
  | SetDirection (direction : RS485_Enc_Direction_e)

/-- The call of the exported function that the command stands for. -/
def RS485_command.call (fuel : Nat) (handler : Briter_Encoder_t) :
    RS485_command → Run (Outcome Briter_Encoder_t (List Nat) HAL_StatusTypeDef)
  | .SetBaudrate baudrate => BRITER_RS485_SetBaudrate fuel handler baudrate
  | .SetDataMode mode => BRITER_RS485_SetDataMode fuel handler mode
  | .SetAddress to_address => BRITER_RS485_SetAddress fuel handler to_address
  | .SetReturnTime time => BRITER_RS485_SetReturnTime fuel handler time
  | .SetDirection direction => BRITER_RS485_SetDirection fuel handler direction

/-- The register that the register map of the specification (section 6) assigns to the
command: address 0x04, baudrate 0x05, mode 0x06, return-time 0x07, direction 0x09. -/
def RS485_command.register : RS485_command → Nat
  | .SetBaudrate _ => 0x05
  | .SetDataMode _ => 0x06
  | .SetAddress _ => 0x04
  | .SetReturnTime _ => 0x07
  | .SetDirection _ => 0x09

/-- The scalar parameter of the command, as a number. -/
def RS485_command.value : RS485_command → Nat
  | .SetBaudrate baudrate => baudrate.toNat
  | .SetDataMode mode => mode.toNat
  | .SetAddress to_address => to_address
  | .SetReturnTime time => time
  | .SetDirection direction => direction.toNat

/-- The parameter fits its C type: `uint8_t to_address`, `uint16_t time`. -/
def RS485_command.WellFormed : RS485_command → Prop
  | .SetAddress to_address => to_address < 256
  | .SetReturnTime time => time < 65536
  | _ => True

instance (c : RS485_command) : Decidable c.WellFormed := by
  cases c <;> unfold RS485_command.WellFormed <;> infer_instance

/-- The six CAN operations that transmit a command, each with its scalar parameter. -/
inductive CAN_command where
  | ReadValue
  | SetBaudrate (baudrate : Briter_CAN_Baudrate_e)
  | SetAddress (to_address : Nat)
  | SetDataMode (mode : Briter_CAN_Mode_e)
  | SetReturnTime (time : Nat)
  | SetZero

/-- The call of the exported function that the CAN command stands for. -/
def CAN_command.call (heap : Nat → Nat) (handler : Briter_CAN_Handler_t) :
    CAN_command →
      Run (Outcome Briter_CAN_Handler_t (CAN_TxHeaderTypeDef × List Nat) HAL_StatusTypeDef)
  | .ReadValue => BRITER_CAN_ReadValue heap handler
  | .SetBaudrate baudrate => BRITER_CAN_SetBaudrate heap handler baudrate
  | .SetAddress to_address => BRITER_CAN_SetAddress heap handler to_address
  | .SetDataMode mode => BRITER_CAN_SetDataMode heap handler mode
  | .SetReturnTime time => BRITER_CAN_SetReturnTime heap handler time
  | .SetZero => BRITER_CAN_SetZero heap handler

/-- The command byte of the CAN command. -/
def CAN_command.command : CAN_command → Briter_CAN_Command_e
  | .ReadValue => BRITER_CAN_GET_VALUE
  | .SetBaudrate _ => BRITER_CAN_SET_BAUDRATE
  | .SetAddress _ => BRITER_CAN_SET_ID
  | .SetDataMode _ => BRITER_CAN_SET_MODE
  | .SetReturnTime _ => BRITER_CAN_SET_RETURN_TIME
  | .SetZero => BRITER_CAN_SET_ZERO

/-- The scalar parameter of the CAN command, as a number. -/
def CAN_command.selection : CAN_command → Nat
  | .ReadValue => 0
  | .SetBaudrate baudrate => baudrate.toNat
  | .SetAddress to_address => to_address
  | .SetDataMode mode => mode.toNat
  | .SetReturnTime time => time
  | .SetZero => 0

/-! ## Transports used in the concrete instances -/

/-- A serial transport on which every transfer succeeds; the receive buffer holds zeros. -/
def uart_idle : UART_HandleTypeDef :=
  ⟨fun _ => HAL_OK, fun _ => HAL_OK, HAL_OK, fun _ => 0⟩

/-- A serial transport whose polling transmit fails with `HAL_ERROR`. -/
def uart_polling_down : UART_HandleTypeDef :=
  ⟨fun _ => HAL_ERROR, fun _ => HAL_OK, HAL_OK, fun _ => 0⟩

/-- A serial transport on which every transfer succeeds and the receive buffer holds the
bytes `rx`, zeros beyond them. -/
def uart_delivering (rx : List Nat) : UART_HandleTypeDef :=
  ⟨fun _ => HAL_OK, fun _ => HAL_OK, HAL_OK, fun i => rx.getD i 0⟩

/-- A CAN peripheral whose transmit primitive always returns `HAL_OK`. -/
def can_idle : CAN_HandleTypeDef :=
  ⟨fun _ _ => HAL_OK⟩

/-- A serial transport whose polling transmit times out. -/
def uart_transmit_timeout : UART_HandleTypeDef :=
  ⟨fun _ => HAL_TIMEOUT, fun _ => HAL_OK, HAL_OK, fun _ => 0⟩

/-- A serial transport whose transmit succeeds and whose receive reports `HAL_BUSY`. -/
def uart_receive_busy : UART_HandleTypeDef :=
  ⟨fun _ => HAL_OK, fun _ => HAL_OK, HAL_BUSY, fun _ => 0⟩

/-- A CAN peripheral whose transmit primitive always returns `HAL_BUSY`. -/
def can_busy : CAN_HandleTypeDef :=
  ⟨fun _ _ => HAL_BUSY⟩

/-! ## Lemmas on the CRC -/

theorem crc16_shift_lt (w : Nat) (h : w < 65536) : crc16_shift w < 65536 := by
  unfold crc16_shift
  split
  · exact Nat.xor_lt_two_pow (n := 16) (by omega) (by norm_num)
  · omega

theorem Calculate_CRC_bit_eq (w : Nat) (h : w < 65536) :
    Calculate_CRC_bit w = crc16_shift w := by
  have hx : (w / 2) ^^^ 0xa001 < 65536 :=
    Nat.xor_lt_two_pow (n := 16) (by omega) (by norm_num)
  unfold Calculate_CRC_bit crc16_shift
  rw [Nat.and_one_is_mod, Nat.shiftRight_one]
  by_cases hb : w % 2 = 1
  · rw [if_pos hb, if_pos (by omega), Nat.mod_eq_of_lt hx]
  · rw [if_neg hb, if_neg (by omega)]

theorem crc16_shift_iterate_lt (n w : Nat) (h : w < 65536) : crc16_shift^[n] w < 65536 := by
  induction n generalizing w with
  | zero => simpa using h
  | succ n ih => rw [Function.iterate_succ_apply]; exact ih _ (crc16_shift_lt w h)

theorem Calculate_CRC_inner_eq (n w : Nat) (h : w < 65536) :
    Calculate_CRC_inner n w = crc16_shift^[n] w := by
  induction n generalizing w with
  | zero => rfl
  | succ n ih =>
    rw [Calculate_CRC_inner, Function.iterate_succ_apply, Calculate_CRC_bit_eq w h]
    exact ih _ (crc16_shift_lt w h)

theorem crc16_octet_lt (acc b : Nat) (ha : acc < 65536) (hb : b < 256) :
    crc16_octet acc b < 65536 :=
  crc16_shift_iterate_lt 8 _ (Nat.xor_lt_two_pow (n := 16) ha (by omega))

theorem foldl_crc16_octet_lt (l : List Nat) (acc : Nat) (ha : acc < 65536) (hl : IsBytes l) :
    l.foldl crc16_octet acc < 65536 := by
  induction l generalizing acc with
  | nil => simpa using ha
  | cons b t ih =>
    rw [List.foldl_cons]
    exact ih _ (crc16_octet_lt acc b ha (hl b (List.mem_cons_self _ _)))
      (fun x hx => hl x (List.mem_cons_of_mem _ hx))

theorem crc16_lt (l : List Nat) (hl : IsBytes l) : crc16 l < 65536 :=
  foldl_crc16_octet_lt l _ (by norm_num) hl

theorem IsBytes_take (p : List Nat) (n : Nat) (hp : IsBytes p) : IsBytes (p.take n) :=
  fun b hb => hp b (List.mem_of_mem_take hb)

theorem rd_of_lt (p : List Nat) (i : Nat) (h : i < p.length) :
    rd p i = .ok (p.get ⟨i, h⟩) := by
  simp [rd, List.getElem?_eq_getElem h]

theorem rd_of_le (p : List Nat) (i : Nat) (h : p.length ≤ i) :
    rd p i = .error .outOfBounds := by
  simp [rd, List.getElem?_eq_none h]

/-- The byte loop started at index `i` with `k` bytes to go absorbs exactly those bytes. -/
theorem Calculate_CRC_loop_eq (pbuf : List Nat) (num : Nat) (hp : IsBytes (pbuf.take num))
    (hnum : num ≤ pbuf.length) (h255 : num ≤ 255) :
    ∀ (k i fuel wcrc : Nat), i + k = num → k < fuel → wcrc < 65536 →
      Calculate_CRC_loop pbuf num fuel i wcrc
        = .ok (((pbuf.take num).drop i).foldl crc16_octet wcrc) := by
  intro k
  induction k with
  | zero =>
    intro i fuel wcrc hi hf hw
    obtain ⟨f, rfl⟩ : ∃ f, fuel = f + 1 := ⟨fuel - 1, by omega⟩
    have hnil : (List.take num pbuf).drop i = [] := by
      apply List.drop_eq_nil_of_le; simp; omega
    rw [Calculate_CRC_loop, if_neg (by omega), hnil]; rfl
  | succ k ih =>
    intro i fuel wcrc hi hf hw
    obtain ⟨f, rfl⟩ : ∃ f, fuel = f + 1 := ⟨fuel - 1, by omega⟩
    have hlt : i < pbuf.length := by omega
    have hi2 : i < (List.take num pbuf).length := by simp; omega
    have hget : (List.take num pbuf).get ⟨i, hi2⟩ = pbuf.get ⟨i, hlt⟩ := by
      simp [List.getElem_take]
    have hb : pbuf.get ⟨i, hlt⟩ < 256 := hget ▸ hp _ (List.get_mem _ _ _)
    have hx : wcrc ^^^ pbuf.get ⟨i, hlt⟩ < 65536 :=
      Nat.xor_lt_two_pow (n := 16) hw (by omega)
    have hdrop : (List.take num pbuf).drop i
        = pbuf.get ⟨i, hlt⟩ :: (List.take num pbuf).drop (i + 1) := by
      rw [List.drop_eq_getElem_cons hi2]
      simp [List.getElem_take]
    rw [Calculate_CRC_loop, if_pos (by omega), rd_of_lt pbuf i hlt]
    simp only []
    rw [Nat.mod_eq_of_lt hx, Nat.mod_eq_of_lt (show i + 1 < 256 by omega),
      Calculate_CRC_inner_eq _ _ hx, hdrop, List.foldl_cons]
    exact ih (i + 1) f _ (by omega) (by omega) (crc16_shift_iterate_lt 8 _ hx)

/-- For at most 255 bytes, all inside the buffer, `Calculate_CRC` returns the reference CRC
of the first `num` bytes. -/
theorem Calculate_CRC_eq (fuel : Nat) (pbuf : List Nat) (num : Nat)
    (hp : IsBytes (pbuf.take num)) (hnum : num ≤ pbuf.length) (h255 : num ≤ 255)
    (hf : num < fuel) :
    Calculate_CRC fuel pbuf num = .ok (crc16 (pbuf.take num)) := by
  unfold Calculate_CRC crc16
  rw [Calculate_CRC_loop_eq pbuf num hp hnum h255 num 0 fuel 0xffff (by omega) hf
    (by norm_num)]
  simp

/-- A request for more bytes than the buffer holds reads outside the buffer. -/
theorem Calculate_CRC_loop_oob (pbuf : List Nat) (num : Nat) (hp : IsBytes pbuf)
    (hnum : pbuf.length < num) (h255 : pbuf.length ≤ 255) :
    ∀ (k i fuel wcrc : Nat), i + k = pbuf.length → k < fuel → wcrc < 65536 →
      Calculate_CRC_loop pbuf num fuel i wcrc = .error .outOfBounds := by
  intro k
  induction k with
  | zero =>
    intro i fuel wcrc hi hf hw
    obtain ⟨f, rfl⟩ : ∃ f, fuel = f + 1 := ⟨fuel - 1, by omega⟩
    rw [Calculate_CRC_loop, if_pos (by omega), rd_of_le pbuf i (by omega)]
  | succ k ih =>
    intro i fuel wcrc hi hf hw
    obtain ⟨f, rfl⟩ : ∃ f, fuel = f + 1 := ⟨fuel - 1, by omega⟩
    have hlt : i < pbuf.length := by omega
    have hb : pbuf.get ⟨i, hlt⟩ < 256 := hp _ (List.get_mem _ _ _)
    have hx : wcrc ^^^ pbuf.get ⟨i, hlt⟩ < 65536 :=
      Nat.xor_lt_two_pow (n := 16) hw (by omega)
    rw [Calculate_CRC_loop, if_pos (by omega), rd_of_lt pbuf i hlt]
    simp only []
    rw [Nat.mod_eq_of_lt hx, Nat.mod_eq_of_lt (show i + 1 < 256 by omega),
      Calculate_CRC_inner_eq _ _ hx]
    exact ih (i + 1) f _ (by omega) (by omega) (crc16_shift_iterate_lt 8 _ hx)

/-- With `num` at least 256 and 256 readable bytes, the loop condition `i < num` holds in
every state the `uint8_t` counter can reach: no step budget suffices. -/
theorem Calculate_CRC_loop_spins (pbuf : List Nat) (num : Nat) (hlen : 256 ≤ pbuf.length)
    (hnum : 256 ≤ num) :
    ∀ (fuel i wcrc : Nat), i < 256 →
      Calculate_CRC_loop pbuf num fuel i wcrc = .error .outOfFuel := by
  intro fuel
  induction fuel with
  | zero => intro i wcrc _; rfl
  | succ f ih =>
    intro i wcrc hi
    rw [Calculate_CRC_loop, if_pos (by omega), rd_of_lt pbuf i (by omega)]
    exact ih _ _ (Nat.mod_lt _ (by norm_num))

theorem Calculate_CRC_iterations_spins (num : Nat) (hnum : 256 ≤ num) :
    ∀ (fuel i : Nat), i < 256 → Calculate_CRC_iterations num fuel i = fuel := by
  intro fuel
  induction fuel with
  | zero => intro i _; rfl
  | succ f ih =>
    intro i hi
    rw [Calculate_CRC_iterations, if_pos (by omega), ih _ (Nat.mod_lt _ (by norm_num))]

/-- For `num` up to 255 the body of the byte loop is entered exactly `num` times. -/
theorem Calculate_CRC_iterations_eq (num : Nat) (h255 : num ≤ 255) :
    ∀ (k i fuel : Nat), i + k = num → k < fuel → Calculate_CRC_iterations num fuel i = k := by
  intro k
  induction k with
  | zero =>
    intro i fuel hi hf
    obtain ⟨f, rfl⟩ : ∃ f, fuel = f + 1 := ⟨fuel - 1, by omega⟩
    rw [Calculate_CRC_iterations, if_neg (by omega)]
  | succ k ih =>
    intro i fuel hi hf
    obtain ⟨f, rfl⟩ : ∃ f, fuel = f + 1 := ⟨fuel - 1, by omega⟩
    rw [Calculate_CRC_iterations, if_pos (by omega),
      Nat.mod_eq_of_lt (show i + 1 < 256 by omega), ih (i + 1) f (by omega) (by omega)]

/-! ## The CRC engine: claims C1 and C2 -/

/-- C1: for every byte sequence of length at most 255 (the first `num` bytes of a buffer,
`num ≤ 255`), given a step budget above `num`, `Calculate_CRC` returns the value of the
reference CRC-16/MODBUS `crc16` of the specification; in particular the empty sequence gives
0xFFFF. -/
theorem C1_Calculate_CRC_is_crc16 (fuel : Nat) (pbuf : List Nat) (num : Nat)
    (hp : IsBytes pbuf) (hnum : num ≤ pbuf.length) (h255 : num ≤ 255) (hf : num < fuel) :
    Calculate_CRC fuel pbuf num = .ok (crc16 (pbuf.take num))
      ∧ Calculate_CRC fuel pbuf 0 = .ok 0xFFFF ∧ crc16 [] = 0xFFFF := by
  refine ⟨Calculate_CRC_eq fuel pbuf num (IsBytes_take pbuf num hp) hnum h255 hf, ?_, rfl⟩
  obtain ⟨f, rfl⟩ : ∃ f, fuel = f + 1 := ⟨fuel - 1, by omega⟩
  rfl

/-- The CRC of the six leading bytes of the read request of device 1, within a step budget
of 7. -/
theorem C1_witness :
    Calculate_CRC 7 [0x01, 0x03, 0x00, 0x00, 0x00, 0x02] 6
        = .ok (crc16 ([0x01, 0x03, 0x00, 0x00, 0x00, 0x02].take 6))
      ∧ Calculate_CRC 7 [0x01, 0x03, 0x00, 0x00, 0x00, 0x02] 0 = .ok 0xFFFF
      ∧ crc16 [] = 0xFFFF :=
  C1_Calculate_CRC_is_crc16 7 [0x01, 0x03, 0x00, 0x00, 0x00, 0x02] 6 (by decide) (by decide)
    (by decide) (by decide)

/-- C2 (evaluation of the code at the failing input): on a buffer of 256 zero bytes with
`num = 256`, a value inside the range of the `uint16_t` parameter, `Calculate_CRC` returns
under no step budget, and the body of its byte loop is entered on every step of the budget
rather than exactly 256 times. -/
theorem C2_Calculate_CRC_256_never_returns (fuel : Nat) :
    Calculate_CRC fuel (List.replicate 256 0) 256 = .error .outOfFuel
      ∧ Calculate_CRC_iterations 256 fuel 0 = fuel :=
  ⟨Calculate_CRC_loop_spins _ 256 (Nat.le_of_eq (List.length_replicate _ _).symm)
      (by norm_num) fuel 0 0xffff (by norm_num),
    Calculate_CRC_iterations_spins 256 (by norm_num) fuel 0 (by norm_num)⟩


set_option maxRecDepth 100000

/-! ## Lemmas on the RS485 frames -/

theorem and_255 (x : Nat) : x &&& 0xFF = x % 256 := Nat.and_pow_two_sub_one_eq_mod x 8

theorem list_of_length_8 (l : List Nat) (h : l.length = 8) :
    ∃ t0 t1 t2 t3 t4 t5 t6 t7, l = [t0, t1, t2, t3, t4, t5, t6, t7] := by
  match l, h with
  | [t0, t1, t2, t3, t4, t5, t6, t7], _ => exact ⟨t0, t1, t2, t3, t4, t5, t6, t7, rfl⟩

theorem RS485_Enc_Func_e.toNat_lt (f : RS485_Enc_Func_e) : f.toNat < 256 := by
  cases f <;> decide

/-- The frame `Encoder_Send_Construct` leaves in the 8-byte buffer. -/
theorem Encoder_Send_Construct_eq (fuel : Nat) (txbuf : List Nat) (func : RS485_Enc_Func_e)
    (a r v : Nat) (hbuf : txbuf.length = 8) (ha : a < 256) (hr : r < 65536) (hv : v < 65536)
    (hf : 6 < fuel) :
    Encoder_Send_Construct fuel txbuf func a r v
      = .ok [a, func.toNat, r / 256, r % 256, v / 256, v % 256,
          crc16 [a, func.toNat, r / 256, r % 256, v / 256, v % 256] % 256,
          crc16 [a, func.toNat, r / 256, r % 256, v / 256, v % 256] / 256] := by
  obtain ⟨t0, t1, t2, t3, t4, t5, t6, t7, rfl⟩ := list_of_length_8 txbuf hbuf
  have hfn := func.toNat_lt
  have hbody : IsBytes [a, func.toNat, r / 256, r % 256, v / 256, v % 256] := by
    intro b hb
    simp only [List.mem_cons, List.mem_singleton, List.not_mem_nil, or_false] at hb
    omega
  have hcrc := crc16_lt _ hbody
  have hc := Calculate_CRC_eq fuel
    [a, func.toNat, r / 256, r % 256, v / 256, v % 256, t6, t7] 6 hbody (by simp) (by omega) hf
  simp only [List.take] at hc
  unfold Encoder_Send_Construct
  simp only [List.set, and_255, Nat.shiftRight_eq_div_pow, Nat.mod_mod]
  norm_num
  rw [Nat.mod_eq_of_lt ha, Nat.mod_eq_of_lt hfn, Nat.mod_eq_of_lt hv,
    Nat.mod_eq_of_lt (show r / 256 < 256 by omega),
    Nat.mod_eq_of_lt (show v / 256 < 256 by omega), hc]
  simp only [Nat.mod_eq_of_lt
    (show crc16 [a, func.toNat, r / 256, r % 256, v / 256, v % 256] / 256 < 256 by omega)]

/-- The read request for the device address 1. -/
theorem read_request_1 (fuel : Nat) (hf : 6 < fuel) :
    Encoder_Send_Construct fuel (List.replicate 8 0) ENC_READ 1 BRITER_RS485_VALUE_ADDR 2
      = .ok [0x01, 0x03, 0x00, 0x00, 0x00, 0x02, 0xC4, 0x0B] := by
  rw [Encoder_Send_Construct_eq fuel (List.replicate 8 0) ENC_READ 1 BRITER_RS485_VALUE_ADDR 2
    rfl (by decide) (by decide) (by decide) hf]
  exact congrArg Except.ok (by decide)

/-! ## Request frames: claims C3 and C4 -/

/-- C3: for every function code, every device address `a`, every 16-bit register address
`r` and every 16-bit value `v`, `Encoder_Send_Construct` fills the 8-byte frame with
`[a, function, r >> 8, r & 0xFF, v >> 8, v & 0xFF, crc & 0xFF, crc >> 8]`, where `crc` is what
`Calculate_CRC` returns over bytes 0..5 of that same frame, which is the reference CRC-16 of
those six bytes. -/
theorem C3_Encoder_Send_Construct_frame (fuel : Nat) (txbuf : List Nat)
    (func : RS485_Enc_Func_e) (a r v : Nat) (hbuf : txbuf.length = 8) (ha : a < 256)
    (hr : r < 65536) (hv : v < 65536) (hf : 6 < fuel) :
    ∃ crc : Nat,
      Encoder_Send_Construct fuel txbuf func a r v
          = .ok [a, func.toNat, r >>> 8, r &&& 0xFF, v >>> 8, v &&& 0xFF,
              crc &&& 0xFF, crc >>> 8]
        ∧ Calculate_CRC fuel
            [a, func.toNat, r >>> 8, r &&& 0xFF, v >>> 8, v &&& 0xFF, crc &&& 0xFF, crc >>> 8] 6
          = .ok crc
        ∧ crc = crc16 [a, func.toNat, r >>> 8, r &&& 0xFF, v >>> 8, v &&& 0xFF] := by
  have hfn := func.toNat_lt
  have hbody : IsBytes [a, func.toNat, r / 256, r % 256, v / 256, v % 256] := by
    intro b hb
    simp only [List.mem_cons, List.mem_singleton, List.not_mem_nil, or_false] at hb
    omega
  refine ⟨crc16 [a, func.toNat, r >>> 8, r &&& 0xFF, v >>> 8, v &&& 0xFF], ?_, ?_, rfl⟩
  · simp only [and_255, Nat.shiftRight_eq_div_pow]
    exact Encoder_Send_Construct_eq fuel txbuf func a r v hbuf ha hr hv hf
  · simp only [and_255, Nat.shiftRight_eq_div_pow]
    have hc := Calculate_CRC_eq fuel
      [a, func.toNat, r / 256, r % 256, v / 256, v % 256,
        crc16 [a, func.toNat, r / 256, r % 256, v / 256, v % 256] % 256,
        crc16 [a, func.toNat, r / 256, r % 256, v / 256, v % 256] / 256] 6 hbody (by simp)
      (by omega) hf
    simpa using hc

/-- The WRITE_MULTI request of device 1 for register 0x000B and value 0x1234. -/
theorem C3_witness :
    Encoder_Send_Construct 7 (List.replicate 8 0) ENC_WRITE_MULTI 0x01 0x000B 0x1234
        = .ok [0x01, 0x10, 0x00, 0x0B, 0x12, 0x34, 0xBC, 0xBC]
      ∧ Calculate_CRC 7 [0x01, 0x10, 0x00, 0x0B, 0x12, 0x34, 0xBC, 0xBC] 6 = .ok 0xBCBC
      ∧ crc16 [0x01, 0x10, 0x00, 0x0B, 0x12, 0x34] = 0xBCBC := by
  obtain ⟨crc, h1, h2, h3⟩ := C3_Encoder_Send_Construct_frame 7 (List.replicate 8 0)
    ENC_WRITE_MULTI 0x01 0x000B 0x1234 (by decide) (by decide) (by decide) (by decide)
    (by decide)
  have hc : crc = 0xBCBC := h3.trans (by decide)
  subst hc
  exact ⟨h1, h2, by decide⟩

/-- C4: for a handle with address 1 the read request (function READ, register 0x00,
count 2) is exactly the 8 bytes 01 03 00 00 00 02 C4 0B, the six leading bytes followed by
their CRC-16 0x0BC4, low byte first. `BRITER_RS485_GetEncoderValue_DMA` hands exactly this
frame to the transmit primitive and returns its status; `BRITER_RS485_GetEncoderValue` builds
the same frame, and it is the one frame sent in every outcome it has. -/
theorem C4_read_request_address_1 (fuel : Nat) (handler : Briter_Encoder_t)
    (haddr : handler.addr = 1) (hf : 6 < fuel) :
    BRITER_RS485_GetEncoderValue_DMA fuel handler
        = .ok ⟨handler.huart.Transmit_DMA [0x01, 0x03, 0x00, 0x00, 0x00, 0x02, 0xC4, 0x0B],
            handler, [[0x01, 0x03, 0x00, 0x00, 0x00, 0x02, 0xC4, 0x0B]]⟩
      ∧ Encoder_Send_Construct fuel (List.replicate 8 0) ENC_READ (handler.addr % 65536)
            BRITER_RS485_VALUE_ADDR 2
          = .ok [0x01, 0x03, 0x00, 0x00, 0x00, 0x02, 0xC4, 0x0B]
      ∧ (∀ o, BRITER_RS485_GetEncoderValue fuel handler = .ok o →
          o.sent = [[0x01, 0x03, 0x00, 0x00, 0x00, 0x02, 0xC4, 0x0B]])
      ∧ (handler.huart.Transmit [0x01, 0x03, 0x00, 0x00, 0x00, 0x02, 0xC4, 0x0B] ≠ HAL_OK →
          BRITER_RS485_GetEncoderValue fuel handler
            = .ok ⟨0xFFFFFFFF, handler, [[0x01, 0x03, 0x00, 0x00, 0x00, 0x02, 0xC4, 0x0B]]⟩)
      ∧ crc16 [0x01, 0x03, 0x00, 0x00, 0x00, 0x02] = 0x0BC4 := by
  have hreq := read_request_1 fuel hf
  refine ⟨?_, ?_, ?_, ?_, by decide⟩
  · unfold BRITER_RS485_GetEncoderValue_DMA
    rw [haddr, hreq]; rfl
  · rw [haddr]; exact hreq
  · intro o ho
    unfold BRITER_RS485_GetEncoderValue at ho
    rw [haddr, hreq] at ho
    simp only [] at ho
    split at ho
    · cases ho; rfl
    · split at ho
      · cases ho; rfl
      · split at ho
        · cases ho
        · split at ho
          · cases ho; rfl
          · split at ho
            · cases ho
            · cases ho; rfl
  · intro htx
    unfold BRITER_RS485_GetEncoderValue
    rw [haddr, hreq]
    simp only []
    rw [if_pos (by simpa [Encoder_Transmit] using htx)]
    rfl

/-- The read request of a handle with address 1 whose polling transmit fails and whose DMA
transmit succeeds. -/
theorem C4_witness :
    BRITER_RS485_GetEncoderValue_DMA 7
          ⟨1, 0, uart_polling_down⟩
        = .ok ⟨HAL_OK, ⟨1, 0, uart_polling_down⟩,
            [[0x01, 0x03, 0x00, 0x00, 0x00, 0x02, 0xC4, 0x0B]]⟩
      ∧ BRITER_RS485_GetEncoderValue 7
          ⟨1, 0, uart_polling_down⟩
        = .ok ⟨0xFFFFFFFF, ⟨1, 0, uart_polling_down⟩,
            [[0x01, 0x03, 0x00, 0x00, 0x00, 0x02, 0xC4, 0x0B]]⟩ :=
  have h := C4_read_request_address_1 7
    ⟨1, 0, uart_polling_down⟩ rfl (by decide)
  ⟨h.1, h.2.2.2.1 (by decide)⟩


/-! ## Lemmas on the validation of responses -/

theorem rd_getD (p : List Nat) (i : Nat) (h : i < p.length) : rd p i = .ok (p.getD i 0) := by
  simp [rd, List.getD, List.getElem?_eq_getElem h]

theorem IsBytes_getD (p : List Nat) (hp : IsBytes p) (i : Nat) : p.getD i 0 < 256 := by
  by_cases h : i < p.length
  · rw [List.getD_eq_getElem _ _ h]; exact hp _ (List.getElem_mem _)
  · rw [List.getD_eq_default _ _ (by omega)]; norm_num

theorem RS485_Enc_Func_e.toNat_eq_READ (f : RS485_Enc_Func_e) :
    f.toNat = ENC_READ.toNat ↔ f = ENC_READ := by
  cases f <;> decide

/-- What `Encoder_CheckRX` returns when the covered length `L` does not wrap and the buffer
holds the `L + 2` bytes it reads. -/
theorem Encoder_CheckRX_eq (fuel : Nat) (p : List Nat) (a : Nat) (f : RS485_Enc_Func_e)
    (L : Nat) (hp : IsBytes p) (hfuel : L < fuel)
    (hL : L = if f = ENC_READ then p.getD 2 0 + 3 else 6) (h255 : L ≤ 255)
    (hlen : L + 2 ≤ p.length) :
    Encoder_CheckRX fuel p a f
      = .ok (if p.getD 0 0 = a ∧ p.getD 1 0 = f.toNat
              ∧ p.getD L 0 = crc16 (p.take L) % 256
              ∧ p.getD (L + 1) 0 = crc16 (p.take L) / 256
            then HAL_OK else HAL_ERROR) := by
  have h3 : 3 ≤ L := by rw [hL]; split <;> omega
  have hcrc := crc16_lt _ (IsBytes_take p L hp)
  unfold Encoder_CheckRX
  rw [rd_getD p 0 (by omega)]
  simp only []
  by_cases h0 : p.getD 0 0 = a
  swap
  · rw [if_pos h0, if_neg (fun h => h0 h.1)]
  rw [if_neg (not_not.mpr h0), rd_getD p 1 (by omega)]
  simp only []
  by_cases h1 : p.getD 1 0 = f.toNat
  swap
  · rw [if_pos h1, if_neg (fun h => h1 h.2.1)]
  rw [if_neg (not_not.mpr h1)]
  have hread : p.getD 1 0 = ENC_READ.toNat ↔ f = ENC_READ := by
    rw [h1]; exact f.toNat_eq_READ
  split
  · next e heq =>
    exfalso
    by_cases hf : f = ENC_READ
    · rw [if_pos (hread.mpr hf), rd_getD p 2 (by omega)] at heq
      cases heq
    · rw [if_neg (fun h => hf (hread.mp h))] at heq
      cases heq
  next T heq =>
  have hT : T = L := by
    by_cases hf : f = ENC_READ
    · rw [if_pos (hread.mpr hf), rd_getD p 2 (by omega)] at heq
      rw [hL, if_pos hf] at h255 ⊢
      simp only [Except.ok.injEq] at heq
      omega
    · rw [if_neg (fun h => hf (hread.mp h))] at heq
      rw [hL, if_neg hf]
      simp only [Except.ok.injEq] at heq
      omega
  subst hT
  rw [Calculate_CRC_eq fuel p T (IsBytes_take p T hp) (by omega) h255 hfuel]
  simp only []
  rw [rd_getD p T (by omega)]
  simp only [and_255, Nat.shiftRight_eq_div_pow, Nat.pow_zero, Nat.div_one, Nat.mod_mod]
  by_cases hlo : p.getD T 0 = crc16 (p.take T) % 256
  swap
  · rw [if_pos hlo, if_neg (fun h => hlo h.2.2.1)]
  rw [if_neg (not_not.mpr hlo), rd_getD p (T + 1) (by omega)]
  simp only []
  have hhi : crc16 (List.take T p) / 2 ^ 8 % 256 = crc16 (List.take T p) / 256 := by
    norm_num; omega
  rw [hhi]
  by_cases hhi2 : p.getD (T + 1) 0 = crc16 (p.take T) / 256
  · rw [if_neg (not_not.mpr hhi2), if_pos ⟨h0, h1, hlo, hhi2⟩]
  · rw [if_pos hhi2, if_neg (fun h => hhi2 h.2.2.2)]

/-- A mismatch of the address or of the function code ends `Encoder_CheckRX` before any
CRC is computed. -/
theorem Encoder_CheckRX_mismatch (fuel : Nat) (p : List Nat) (a : Nat) (f : RS485_Enc_Func_e)
    (hlen : 2 ≤ p.length) (hmis : p.getD 0 0 ≠ a ∨ p.getD 1 0 ≠ f.toNat) :
    Encoder_CheckRX fuel p a f = .ok HAL_ERROR := by
  unfold Encoder_CheckRX
  rw [rd_getD p 0 (by omega)]
  simp only []
  by_cases h0 : p.getD 0 0 = a
  · rw [if_neg (not_not.mpr h0), rd_getD p 1 (by omega)]
    simp only []
    rw [if_pos (hmis.resolve_left (not_not.mpr h0))]
  · rw [if_pos h0]

/-- Zero bytes leave a zero accumulator at zero. -/
theorem foldl_crc16_octet_zeros (n : Nat) :
    (List.replicate n 0).foldl crc16_octet 0 = 0 := by
  induction n with
  | zero => rfl
  | succ n ih =>
    rw [List.replicate_succ, List.foldl_cons, show crc16_octet 0 0 = 0 by decide]
    exact ih

theorem crc16_append_zeros (l : List Nat) (n : Nat) (h : crc16 l = 0) :
    crc16 (l ++ List.replicate n 0) = 0 := by
  unfold crc16 at h ⊢
  rw [List.foldl_append, h]
  exact foldl_crc16_octet_zeros n

/-! ## Validation of responses: claims C5 and C6 -/

/-- C5 (evaluation of the code at the failing input): the 258-byte READ response
`read_response_253`, whose byte-count field is 253, is valid for address 1 in the sense of
the claim (address, function code, and the CRC-16 of its 256 leading bytes at positions 256
and 257), yet `Encoder_CheckRX` returns `HAL_ERROR` on it under every positive step budget:
`pData[2] + 3` is stored in a `uint8_t` and becomes 0. -/
theorem C5_Encoder_CheckRX_rejects_valid_253 (fuel : Nat) :
    read_response_253.length = 258 ∧ IsBytes read_response_253
      ∧ RS485_response_valid read_response_253 0x01 ENC_READ
      ∧ Encoder_CheckRX (fuel + 1) read_response_253 0x01 ENC_READ = .ok HAL_ERROR := by
  have htake : read_response_253.take 256
      = [0x01, 0x03, 0xFD, 0xE1, 0x71] ++ List.replicate 251 0x00 := by decide
  have hcrc : crc16 (read_response_253.take 256) = 0 := by
    rw [htake]; exact crc16_append_zeros _ 251 (by decide)
  refine ⟨by decide, by decide, ⟨by decide, by decide, ?_, ?_⟩, rfl⟩
  · rw [if_pos rfl, show 3 + read_response_253.getD 2 0 = 256 by decide, hcrc]; decide
  · rw [if_pos rfl, show 3 + read_response_253.getD 2 0 = 256 by decide, hcrc]; decide

/-- C6: for every received buffer (of at least two bytes; in particular one whose trailing
CRC is correct), if byte 0 differs from the expected address or byte 1 differs from the
expected function code, `Encoder_CheckRX` returns `HAL_ERROR`, and the RS485 position decode
`BRITER_RS485_GetEncoderValue_DMA_Callback` returns the sentinel 0xFFFFFFFF. -/
theorem C6_mismatch_rejected (fuel : Nat) (p : List Nat) (handler : Briter_Encoder_t)
    (f : RS485_Enc_Func_e) (hlen : 2 ≤ p.length) (haddr : handler.addr < 256)
    (hmis : p.getD 0 0 ≠ handler.addr ∨ p.getD 1 0 ≠ f.toNat) :
    Encoder_CheckRX fuel p handler.addr f = .ok HAL_ERROR
      ∧ (f = ENC_READ →
          BRITER_RS485_GetEncoderValue_DMA_Callback fuel handler p
            = .ok ⟨0xFFFFFFFF, handler, []⟩) := by
  have h := Encoder_CheckRX_mismatch fuel p handler.addr f hlen hmis
  refine ⟨h, ?_⟩
  rintro rfl
  unfold BRITER_RS485_GetEncoderValue_DMA_Callback
  rw [Nat.mod_eq_of_lt haddr, h]
  rfl

/-- A READ response with a correct CRC for device 2, checked against the expected
address 1. -/
theorem C6_witness :
    RS485_response_valid [0x02, 0x03, 0x04, 0x00, 0x01, 0x02, 0x03, 0xD9, 0x92] 0x02 ENC_READ
      ∧ Encoder_CheckRX 7 [0x02, 0x03, 0x04, 0x00, 0x01, 0x02, 0x03, 0xD9, 0x92] 0x01 ENC_READ
        = .ok HAL_ERROR
      ∧ (ENC_READ = ENC_READ →
          BRITER_RS485_GetEncoderValue_DMA_Callback 7
              ⟨0x01, 0, uart_idle⟩
              [0x02, 0x03, 0x04, 0x00, 0x01, 0x02, 0x03, 0xD9, 0x92]
            = .ok ⟨0xFFFFFFFF,
                ⟨0x01, 0, uart_idle⟩, []⟩) :=
  ⟨by decide,
    C6_mismatch_rejected 7 [0x02, 0x03, 0x04, 0x00, 0x01, 0x02, 0x03, 0xD9, 0x92]
      ⟨0x01, 0, uart_idle⟩ ENC_READ
      (by decide) (by decide) (by decide)⟩


/-! ## Round trip of a write: claim C7 -/

/-- The shared body of the write operations returns `HAL_OK` when both transfers succeed and
the receive buffer holds an accepted frame equal to the request. -/
theorem RS485_write_single_ok (fuel : Nat) (handler : Briter_Encoder_t) (r v : Nat)
    (frame : List Nat) (haddr : handler.addr < 256) (hr : r < 65536) (hv : v < 65536)
    (hsc : Encoder_Send_Construct fuel (List.replicate 8 0) ENC_WRITE_SINGLE handler.addr r v
      = .ok frame)
    (hcheck : Encoder_CheckRX fuel frame handler.addr ENC_WRITE_SINGLE = .ok HAL_OK)
    (htx : handler.huart.Transmit (frame.take 8) = HAL_OK)
    (hrx : handler.huart.Receive = HAL_OK)
    (hbuf : (Encoder_Receive handler.huart 8).2 = frame) :
    RS485_write_single fuel handler r v = .ok ⟨HAL_OK, handler, [frame.take 8]⟩ := by
  have hecho : RS485_echo_matches frame frame = true := by simp [RS485_echo_matches]
  unfold RS485_write_single
  rw [Nat.mod_eq_of_lt hr, Nat.mod_eq_of_lt hv,
    Nat.mod_eq_of_lt (show handler.addr < 65536 by omega), hsc]
  simp only []
  rw [if_neg (by simpa [Encoder_Transmit] using htx),
    if_neg (by simpa [Encoder_Receive] using hrx), hbuf, Nat.mod_eq_of_lt haddr, hcheck]
  simp only []
  rw [if_neg (by simp), if_pos hecho]


/-- C7: for every device address, register address and 16-bit value, the 8-byte request
built by `Encoder_Send_Construct` with function WRITE_SINGLE, taken as the response, is
accepted by `Encoder_CheckRX` for that address and function and passes the echo comparison of
bytes 2..5; so a write operation whose transfers succeed and whose receive buffer holds that
frame returns `HAL_OK` (stated for the shared body and for `BRITER_RS485_SetBaudrate`). -/
theorem C7_write_round_trip (fuel : Nat) (txbuf : List Nat) (handler : Briter_Encoder_t)
    (r v : Nat) (hbuf : txbuf.length = 8) (haddr : handler.addr < 256) (hr : r < 65536)
    (hv : v < 65536) (hf : 6 < fuel) :
    ∃ frame : List Nat,
      Encoder_Send_Construct fuel txbuf ENC_WRITE_SINGLE handler.addr r v = .ok frame
        ∧ Encoder_CheckRX fuel frame handler.addr ENC_WRITE_SINGLE = .ok HAL_OK
        ∧ RS485_echo_matches frame frame = true
        ∧ (handler.huart.Transmit frame = HAL_OK → handler.huart.Receive = HAL_OK →
            (Encoder_Receive handler.huart 8).2 = frame →
            RS485_write_single fuel handler r v = .ok ⟨HAL_OK, handler, [frame]⟩
              ∧ ∀ baudrate : RS485_Enc_Baudrate_e,
                  r = BRITER_RS485_BAUDRATE_ADDR → v = baudrate.toNat →
                  BRITER_RS485_SetBaudrate fuel handler baudrate
                    = .ok ⟨HAL_OK, handler, [frame]⟩) := by
  have hbody : IsBytes [handler.addr, ENC_WRITE_SINGLE.toNat, r / 256, r % 256, v / 256,
      v % 256] := by
    intro b hb
    simp only [List.mem_cons, List.mem_singleton, List.not_mem_nil, or_false] at hb
    rcases hb with rfl | rfl | rfl | rfl | rfl | rfl
    · exact haddr
    · decide
    all_goals omega
  have hcrc := crc16_lt _ hbody
  have hframe : IsBytes [handler.addr, ENC_WRITE_SINGLE.toNat, r / 256, r % 256, v / 256,
      v % 256,
      crc16 [handler.addr, ENC_WRITE_SINGLE.toNat, r / 256, r % 256, v / 256, v % 256] % 256,
      crc16 [handler.addr, ENC_WRITE_SINGLE.toNat, r / 256, r % 256, v / 256, v % 256] / 256] := by
    intro b hb
    simp only [List.mem_cons, List.mem_singleton, List.not_mem_nil, or_false] at hb
    rcases hb with rfl | rfl | rfl | rfl | rfl | rfl | rfl | rfl
    · exact haddr
    · decide
    all_goals omega
  have hcheck : Encoder_CheckRX fuel
      [handler.addr, ENC_WRITE_SINGLE.toNat, r / 256, r % 256, v / 256, v % 256,
        crc16 [handler.addr, ENC_WRITE_SINGLE.toNat, r / 256, r % 256, v / 256, v % 256] % 256,
        crc16 [handler.addr, ENC_WRITE_SINGLE.toNat, r / 256, r % 256, v / 256, v % 256] / 256]
      handler.addr ENC_WRITE_SINGLE = .ok HAL_OK := by
    refine (Encoder_CheckRX_eq fuel _ handler.addr ENC_WRITE_SINGLE 6 hframe hf ?_ ?_ ?_).trans ?_
    · exact (if_neg (by decide)).symm
    · decide
    · exact Nat.le_refl 8
    · exact congrArg Except.ok (if_pos ⟨rfl, rfl, rfl, rfl⟩)
  have hecho : ∀ l : List Nat, RS485_echo_matches l l = true := by
    intro l; simp [RS485_echo_matches]
  refine ⟨_, Encoder_Send_Construct_eq fuel txbuf ENC_WRITE_SINGLE handler.addr r v hbuf haddr
    hr hv hf, hcheck, hecho _, ?_⟩
  intro htx hrx hbufrx
  have hws := RS485_write_single_ok fuel handler r v _ haddr hr hv
    (Encoder_Send_Construct_eq fuel _ ENC_WRITE_SINGLE handler.addr r v rfl haddr hr hv hf)
    hcheck htx hrx hbufrx
  refine ⟨hws, ?_⟩
  rintro baudrate rfl rfl
  exact hws

/-- Setting 115200 baud on device 1 over a transport that succeeds and echoes the
request. -/
theorem C7_witness :
    BRITER_RS485_SetBaudrate 7
        ⟨0x01, 0, (uart_delivering [0x01, 0x06, 0x00, 0x05, 0x00, 0x04, 0x98, 0x08])⟩
        .RS485_ENC_BAUDRATE_115200
      = .ok ⟨HAL_OK,
          ⟨0x01, 0, (uart_delivering [0x01, 0x06, 0x00, 0x05, 0x00, 0x04, 0x98, 0x08])⟩,
          [[0x01, 0x06, 0x00, 0x05, 0x00, 0x04, 0x98, 0x08]]⟩ := by
  obtain ⟨frame, h1, _, _, h4⟩ := C7_write_round_trip 7 (List.replicate 8 0)
    ⟨0x01, 0, (uart_delivering [0x01, 0x06, 0x00, 0x05, 0x00, 0x04, 0x98, 0x08])⟩
    BRITER_RS485_BAUDRATE_ADDR 4 (by decide) (by decide) (by decide) (by decide) (by decide)
  have e : Encoder_Send_Construct 7 (List.replicate 8 0) ENC_WRITE_SINGLE 0x01
      BRITER_RS485_BAUDRATE_ADDR 4 = .ok [0x01, 0x06, 0x00, 0x05, 0x00, 0x04, 0x98, 0x08] := by
    rfl
  have hframe : frame = [0x01, 0x06, 0x00, 0x05, 0x00, 0x04, 0x98, 0x08] :=
    (Except.ok.inj (e.symm.trans h1)).symm
  subst hframe
  exact (h4 rfl rfl rfl).2 .RS485_ENC_BAUDRATE_115200 rfl rfl

/-! ## Position decoding: claims C8 and C9 -/

theorem shl32_byte (b n : Nat) (hb : b < 256) (hn : n ≤ 24) : shl32 b n = b <<< n := by
  unfold shl32
  apply Nat.mod_eq_of_lt
  rw [Nat.shiftLeft_eq]
  calc b * 2 ^ n ≤ 255 * 2 ^ 24 :=
        Nat.mul_le_mul (by omega) (Nat.pow_le_pow_right (by norm_num) hn)
    _ < 4294967296 := by norm_num

theorem shl_byte_lt (b n : Nat) (hb : b < 256) (hn : n ≤ 24) : b <<< n < 2 ^ 32 := by
  rw [Nat.shiftLeft_eq]
  calc b * 2 ^ n ≤ 255 * 2 ^ 24 :=
        Nat.mul_le_mul (by omega) (Nat.pow_le_pow_right (by norm_num) hn)
    _ < 2 ^ 32 := by norm_num

/-- The big-endian assembly of `RS485_assemble` on a buffer of at least 7 bytes. -/
theorem RS485_assemble_eq (p : List Nat) (hp : IsBytes p) (h7 : 7 ≤ p.length) :
    RS485_assemble p
        = .ok (p.getD 3 0 <<< 24 ||| p.getD 4 0 <<< 16 ||| p.getD 5 0 <<< 8 ||| p.getD 6 0)
      ∧ (p.getD 3 0 <<< 24 ||| p.getD 4 0 <<< 16 ||| p.getD 5 0 <<< 8 ||| p.getD 6 0)
          < 4294967296 := by
  have h3 := IsBytes_getD p hp 3
  have h4 := IsBytes_getD p hp 4
  have h5 := IsBytes_getD p hp 5
  have h6 := IsBytes_getD p hp 6
  have hlt : (p.getD 3 0 <<< 24 ||| p.getD 4 0 <<< 16 ||| p.getD 5 0 <<< 8 ||| p.getD 6 0)
      < 2 ^ 32 :=
    Nat.or_lt_two_pow
      (Nat.or_lt_two_pow
        (Nat.or_lt_two_pow (shl_byte_lt _ 24 h3 (by norm_num))
          (shl_byte_lt _ 16 h4 (by norm_num)))
        (shl_byte_lt _ 8 h5 (by norm_num)))
      (by omega)
  have hlt2 : (p.getD 3 0 <<< 24 ||| p.getD 4 0 <<< 16 ||| p.getD 5 0 <<< 8 ||| p.getD 6 0)
      < 4294967296 := hlt
  refine ⟨?_, hlt2⟩
  unfold RS485_assemble
  rw [rd_getD p 3 (by omega), rd_getD p 4 (by omega), rd_getD p 5 (by omega),
    rd_getD p 6 (by omega)]
  simp only []
  rw [shl32_byte _ _ h3 (by norm_num), shl32_byte _ _ h4 (by norm_num),
    shl32_byte _ _ h5 (by norm_num), shl32_byte _ _ h6 (by norm_num)]
  simp only [Nat.reduceMul, Nat.shiftLeft_zero]
  rw [Nat.mod_eq_of_lt hlt2]

/-- C8: for every handle and received buffer `p` (of at least 7 bytes),
`BRITER_RS485_GetEncoderValue_DMA_Callback` returns the sentinel 0xFFFFFFFF when
`Encoder_CheckRX(p, handle address, READ)` rejects the frame, and otherwise returns exactly
`p[3]<<24 | p[4]<<16 | p[5]<<8 | p[6]`, a value below 2^32, whatever the value of `p[3]`. For a
read response with data bytes `[b0, b1, b2, b3]` and a correct CRC the result is
`b0<<24 | b1<<16 | b2<<8 | b3`. -/
theorem C8_RS485_position_decode (fuel : Nat) (handler : Briter_Encoder_t) (p : List Nat)
    (hp : IsBytes p) (h7 : 7 ≤ p.length) (haddr : handler.addr < 256) :
    (∀ st, Encoder_CheckRX fuel p handler.addr ENC_READ = .ok st → st ≠ HAL_OK →
        BRITER_RS485_GetEncoderValue_DMA_Callback fuel handler p
          = .ok ⟨0xFFFFFFFF, handler, []⟩)
      ∧ (Encoder_CheckRX fuel p handler.addr ENC_READ = .ok HAL_OK →
          BRITER_RS485_GetEncoderValue_DMA_Callback fuel handler p
            = .ok ⟨p.getD 3 0 <<< 24 ||| p.getD 4 0 <<< 16 ||| p.getD 5 0 <<< 8 ||| p.getD 6 0,
                handler, []⟩)
      ∧ (p.getD 3 0 <<< 24 ||| p.getD 4 0 <<< 16 ||| p.getD 5 0 <<< 8 ||| p.getD 6 0)
          < 4294967296
      ∧ (∀ b0 b1 b2 b3 : Nat, b0 < 256 → b1 < 256 → b2 < 256 → b3 < 256 → 7 < fuel →
          BRITER_RS485_GetEncoderValue_DMA_Callback fuel handler
              [handler.addr, 0x03, 0x04, b0, b1, b2, b3,
                crc16 [handler.addr, 0x03, 0x04, b0, b1, b2, b3] &&& 0xFF,
                crc16 [handler.addr, 0x03, 0x04, b0, b1, b2, b3] >>> 8]
            = .ok ⟨b0 <<< 24 ||| b1 <<< 16 ||| b2 <<< 8 ||| b3, handler, []⟩) := by
  obtain ⟨hasm, hlt⟩ := RS485_assemble_eq p hp h7
  refine ⟨?_, ?_, hlt, ?_⟩
  · intro st hst hne
    unfold BRITER_RS485_GetEncoderValue_DMA_Callback
    rw [Nat.mod_eq_of_lt haddr, hst]
    simp only []
    rw [if_pos hne]
    rfl
  · intro hst
    unfold BRITER_RS485_GetEncoderValue_DMA_Callback
    rw [Nat.mod_eq_of_lt haddr, hst]
    simp only []
    rw [if_neg (by simp), hasm]
  · intro b0 b1 b2 b3 h0 h1 h2 h3 hf
    have hbody : IsBytes [handler.addr, 0x03, 0x04, b0, b1, b2, b3] := by
      intro b hb
      simp only [List.mem_cons, List.mem_singleton, List.not_mem_nil, or_false] at hb
      omega
    have hcrc := crc16_lt _ hbody
    simp only [and_255, Nat.shiftRight_eq_div_pow]
    have hq : IsBytes [handler.addr, 0x03, 0x04, b0, b1, b2, b3,
        crc16 [handler.addr, 0x03, 0x04, b0, b1, b2, b3] % 256,
        crc16 [handler.addr, 0x03, 0x04, b0, b1, b2, b3] / 2 ^ 8] := by
      intro b hb
      simp only [List.mem_cons, List.mem_singleton, List.not_mem_nil, or_false] at hb
      omega
    have hcheck : Encoder_CheckRX fuel
        [handler.addr, 0x03, 0x04, b0, b1, b2, b3,
          crc16 [handler.addr, 0x03, 0x04, b0, b1, b2, b3] % 256,
          crc16 [handler.addr, 0x03, 0x04, b0, b1, b2, b3] / 2 ^ 8]
        handler.addr ENC_READ = .ok HAL_OK := by
      refine (Encoder_CheckRX_eq fuel _ handler.addr ENC_READ 7 hq hf ?_ ?_ ?_).trans ?_
      · exact (if_pos rfl).symm
      · decide
      · exact Nat.le_refl 9
      · exact congrArg Except.ok (if_pos ⟨rfl, rfl, rfl, rfl⟩)
    obtain ⟨hasm2, _⟩ := RS485_assemble_eq _ hq (by simp)
    unfold BRITER_RS485_GetEncoderValue_DMA_Callback
    rw [Nat.mod_eq_of_lt haddr, hcheck]
    simp only []
    rw [if_neg (by simp), hasm2]
    rfl

/-- A READ response of device 1 with data bytes 80 01 02 03 and its correct CRC, and the
same frame with a wrong CRC byte. -/
theorem C8_witness :
    BRITER_RS485_GetEncoderValue_DMA_Callback 8
          ⟨0x01, 0, uart_idle⟩
          [0x01, 0x03, 0x04, 0x80, 0x01, 0x02, 0x03, 0xC3, 0x52]
        = .ok ⟨0x80010203, ⟨0x01, 0, uart_idle⟩, []⟩
      ∧ BRITER_RS485_GetEncoderValue_DMA_Callback 8
          ⟨0x01, 0, uart_idle⟩
          [0x01, 0x03, 0x04, 0x80, 0x01, 0x02, 0x03, 0xC3, 0x53]
        = .ok ⟨0xFFFFFFFF, ⟨0x01, 0, uart_idle⟩,
            []⟩ :=
  ⟨(C8_RS485_position_decode 8
      ⟨0x01, 0, uart_idle⟩
      [0x01, 0x03, 0x04, 0x80, 0x01, 0x02, 0x03, 0xC3, 0x52]
      (by decide) (by decide) (by decide)).2.1 (by rfl),
    (C8_RS485_position_decode 8
      ⟨0x01, 0, uart_idle⟩
      [0x01, 0x03, 0x04, 0x80, 0x01, 0x02, 0x03, 0xC3, 0x53]
      (by decide) (by decide) (by decide)).1 HAL_ERROR (by rfl) (by decide)⟩


/-- C9: for every handle and every received buffer `p` of at least 7 bytes,
`BRITER_CAN_GetEncoderValue_Callback` returns the sentinel 0xFFFFFFFF unless `p[1]` equals the
handle address, `p[0] = 7` and `p[2] = 0x01` (GET_VALUE); when all three hold it returns
`p[3] | p[4]<<8 | p[5]<<16 | p[6]<<24`, a value below 2^32 (byte 3 least significant), which it
also stores in the handle's `position`. -/
theorem C9_CAN_position_decode (handler : Briter_CAN_Handler_t) (p : List Nat)
    (hp : IsBytes p) (h7 : 7 ≤ p.length) :
    (¬ (p.getD 1 0 = handler.address ∧ p.getD 0 0 = 7 ∧ p.getD 2 0 = 0x01) →
        BRITER_CAN_GetEncoderValue_Callback handler p = .ok ⟨0xFFFFFFFF, handler, []⟩)
      ∧ (p.getD 1 0 = handler.address ∧ p.getD 0 0 = 7 ∧ p.getD 2 0 = 0x01 →
          BRITER_CAN_GetEncoderValue_Callback handler p
            = .ok ⟨p.getD 3 0 ||| p.getD 4 0 <<< 8 ||| p.getD 5 0 <<< 16 ||| p.getD 6 0 <<< 24,
                { handler with
                  position :=
                    p.getD 3 0 ||| p.getD 4 0 <<< 8 ||| p.getD 5 0 <<< 16 ||| p.getD 6 0 <<< 24 },
                []⟩)
      ∧ (p.getD 3 0 ||| p.getD 4 0 <<< 8 ||| p.getD 5 0 <<< 16 ||| p.getD 6 0 <<< 24)
          < 4294967296 := by
  have h3 := IsBytes_getD p hp 3
  have h4 := IsBytes_getD p hp 4
  have h5 := IsBytes_getD p hp 5
  have h6 := IsBytes_getD p hp 6
  have hlt : (p.getD 3 0 ||| p.getD 4 0 <<< 8 ||| p.getD 5 0 <<< 16 ||| p.getD 6 0 <<< 24)
      < 4294967296 :=
    Nat.or_lt_two_pow (n := 32)
      (Nat.or_lt_two_pow
        (Nat.or_lt_two_pow (by omega) (shl_byte_lt _ 8 h4 (by norm_num)))
        (shl_byte_lt _ 16 h5 (by norm_num)))
      (shl_byte_lt _ 24 h6 (by norm_num))
  refine ⟨?_, ?_, hlt⟩
  · intro hno
    unfold BRITER_CAN_GetEncoderValue_Callback
    rw [rd_getD p 1 (by omega)]
    simp only []
    by_cases h1 : handler.address = p.getD 1 0
    swap
    · rw [if_pos h1]; rfl
    rw [if_neg (not_not.mpr h1), rd_getD p 0 (by omega)]
    simp only []
    by_cases h0 : p.getD 0 0 = 0x07
    swap
    · rw [if_pos h0]; rfl
    rw [if_neg (not_not.mpr h0), rd_getD p 2 (by omega)]
    simp only []
    by_cases h2 : p.getD 2 0 = BRITER_CAN_GET_VALUE.toNat
    · exact absurd ⟨h1.symm, h0, h2⟩ hno
    · rw [if_pos h2]; rfl
  · rintro ⟨h1, h0, h2⟩
    unfold BRITER_CAN_GetEncoderValue_Callback
    rw [rd_getD p 1 (by omega)]
    simp only []
    rw [if_neg (not_not.mpr h1.symm), rd_getD p 0 (by omega)]
    simp only []
    rw [if_neg (not_not.mpr h0), rd_getD p 2 (by omega)]
    simp only []
    rw [if_neg (not_not.mpr (show p.getD 2 0 = BRITER_CAN_GET_VALUE.toNat from h2)),
      rd_getD p 3 (by omega), rd_getD p 4 (by omega), rd_getD p 5 (by omega),
      rd_getD p 6 (by omega)]
    simp only []
    rw [shl32_byte _ _ h3 (by norm_num), shl32_byte _ _ h4 (by norm_num),
      shl32_byte _ _ h5 (by norm_num), shl32_byte _ _ h6 (by norm_num)]
    simp only [Nat.reduceMul, Nat.shiftLeft_zero]
    rw [Nat.mod_eq_of_lt hlt]

/-- A position report of device 5 with payload 01 02 03 F4, and the same frame with command
byte 0x02. -/
theorem C9_witness :
    BRITER_CAN_GetEncoderValue_Callback ⟨can_idle, 0x05, 0⟩
          [0x07, 0x05, 0x01, 0x01, 0x02, 0x03, 0xF4]
        = .ok ⟨0xF4030201, ⟨can_idle, 0x05, 0xF4030201⟩, []⟩
      ∧ BRITER_CAN_GetEncoderValue_Callback ⟨can_idle, 0x05, 0⟩
          [0x07, 0x05, 0x02, 0x01, 0x02, 0x03, 0xF4]
        = .ok ⟨0xFFFFFFFF, ⟨can_idle, 0x05, 0⟩, []⟩ :=
  ⟨(C9_CAN_position_decode ⟨can_idle, 0x05, 0⟩
      [0x07, 0x05, 0x01, 0x01, 0x02, 0x03, 0xF4] (by decide) (by decide)).2.1 (by decide),
    (C9_CAN_position_decode ⟨can_idle, 0x05, 0⟩
      [0x07, 0x05, 0x02, 0x01, 0x02, 0x03, 0xF4] (by decide) (by decide)).1 (by decide)⟩

/-! ## CAN transmission: claim C10 -/

/-- C10: for every command, device address `a` and 16-bit selection `s`, `CAN_Tx` with
declared length 4 hands the transmit primitive the 4 bytes `[4, a, cmd, s & 0xFF]`, and with
declared length 5 the 5 bytes `[5, a, cmd, s & 0xFF, s >> 8]`; in both cases the header has
DLC equal to the declared length, a standard identifier equal to `a` and a data frame type,
and the status of the primitive is returned. -/
theorem C10_CAN_Tx_frames (heap : Nat → Nat) (handler : Briter_CAN_Handler_t)
    (cmd : Briter_CAN_Command_e) (s : Nat) (ha : handler.address < 256) (hs : s < 65536) :
    CAN_Tx heap handler cmd 4 s
        = .ok ⟨handler.hcan.AddTxMessage
              { StdId := handler.address, ExtId := 0, IDE := .CAN_ID_STD, RTR := .CAN_RTR_DATA,
                DLC := 4, TransmitGlobalTime := .DISABLE }
              [4, handler.address, cmd.toNat, s &&& 0xFF],
            handler,
            [({ StdId := handler.address, ExtId := 0, IDE := .CAN_ID_STD, RTR := .CAN_RTR_DATA,
                DLC := 4, TransmitGlobalTime := .DISABLE },
              [4, handler.address, cmd.toNat, s &&& 0xFF])]⟩
      ∧ CAN_Tx heap handler cmd 5 s
        = .ok ⟨handler.hcan.AddTxMessage
              { StdId := handler.address, ExtId := 0, IDE := .CAN_ID_STD, RTR := .CAN_RTR_DATA,
                DLC := 5, TransmitGlobalTime := .DISABLE }
              [5, handler.address, cmd.toNat, s &&& 0xFF, s >>> 8],
            handler,
            [({ StdId := handler.address, ExtId := 0, IDE := .CAN_ID_STD, RTR := .CAN_RTR_DATA,
                DLC := 5, TransmitGlobalTime := .DISABLE },
              [5, handler.address, cmd.toNat, s &&& 0xFF, s >>> 8])]⟩ := by
  have hcmd : cmd.toNat % 256 = cmd.toNat := by cases cmd <;> rfl
  have hhi : s / 256 % 256 = s / 256 := Nat.mod_eq_of_lt (by omega)
  have hlt : s / 256 < 256 := by omega
  constructor
  · simp [CAN_Tx, wr, List.range, List.range.loop, and_255, Nat.mod_eq_of_lt ha, hcmd]
  · simp [CAN_Tx, wr, List.range, List.range.loop, and_255, Nat.shiftRight_eq_div_pow,
      Nat.mod_eq_of_lt ha, hcmd, hhi, hlt]

/-- The frames for device 5, command SET_RETURN_TIME and selection 0x012C with declared
lengths 4 and 5. -/
theorem C10_witness :
    CAN_Tx (fun _ => 0xAA) ⟨can_idle, 0x05, 0⟩ BRITER_CAN_SET_RETURN_TIME 4 0x012C
        = .ok ⟨HAL_OK, ⟨can_idle, 0x05, 0⟩,
            [({ StdId := 0x05, ExtId := 0, IDE := .CAN_ID_STD, RTR := .CAN_RTR_DATA, DLC := 4,
                TransmitGlobalTime := .DISABLE }, [0x04, 0x05, 0x05, 0x2C])]⟩
      ∧ CAN_Tx (fun _ => 0xAA) ⟨can_idle, 0x05, 0⟩ BRITER_CAN_SET_RETURN_TIME 5 0x012C
        = .ok ⟨HAL_OK, ⟨can_idle, 0x05, 0⟩,
            [({ StdId := 0x05, ExtId := 0, IDE := .CAN_ID_STD, RTR := .CAN_RTR_DATA, DLC := 5,
                TransmitGlobalTime := .DISABLE }, [0x05, 0x05, 0x05, 0x2C, 0x01])]⟩ :=
  C10_CAN_Tx_frames (fun _ => 0xAA) ⟨can_idle, 0x05, 0⟩ BRITER_CAN_SET_RETURN_TIME
    0x012C (by decide) (by decide)

/-! ## CAN transmission: claims C11, C12 and C19 -/

/-- The call `CAN_Tx(handler, cmd, 4, selection)`: one payload byte, the low byte of the
selection. -/
theorem CAN_Tx_4_eq (heap : Nat → Nat) (handler : Briter_CAN_Handler_t)
    (cmd : Briter_CAN_Command_e) (s : Nat) (ha : handler.address < 256) :
    CAN_Tx heap handler cmd 4 s
      = .ok ⟨handler.hcan.AddTxMessage
            { StdId := handler.address, ExtId := 0, IDE := .CAN_ID_STD, RTR := .CAN_RTR_DATA,
              DLC := 4, TransmitGlobalTime := .DISABLE }
            [4, handler.address, cmd.toNat, s % 256],
          handler,
          [({ StdId := handler.address, ExtId := 0, IDE := .CAN_ID_STD, RTR := .CAN_RTR_DATA,
              DLC := 4, TransmitGlobalTime := .DISABLE },
            [4, handler.address, cmd.toNat, s % 256])]⟩ := by
  have hcmd : cmd.toNat % 256 = cmd.toNat := by cases cmd <;> rfl
  simp [CAN_Tx, wr, List.range, List.range.loop, Nat.mod_eq_of_lt ha, hcmd]

/-- A frame of declared length 6 is handed to the transmit primitive and its status is
returned: the claim C11 fails at `data_length = 6`. -/
theorem C11_counterexample :
    CAN_Tx (fun _ => 0xAA) ⟨can_idle, 0x05, 0⟩ BRITER_CAN_GET_VALUE 6 0
      = .ok ⟨HAL_OK, ⟨can_idle, 0x05, 0⟩,
          [({ StdId := 0x05, ExtId := 0, IDE := .CAN_ID_STD, RTR := .CAN_RTR_DATA, DLC := 6,
              TransmitGlobalTime := .DISABLE }, [0x06, 0x05, 0x01, 0xAA, 0xAA, 0xAA])]⟩ := by
  rfl

/-- C11 (amended): `CAN_Tx` has no rejecting path. For every declared data length 6, 7 or 8
(the lengths outside {3, 4, 5} that its own assertion `data_length <= 8` admits) it calls the
bus transmit primitive once, with DLC equal to the declared length, a standard identifier
equal to the address, a data frame type and a block of that many bytes beginning
`[length, address, cmd]` (the remaining bytes are whatever the allocated block held), and it
returns the status of the primitive. -/
theorem C11_CAN_Tx_lengths_6_to_8 (heap : Nat → Nat) (handler : Briter_CAN_Handler_t)
    (cmd : Briter_CAN_Command_e) (n s : Nat) (ha : handler.address < 256) (h6 : 6 ≤ n)
    (h8 : n ≤ 8) :
    CAN_Tx heap handler cmd n s
      = .ok ⟨handler.hcan.AddTxMessage
            { StdId := handler.address, ExtId := 0, IDE := .CAN_ID_STD, RTR := .CAN_RTR_DATA,
              DLC := n, TransmitGlobalTime := .DISABLE }
            ([n, handler.address, cmd.toNat]
              ++ ((List.range n).drop 3).map fun k => heap k % 256),
          handler,
          [({ StdId := handler.address, ExtId := 0, IDE := .CAN_ID_STD, RTR := .CAN_RTR_DATA,
              DLC := n, TransmitGlobalTime := .DISABLE },
            [n, handler.address, cmd.toNat]
              ++ ((List.range n).drop 3).map fun k => heap k % 256)]⟩ := by
  have hcmd : cmd.toNat % 256 = cmd.toNat := by cases cmd <;> rfl
  interval_cases n <;>
    simp [CAN_Tx, wr, List.range, List.range.loop, Nat.mod_eq_of_lt ha, hcmd]

/-- The frame of declared length 7 for device 5 and command SET_ZERO. -/
theorem C11_witness :
    CAN_Tx (fun k => k) ⟨can_idle, 0x05, 0⟩ BRITER_CAN_SET_ZERO 7 0
      = .ok ⟨HAL_OK, ⟨can_idle, 0x05, 0⟩,
          [({ StdId := 0x05, ExtId := 0, IDE := .CAN_ID_STD, RTR := .CAN_RTR_DATA, DLC := 7,
              TransmitGlobalTime := .DISABLE }, [0x07, 0x05, 0x06, 3, 4, 5, 6])]⟩ :=
  C11_CAN_Tx_lengths_6_to_8 (fun k => k) ⟨can_idle, 0x05, 0⟩ BRITER_CAN_SET_ZERO 7 0
    (by decide) (by decide) (by decide)

/-- C12: for every handle address `a`, `BRITER_CAN_ReadValue` hands the transmit primitive
exactly the 4-byte frame `[0x04, a, 0x01, 0x00]` (DLC 4, standard identifier `a`) and returns
its status. -/
theorem C12_BRITER_CAN_ReadValue_frame (heap : Nat → Nat) (handler : Briter_CAN_Handler_t)
    (ha : handler.address < 256) :
    BRITER_CAN_ReadValue heap handler
      = .ok ⟨handler.hcan.AddTxMessage
            { StdId := handler.address, ExtId := 0, IDE := .CAN_ID_STD, RTR := .CAN_RTR_DATA,
              DLC := 4, TransmitGlobalTime := .DISABLE }
            [0x04, handler.address, 0x01, 0x00],
          handler,
          [({ StdId := handler.address, ExtId := 0, IDE := .CAN_ID_STD, RTR := .CAN_RTR_DATA,
              DLC := 4, TransmitGlobalTime := .DISABLE },
            [0x04, handler.address, 0x01, 0x00])]⟩ :=
  CAN_Tx_4_eq heap handler BRITER_CAN_GET_VALUE 0 ha

/-- For the address 5 the frame is 04 05 01 00. -/
theorem C12_witness :
    BRITER_CAN_ReadValue (fun _ => 0xAA) ⟨can_idle, 0x05, 0⟩
      = .ok ⟨HAL_OK, ⟨can_idle, 0x05, 0⟩,
          [({ StdId := 0x05, ExtId := 0, IDE := .CAN_ID_STD, RTR := .CAN_RTR_DATA, DLC := 4,
              TransmitGlobalTime := .DISABLE }, [0x04, 0x05, 0x01, 0x00])]⟩ :=
  C12_BRITER_CAN_ReadValue_frame (fun _ => 0xAA) ⟨can_idle, 0x05, 0⟩ (by decide)

/-- C19 (evaluation of the code at the failing input): `BRITER_CAN_SetReturnTime` calls
`CAN_Tx` with declared length 4, which transmits only the low byte of the time, so the times
300 and 44 give the same outcome on every handle; for device 5 both transmit
04 05 05 2C. -/
theorem C19_SetReturnTime_300_equals_44 (heap : Nat → Nat) (handler : Briter_CAN_Handler_t) :
    BRITER_CAN_SetReturnTime heap handler 300 = BRITER_CAN_SetReturnTime heap handler 44
      ∧ BRITER_CAN_SetReturnTime heap ⟨can_idle, 0x05, 0⟩ 300
        = .ok ⟨HAL_OK, ⟨can_idle, 0x05, 0⟩,
            [({ StdId := 0x05, ExtId := 0, IDE := .CAN_ID_STD, RTR := .CAN_RTR_DATA, DLC := 4,
                TransmitGlobalTime := .DISABLE }, [0x04, 0x05, 0x05, 0x2C])]⟩ := by
  constructor
  · simp [BRITER_CAN_SetReturnTime, CAN_Tx]
  · exact CAN_Tx_4_eq heap ⟨can_idle, 0x05, 0⟩ BRITER_CAN_SET_RETURN_TIME (300 % 65536)
      (by decide)

/-! ## Lemmas on the write operations -/

theorem RS485_request_eq (a f r v : Nat) :
    RS485_request a f r v
      = [a, f, r / 256, r % 256, v / 256, v % 256,
          crc16 [a, f, r / 256, r % 256, v / 256, v % 256] % 256,
          crc16 [a, f, r / 256, r % 256, v / 256, v % 256] / 256] := by
  simp only [RS485_request, and_255, Nat.shiftRight_eq_div_pow]

theorem Encoder_Receive_length (huart : UART_HandleTypeDef) (n : Nat) :
    (Encoder_Receive huart n).2.length = n := by
  simp [Encoder_Receive]

theorem Encoder_Receive_IsBytes (huart : UART_HandleTypeDef) (n : Nat) :
    IsBytes (Encoder_Receive huart n).2 := by
  intro b hb
  simp only [Encoder_Receive, List.mem_map] at hb
  obtain ⟨i, _, rfl⟩ := hb
  exact Nat.mod_lt _ (by norm_num)

/-- The outcome of the body shared by the five write operations, in every case. -/
theorem RS485_write_single_eq (fuel : Nat) (handler : Briter_Encoder_t) (r v : Nat)
    (haddr : handler.addr < 256) (hr : r < 65536) (hv : v < 65536) (hf : 6 < fuel) :
    RS485_write_single fuel handler r v
      = .ok ⟨if handler.huart.Transmit (RS485_request handler.addr 0x06 r v) = HAL_OK
              ∧ handler.huart.Receive = HAL_OK
              ∧ (Encoder_Receive handler.huart 8).2 = RS485_request handler.addr 0x06 r v
            then HAL_OK else HAL_ERROR,
          handler, [RS485_request handler.addr 0x06 r v]⟩ := by
  have h6 : ENC_WRITE_SINGLE.toNat = 6 := rfl
  have hsc := Encoder_Send_Construct_eq fuel (List.replicate 8 0) ENC_WRITE_SINGLE
    handler.addr r v rfl haddr hr hv hf
  rw [h6] at hsc
  rw [RS485_request_eq]
  generalize hF : [handler.addr, 6, r / 256, r % 256, v / 256, v % 256,
      crc16 [handler.addr, 6, r / 256, r % 256, v / 256, v % 256] % 256,
      crc16 [handler.addr, 6, r / 256, r % 256, v / 256, v % 256] / 256] = F at hsc ⊢
  have hFlen : F.length = 8 := by rw [← hF]; rfl
  have htake : F.take 8 = F := by rw [← hF]; rfl
  unfold RS485_write_single
  rw [Nat.mod_eq_of_lt hr, Nat.mod_eq_of_lt hv,
    Nat.mod_eq_of_lt (show handler.addr < 65536 by omega), hsc]
  simp only [Encoder_Transmit, htake]
  by_cases htx : handler.huart.Transmit F = HAL_OK
  swap
  · rw [if_pos htx, if_neg (fun h => htx h.1)]
  rw [if_neg (not_not.mpr htx)]
  by_cases hrx : handler.huart.Receive = HAL_OK
  swap
  · rw [if_pos (by simpa [Encoder_Receive] using hrx), if_neg (fun h => hrx h.2.1)]
  rw [if_neg (by simpa [Encoder_Receive] using hrx)]
  have hbytes := Encoder_Receive_IsBytes handler.huart 8
  obtain ⟨x0, x1, x2, x3, x4, x5, x6, x7, hx⟩ :=
    list_of_length_8 _ (Encoder_Receive_length handler.huart 8)
  rw [hx] at hbytes ⊢
  rw [Nat.mod_eq_of_lt haddr,
    Encoder_CheckRX_eq fuel _ handler.addr ENC_WRITE_SINGLE 6 hbytes hf (if_neg (by decide)).symm
      (by decide) (Nat.le_refl 8)]
  simp only [List.getD_cons_zero, List.getD_cons_succ, List.take, h6]
  by_cases hC : x0 = handler.addr ∧ x1 = 6 ∧ x6 = crc16 [x0, x1, x2, x3, x4, x5] % 256
      ∧ x7 = crc16 [x0, x1, x2, x3, x4, x5] / 256
  swap
  · rw [if_neg hC, if_pos (by decide), if_neg]
    rintro ⟨-, -, hall⟩
    rw [← hF] at hall
    simp only [List.cons.injEq, and_true] at hall
    obtain ⟨e0, e1, e2, e3, e4, e5, e6, e7⟩ := hall
    subst e0 e1 e2 e3 e4 e5
    exact hC ⟨rfl, rfl, e6, e7⟩
  rw [if_pos hC, if_neg (by decide)]
  obtain ⟨e0, e1, e6, e7⟩ := hC
  by_cases hE : RS485_echo_matches [x0, x1, x2, x3, x4, x5, x6, x7] F = true
  · rw [if_pos hE, if_pos]
    refine ⟨htx, hrx, ?_⟩
    rw [← hF] at hE ⊢
    simp only [RS485_echo_matches, List.getElem?_cons_succ, List.getElem?_cons_zero,
      beq_iff_eq, Option.some.injEq, Bool.and_eq_true] at hE
    obtain ⟨⟨⟨e2, e3⟩, e4⟩, e5⟩ := hE
    subst e0 e1 e2 e3 e4 e5
    rw [e6, e7]
  · rw [if_neg hE, if_neg]
    rintro ⟨-, -, hall⟩
    apply hE
    rw [hall]
    simp [RS485_echo_matches]

theorem RS485_command.register_lt (c : RS485_command) : c.register < 256 := by
  cases c <;> simp [RS485_command.register]

theorem RS485_command.value_lt (c : RS485_command) (hc : c.WellFormed) : c.value < 65536 := by
  cases c with
  | SetBaudrate b => cases b <;> decide
  | SetDataMode m => cases m <;> decide
  | SetAddress a => have h : a < 256 := hc; exact Nat.lt_trans h (by norm_num)
  | SetReturnTime t => exact hc
  | SetDirection d => cases d <;> decide

/-- Every command is the shared body applied to its register and its parameter. -/
theorem RS485_command.call_eq (fuel : Nat) (handler : Briter_Encoder_t) (c : RS485_command)
    (hc : c.WellFormed) :
    c.call fuel handler = RS485_write_single fuel handler c.register c.value := by
  cases c with
  | SetBaudrate b => rfl
  | SetDataMode m => rfl
  | SetAddress a =>
    have h : a < 256 := hc
    show RS485_write_single fuel handler _ (a % 256) = _
    rw [Nat.mod_eq_of_lt h]; rfl
  | SetReturnTime t =>
    have h : t < 65536 := hc
    show RS485_write_single fuel handler _ (t % 65536) = _
    rw [Nat.mod_eq_of_lt h]; rfl
  | SetDirection d => rfl

/-- The outcome of every RS485 configuration command, in every case. -/
theorem RS485_command.call_outcome (fuel : Nat) (handler : Briter_Encoder_t)
    (c : RS485_command) (hc : c.WellFormed) (haddr : handler.addr < 256) (hf : 6 < fuel) :
    c.call fuel handler
      = .ok ⟨if handler.huart.Transmit (RS485_request handler.addr 0x06 c.register c.value)
                = HAL_OK
              ∧ handler.huart.Receive = HAL_OK
              ∧ (Encoder_Receive handler.huart 8).2
                = RS485_request handler.addr 0x06 c.register c.value
            then HAL_OK else HAL_ERROR,
          handler, [RS485_request handler.addr 0x06 c.register c.value]⟩ := by
  rw [c.call_eq fuel handler hc]
  exact RS485_write_single_eq fuel handler c.register c.value haddr
    (Nat.lt_trans c.register_lt (by norm_num)) (c.value_lt hc) hf

/-- Every CAN command is `CAN_Tx` with declared length 4: its frame and its status. -/
theorem CAN_command.can_call_outcome (heap : Nat → Nat) (handler : Briter_CAN_Handler_t)
    (k : CAN_command) (ha : handler.address < 256) :
    k.call heap handler
      = .ok ⟨handler.hcan.AddTxMessage
            { StdId := handler.address, ExtId := 0, IDE := .CAN_ID_STD, RTR := .CAN_RTR_DATA,
              DLC := 4, TransmitGlobalTime := .DISABLE }
            [4, handler.address, k.command.toNat, k.selection % 256],
          handler,
          [({ StdId := handler.address, ExtId := 0, IDE := .CAN_ID_STD, RTR := .CAN_RTR_DATA,
              DLC := 4, TransmitGlobalTime := .DISABLE },
            [4, handler.address, k.command.toNat, k.selection % 256])]⟩ := by
  cases k with
  | ReadValue => exact CAN_Tx_4_eq heap handler _ 0 ha
  | SetBaudrate b =>
    have h := CAN_Tx_4_eq heap handler BRITER_CAN_SET_BAUDRATE (b.toNat % 65536) ha
    rw [Nat.mod_mod_of_dvd _ (by norm_num : 256 ∣ 65536)] at h
    exact h
  | SetAddress a =>
    have h := CAN_Tx_4_eq heap handler BRITER_CAN_SET_ID (a % 256) ha
    rw [Nat.mod_mod] at h
    exact h
  | SetDataMode m =>
    have h := CAN_Tx_4_eq heap handler BRITER_CAN_SET_MODE (m.toNat % 65536) ha
    rw [Nat.mod_mod_of_dvd _ (by norm_num : 256 ∣ 65536)] at h
    exact h
  | SetReturnTime t =>
    have h := CAN_Tx_4_eq heap handler BRITER_CAN_SET_RETURN_TIME (t % 65536) ha
    rw [Nat.mod_mod_of_dvd _ (by norm_num : 256 ∣ 65536)] at h
    exact h
  | SetZero => exact CAN_Tx_4_eq heap handler _ 0 ha

/-! ## Transport failures: claim C17 -/

/-- The transmit primitive reports `HAL_TIMEOUT` and `BRITER_RS485_SetBaudrate` returns
`HAL_ERROR`; the receive primitive reports `HAL_BUSY` and `BRITER_RS485_SetReturnTime`
returns `HAL_ERROR`: the claim C17 fails on both. -/
theorem C17_counterexample :
    (uart_transmit_timeout.Transmit [0x01, 0x06, 0x00, 0x05, 0x00, 0x00, 0x99, 0xCB]
        = HAL_TIMEOUT
      ∧ BRITER_RS485_SetBaudrate 7 ⟨0x01, 0, uart_transmit_timeout⟩ .RS485_ENC_BAUDRATE_9600
        = .ok ⟨HAL_ERROR, ⟨0x01, 0, uart_transmit_timeout⟩,
            [[0x01, 0x06, 0x00, 0x05, 0x00, 0x00, 0x99, 0xCB]]⟩)
      ∧ (uart_receive_busy.Receive = HAL_BUSY
        ∧ BRITER_RS485_SetReturnTime 7 ⟨0x01, 0, uart_receive_busy⟩ 300
          = .ok ⟨HAL_ERROR, ⟨0x01, 0, uart_receive_busy⟩,
              [[0x01, 0x06, 0x00, 0x07, 0x01, 0x2C, 0x38, 0x46]]⟩) :=
  ⟨⟨rfl, by rfl⟩, ⟨rfl, by rfl⟩⟩

/-- C17 (amended): every RS485 configuration operation returns `HAL_ERROR` whenever the
transmit primitive or the receive primitive returns a status other than `HAL_OK` (so
`HAL_BUSY` and `HAL_TIMEOUT` are reported as `HAL_ERROR`); every CAN command returns the
status of the transmit primitive unchanged, whatever it is. -/
theorem C17_transport_failures (fuel : Nat) (handler : Briter_Encoder_t) (c : RS485_command)
    (heap : Nat → Nat) (hcan : Briter_CAN_Handler_t) (k : CAN_command)
    (hc : c.WellFormed) (haddr : handler.addr < 256) (hf : 6 < fuel)
    (ha : hcan.address < 256) :
    ((handler.huart.Transmit (RS485_request handler.addr 0x06 c.register c.value) ≠ HAL_OK
          ∨ handler.huart.Receive ≠ HAL_OK) →
        c.call fuel handler
          = .ok ⟨HAL_ERROR, handler, [RS485_request handler.addr 0x06 c.register c.value]⟩)
      ∧ k.call heap hcan
        = .ok ⟨hcan.hcan.AddTxMessage
              { StdId := hcan.address, ExtId := 0, IDE := .CAN_ID_STD, RTR := .CAN_RTR_DATA,
                DLC := 4, TransmitGlobalTime := .DISABLE }
              [4, hcan.address, k.command.toNat, k.selection % 256],
            hcan,
            [({ StdId := hcan.address, ExtId := 0, IDE := .CAN_ID_STD, RTR := .CAN_RTR_DATA,
                DLC := 4, TransmitGlobalTime := .DISABLE },
              [4, hcan.address, k.command.toNat, k.selection % 256])]⟩ := by
  refine ⟨?_, k.can_call_outcome heap hcan ha⟩
  intro hfail
  rw [c.call_outcome fuel handler hc haddr hf, if_neg]
  rintro ⟨htx, hrx, -⟩
  exact hfail.elim (fun h => h htx) (fun h => h hrx)

/-- Setting the address of device 1 to 2 over a transport whose transmit times out, and
setting the return time of CAN device 5 on a busy peripheral. -/
theorem C17_witness :
    BRITER_RS485_SetAddress 7 ⟨0x01, 0, uart_transmit_timeout⟩ 0x02
        = .ok ⟨HAL_ERROR, ⟨0x01, 0, uart_transmit_timeout⟩,
            [RS485_request 0x01 0x06 0x04 0x02]⟩
      ∧ BRITER_CAN_SetReturnTime (fun _ => 0) ⟨can_busy, 0x05, 0⟩ 50
        = .ok ⟨HAL_BUSY, ⟨can_busy, 0x05, 0⟩,
            [({ StdId := 0x05, ExtId := 0, IDE := .CAN_ID_STD, RTR := .CAN_RTR_DATA, DLC := 4,
                TransmitGlobalTime := .DISABLE }, [0x04, 0x05, 0x05, 50])]⟩ :=
  have h := C17_transport_failures 7 ⟨0x01, 0, uart_transmit_timeout⟩ (.SetAddress 0x02)
    (fun _ => 0) ⟨can_busy, 0x05, 0⟩ (.SetReturnTime 50) (by decide) (by decide) (by decide)
    (by decide)
  ⟨h.1 (Or.inl (by decide)), h.2⟩

/-! ## Requests of the exported operations: claims C18 and C20 -/

/-- Whatever the transport does, the polling read sends the one frame that
`Encoder_Send_Construct` built. -/
theorem BRITER_RS485_GetEncoderValue_sent (fuel : Nat) (handler : Briter_Encoder_t)
    (F : List Nat)
    (hreq : Encoder_Send_Construct fuel (List.replicate 8 0) ENC_READ (handler.addr % 65536)
      BRITER_RS485_VALUE_ADDR 2 = .ok F)
    (o : Outcome Briter_Encoder_t (List Nat) Nat)
    (ho : BRITER_RS485_GetEncoderValue fuel handler = .ok o) : o.sent = [F.take 8] := by
  unfold BRITER_RS485_GetEncoderValue at ho
  rw [hreq] at ho
  simp only [] at ho
  split at ho
  · cases ho; rfl
  · split at ho
    · cases ho; rfl
    · split at ho
      · cases ho
      · split at ho
        · cases ho; rfl
        · split at ho
          · cases ho
          · cases ho; rfl

/-- C18: each RS485 configuration command sends the WRITE_SINGLE request
`[addr, 0x06, 0x00, reg, value>>8, value&0xFF, crcLo, crcHi]` whose register is the one the
register map assigns (SetAddress 0x04, SetBaudrate 0x05, SetDataMode 0x06, SetReturnTime 0x07,
SetDirection 0x09) and whose value is the scalar parameter of the command, all 16 bits of it;
the position read sends function 0x03, register 0x00 and count 2. -/
theorem C18_requests_of_the_operations (fuel : Nat) (handler : Briter_Encoder_t)
    (c : RS485_command) (hc : c.WellFormed) (haddr : handler.addr < 256) (hf : 6 < fuel) :
    (∃ st, c.call fuel handler
        = .ok ⟨st, handler,
            [[handler.addr, 0x06, 0x00, c.register, c.value >>> 8, c.value &&& 0xFF,
              crc16 [handler.addr, 0x06, 0x00, c.register, c.value >>> 8, c.value &&& 0xFF]
                &&& 0xFF,
              crc16 [handler.addr, 0x06, 0x00, c.register, c.value >>> 8, c.value &&& 0xFF]
                >>> 8]]⟩)
      ∧ (∀ to_address time baudrate mode direction,
          (RS485_command.SetAddress to_address).register = 0x04
            ∧ (RS485_command.SetAddress to_address).value = to_address
            ∧ (RS485_command.SetBaudrate baudrate).register = 0x05
            ∧ (RS485_command.SetBaudrate baudrate).value = baudrate.toNat
            ∧ (RS485_command.SetDataMode mode).register = 0x06
            ∧ (RS485_command.SetDataMode mode).value = mode.toNat
            ∧ (RS485_command.SetReturnTime time).register = 0x07
            ∧ (RS485_command.SetReturnTime time).value = time
            ∧ (RS485_command.SetDirection direction).register = 0x09
            ∧ (RS485_command.SetDirection direction).value = direction.toNat)
      ∧ BRITER_RS485_GetEncoderValue_DMA fuel handler
        = .ok ⟨handler.huart.Transmit_DMA (RS485_request handler.addr 0x03 0x00 2), handler,
            [RS485_request handler.addr 0x03 0x00 2]⟩
      ∧ (∀ o, BRITER_RS485_GetEncoderValue fuel handler = .ok o →
          o.sent = [RS485_request handler.addr 0x03 0x00 2])
      ∧ RS485_request handler.addr 0x03 0x00 2
        = [handler.addr, 0x03, 0x00, 0x00, 0x00, 0x02,
            crc16 [handler.addr, 0x03, 0x00, 0x00, 0x00, 0x02] &&& 0xFF,
            crc16 [handler.addr, 0x03, 0x00, 0x00, 0x00, 0x02] >>> 8] := by
  have hreg := c.register_lt
  have hsc : Encoder_Send_Construct fuel (List.replicate 8 0) ENC_READ (handler.addr % 65536)
      BRITER_RS485_VALUE_ADDR 2 = .ok (RS485_request handler.addr 0x03 0x00 2) := by
    rw [Nat.mod_eq_of_lt (show handler.addr < 65536 by omega), RS485_request_eq]
    exact Encoder_Send_Construct_eq fuel (List.replicate 8 0) ENC_READ handler.addr
      BRITER_RS485_VALUE_ADDR 2 rfl haddr (by decide) (by decide) hf
  refine ⟨?_, ?_, ?_, ?_, rfl⟩
  · have hcall := c.call_outcome fuel handler hc haddr hf
    have hreq : RS485_request handler.addr 0x06 c.register c.value
        = [handler.addr, 0x06, 0x00, c.register, c.value >>> 8, c.value &&& 0xFF,
          crc16 [handler.addr, 0x06, 0x00, c.register, c.value >>> 8, c.value &&& 0xFF]
            &&& 0xFF,
          crc16 [handler.addr, 0x06, 0x00, c.register, c.value >>> 8, c.value &&& 0xFF]
            >>> 8] := by
      have h1 : c.register >>> 8 = 0 := by
        rw [Nat.shiftRight_eq_div_pow]; exact Nat.div_eq_of_lt hreg
      have h2 : c.register &&& 0xFF = c.register := by
        rw [and_255]; exact Nat.mod_eq_of_lt hreg
      simp only [RS485_request, h1, h2]
    rw [hreq] at hcall
    exact ⟨_, hcall⟩
  · intro to_address time baudrate mode direction
    exact ⟨rfl, rfl, rfl, rfl, rfl, rfl, rfl, rfl, rfl, rfl⟩
  · unfold BRITER_RS485_GetEncoderValue_DMA
    rw [hsc]
    rfl
  · intro o ho
    exact BRITER_RS485_GetEncoderValue_sent fuel handler _ hsc o ho

/-- Setting the return time of device 1 to 300 ms (0x012C) and reading its position over a
transport that answers with zeros. -/
theorem C18_witness :
    BRITER_RS485_SetReturnTime 7 ⟨0x01, 0, uart_idle⟩ 300
        = .ok ⟨HAL_ERROR, ⟨0x01, 0, uart_idle⟩,
            [[0x01, 0x06, 0x00, 0x07, 0x01, 0x2C, 0x38, 0x46]]⟩
      ∧ BRITER_RS485_GetEncoderValue_DMA 7 ⟨0x01, 0, uart_idle⟩
        = .ok ⟨HAL_OK, ⟨0x01, 0, uart_idle⟩,
            [[0x01, 0x03, 0x00, 0x00, 0x00, 0x02, 0xC4, 0x0B]]⟩ := by
  obtain ⟨⟨st, h1⟩, -, h3, -, -⟩ := C18_requests_of_the_operations 7 ⟨0x01, 0, uart_idle⟩
    (.SetReturnTime 300) (by decide) (by decide) (by decide)
  refine ⟨?_, h3⟩
  have h2 : (RS485_command.SetReturnTime 300).call 7 ⟨0x01, 0, uart_idle⟩
      = .ok ⟨HAL_ERROR, ⟨0x01, 0, uart_idle⟩,
          [[0x01, 0x06, 0x00, 0x07, 0x01, 0x2C, 0x38, 0x46]]⟩ := by rfl
  have e : st = HAL_ERROR := congrArg Outcome.ret (Except.ok.inj (h1.symm.trans h2))
  subst e
  exact h1

/-- C20: for each RS485 write operation, when the transmit and the receive primitive both
succeed and the receive leaves the 8 bytes `r` in the buffer, the operation returns `HAL_OK`
if and only if `r` is byte for byte the request that was sent, and `HAL_ERROR` otherwise. -/
theorem C20_write_acknowledged_iff_echo (fuel : Nat) (handler : Briter_Encoder_t)
    (c : RS485_command) (r : List Nat) (hc : c.WellFormed) (haddr : handler.addr < 256)
    (hf : 6 < fuel)
    (htx : handler.huart.Transmit (RS485_request handler.addr 0x06 c.register c.value)
      = HAL_OK)
    (hrx : handler.huart.Receive = HAL_OK) (hr : (Encoder_Receive handler.huart 8).2 = r) :
    r.length = 8
      ∧ c.call fuel handler
        = .ok ⟨if r = RS485_request handler.addr 0x06 c.register c.value then HAL_OK
              else HAL_ERROR,
            handler, [RS485_request handler.addr 0x06 c.register c.value]⟩
      ∧ ((∃ o, c.call fuel handler = .ok o ∧ o.ret = HAL_OK)
          ↔ r = RS485_request handler.addr 0x06 c.register c.value) := by
  have hcall : c.call fuel handler
      = .ok ⟨if r = RS485_request handler.addr 0x06 c.register c.value then HAL_OK
            else HAL_ERROR,
          handler, [RS485_request handler.addr 0x06 c.register c.value]⟩ := by
    rw [c.call_outcome fuel handler hc haddr hf, hr]
    by_cases h : r = RS485_request handler.addr 0x06 c.register c.value
    · rw [if_pos ⟨htx, hrx, h⟩, if_pos h]
    · rw [if_neg (fun hh => h hh.2.2), if_neg h]
  refine ⟨hr ▸ Encoder_Receive_length handler.huart 8, hcall, ?_⟩
  rw [hcall]
  constructor
  · rintro ⟨o, ho, hret⟩
    by_contra h
    rw [if_neg h] at ho
    cases ho
    cases hret
  · intro h
    exact ⟨_, rfl, if_pos h⟩

/-- Device 1, baud rate 115200: the echoed request is acknowledged, and a response that
differs from the request in its last byte is not. -/
theorem C20_witness :
    BRITER_RS485_SetBaudrate 7
          ⟨0x01, 0, uart_delivering [0x01, 0x06, 0x00, 0x05, 0x00, 0x04, 0x98, 0x08]⟩
          .RS485_ENC_BAUDRATE_115200
        = .ok ⟨HAL_OK,
            ⟨0x01, 0, uart_delivering [0x01, 0x06, 0x00, 0x05, 0x00, 0x04, 0x98, 0x08]⟩,
            [[0x01, 0x06, 0x00, 0x05, 0x00, 0x04, 0x98, 0x08]]⟩
      ∧ BRITER_RS485_SetBaudrate 7
          ⟨0x01, 0, uart_delivering [0x01, 0x06, 0x00, 0x05, 0x00, 0x04, 0x98, 0x09]⟩
          .RS485_ENC_BAUDRATE_115200
        = .ok ⟨HAL_ERROR,
            ⟨0x01, 0, uart_delivering [0x01, 0x06, 0x00, 0x05, 0x00, 0x04, 0x98, 0x09]⟩,
            [[0x01, 0x06, 0x00, 0x05, 0x00, 0x04, 0x98, 0x08]]⟩ :=
  ⟨(C20_write_acknowledged_iff_echo 7
      ⟨0x01, 0, uart_delivering [0x01, 0x06, 0x00, 0x05, 0x00, 0x04, 0x98, 0x08]⟩
      (.SetBaudrate .RS485_ENC_BAUDRATE_115200)
      [0x01, 0x06, 0x00, 0x05, 0x00, 0x04, 0x98, 0x08] (by decide) (by decide) (by decide)
      rfl rfl (by decide)).2.1,
    (C20_write_acknowledged_iff_echo 7
      ⟨0x01, 0, uart_delivering [0x01, 0x06, 0x00, 0x05, 0x00, 0x04, 0x98, 0x09]⟩
      (.SetBaudrate .RS485_ENC_BAUDRATE_115200)
      [0x01, 0x06, 0x00, 0x05, 0x00, 0x04, 0x98, 0x09] (by decide) (by decide) (by decide)
      rfl rfl (by decide)).2.1⟩

/-! ## Lemmas on flipped bits and on the CAN decoding -/

theorem xor_two_pow_ne (x k : Nat) : x ^^^ 2 ^ k ≠ x := by
  intro h
  have h0 : x ^^^ 2 ^ k = x ^^^ 0 := by rw [h, Nat.xor_zero]
  have := Nat.xor_right_inj.mp h0
  exact absurd this (Nat.pos_iff_ne_zero.mp (Nat.two_pow_pos k))

theorem flip_bit_length (p : List Nat) (pos : Nat) : (flip_bit p pos).length = p.length := by
  simp [flip_bit]

theorem flip_bit_IsBytes (p : List Nat) (pos : Nat) (hp : IsBytes p) :
    IsBytes (flip_bit p pos) := by
  intro b hb
  rcases List.mem_or_eq_of_mem_set hb with h | rfl
  · exact hp b h
  · exact Nat.xor_lt_two_pow (n := 8) (IsBytes_getD p hp _)
      (Nat.pow_lt_pow_right (by norm_num) (Nat.mod_lt _ (by norm_num)))

/-- The bytes of the frame with one bit flipped. -/
theorem flip_bit_getD (p : List Nat) (pos i : Nat) :
    (flip_bit p pos).getD i 0
      = if i = pos / 8 ∧ i < p.length then p.getD i 0 ^^^ 2 ^ (pos % 8) else p.getD i 0 := by
  unfold flip_bit
  rw [List.getD_eq_getElem?_getD, List.getD_eq_getElem?_getD, List.getElem?_set]
  by_cases h : pos / 8 = i
  · subst h
    by_cases hl : pos / 8 < p.length
    · simp [hl]
    · simp [hl, List.getElem?_eq_none (Nat.le_of_not_lt hl)]
  · rw [if_neg h, if_neg (fun hh => h hh.1.symm), List.getD_eq_getElem?_getD]

theorem flip_bit_getD_ne (p : List Nat) (pos i : Nat) (h : i ≠ pos / 8) :
    (flip_bit p pos).getD i 0 = p.getD i 0 := by
  rw [flip_bit_getD, if_neg (fun hh => h hh.1)]

theorem flip_bit_getD_self (p : List Nat) (pos : Nat) (h : pos / 8 < p.length) :
    (flip_bit p pos).getD (pos / 8) 0 ≠ p.getD (pos / 8) 0 := by
  rw [flip_bit_getD, if_pos ⟨rfl, h⟩]
  exact xor_two_pow_ne _ _

/-- Little-endian assembly of four bytes: the bitwise OR of the shifted bytes is their
positional sum. -/
theorem or_shifts_eq_sum (b0 b1 b2 b3 : Nat) (h0 : b0 < 256) (h1 : b1 < 256) (h2 : b2 < 256) :
    b0 ||| b1 <<< 8 ||| b2 <<< 16 ||| b3 <<< 24
      = b0 + 256 * b1 + 65536 * b2 + 16777216 * b3 := by
  have e1 : b0 ||| b1 <<< 8 = b0 + 256 * b1 := by
    rw [Nat.shiftLeft_eq, Nat.or_comm, Nat.mul_comm, ← Nat.mul_add_lt_is_or (by omega)]
    omega
  have e2 : (b0 + 256 * b1) ||| b2 <<< 16 = b0 + 256 * b1 + 65536 * b2 := by
    rw [Nat.shiftLeft_eq, Nat.or_comm, Nat.mul_comm, ← Nat.mul_add_lt_is_or (by omega)]
    omega
  have e3 : (b0 + 256 * b1 + 65536 * b2) ||| b3 <<< 24
      = b0 + 256 * b1 + 65536 * b2 + 16777216 * b3 := by
    rw [Nat.shiftLeft_eq, Nat.or_comm, Nat.mul_comm, ← Nat.mul_add_lt_is_or (by omega)]
    omega
  rw [e1, e2, e3]

/-- What `BRITER_CAN_GetEncoderValue_Callback` returns on a buffer of at least 7 bytes. -/
theorem BRITER_CAN_GetEncoderValue_Callback_eq (handler : Briter_CAN_Handler_t)
    (p : List Nat) (hp : IsBytes p) (h7 : 7 ≤ p.length) :
    BRITER_CAN_GetEncoderValue_Callback handler p
      = .ok (if p.getD 1 0 = handler.address ∧ p.getD 0 0 = 7 ∧ p.getD 2 0 = 0x01 then
          ⟨p.getD 3 0 + 256 * p.getD 4 0 + 65536 * p.getD 5 0 + 16777216 * p.getD 6 0,
            { handler with
              position :=
                p.getD 3 0 + 256 * p.getD 4 0 + 65536 * p.getD 5 0 + 16777216 * p.getD 6 0 },
            []⟩
        else ⟨0xFFFFFFFF, handler, []⟩) := by
  have h3 := IsBytes_getD p hp 3
  have h4 := IsBytes_getD p hp 4
  have h5 := IsBytes_getD p hp 5
  have h6 := IsBytes_getD p hp 6
  unfold BRITER_CAN_GetEncoderValue_Callback
  rw [rd_getD p 1 (by omega)]
  simp only []
  by_cases h1 : handler.address = p.getD 1 0
  swap
  · rw [if_pos h1, if_neg (fun h => h1 h.1.symm)]; rfl
  rw [if_neg (not_not.mpr h1), rd_getD p 0 (by omega)]
  simp only []
  by_cases h0 : p.getD 0 0 = 0x07
  swap
  · rw [if_pos h0, if_neg (fun h => h0 h.2.1)]; rfl
  rw [if_neg (not_not.mpr h0), rd_getD p 2 (by omega)]
  simp only []
  by_cases h2 : p.getD 2 0 = BRITER_CAN_GET_VALUE.toNat
  swap
  · rw [if_pos h2, if_neg (fun h => h2 h.2.2)]; rfl
  rw [if_neg (not_not.mpr h2), if_pos ⟨h1.symm, h0, h2⟩, rd_getD p 3 (by omega),
    rd_getD p 4 (by omega), rd_getD p 5 (by omega), rd_getD p 6 (by omega)]
  simp only []
  rw [shl32_byte _ _ h3 (by norm_num), shl32_byte _ _ h4 (by norm_num),
    shl32_byte _ _ h5 (by norm_num), shl32_byte _ _ h6 (by norm_num)]
  simp only [Nat.reduceMul, Nat.shiftLeft_zero]
  rw [or_shifts_eq_sum _ _ _ _ h3 h4 h5, Nat.mod_eq_of_lt (by omega)]

/-! ## Corruption and range of CAN position reports: claims C15 and C16 -/

/-- The position report 07 05 01 01 02 03 04 of device 5 decodes to 0x04030201; with bit 0
of byte 3 flipped it is 07 05 01 00 02 03 04 and decodes to 0x04030200, not to the sentinel:
the claim C15 fails at a payload bit. -/
theorem C15_counterexample :
    BRITER_CAN_GetEncoderValue_Callback ⟨can_idle, 0x05, 0⟩
          [0x07, 0x05, 0x01, 0x01, 0x02, 0x03, 0x04]
        = .ok ⟨0x04030201, ⟨can_idle, 0x05, 0x04030201⟩, []⟩
      ∧ flip_bit [0x07, 0x05, 0x01, 0x01, 0x02, 0x03, 0x04] 24
        = [0x07, 0x05, 0x01, 0x00, 0x02, 0x03, 0x04]
      ∧ BRITER_CAN_GetEncoderValue_Callback ⟨can_idle, 0x05, 0⟩
          (flip_bit [0x07, 0x05, 0x01, 0x01, 0x02, 0x03, 0x04] 24)
        = .ok ⟨0x04030200, ⟨can_idle, 0x05, 0x04030200⟩, []⟩ :=
  ⟨by rfl, by rfl, by rfl⟩

/-- C15 (amended): for every frame of at least 7 bytes that passes the header check of
`BRITER_CAN_GetEncoderValue_Callback`, flipping any single bit of the header bytes 0..2 makes
the callback return the sentinel 0xFFFFFFFF and leave the handle as it was; flipping a single
bit of the payload bytes 3..6 is not detected: the callback returns, and stores as position,
the value of the changed payload, which differs from the value of the original payload. -/
theorem C15_CAN_single_bit_flip (handler : Briter_CAN_Handler_t) (p : List Nat) (pos : Nat)
    (hp : IsBytes p) (h7 : 7 ≤ p.length)
    (hacc : p.getD 1 0 = handler.address ∧ p.getD 0 0 = 7 ∧ p.getD 2 0 = 0x01) :
    (pos < 24 →
        BRITER_CAN_GetEncoderValue_Callback handler (flip_bit p pos)
          = .ok ⟨0xFFFFFFFF, handler, []⟩)
      ∧ (24 ≤ pos → pos < 56 →
          BRITER_CAN_GetEncoderValue_Callback handler (flip_bit p pos)
              = .ok ⟨(flip_bit p pos).getD 3 0 + 256 * (flip_bit p pos).getD 4 0
                    + 65536 * (flip_bit p pos).getD 5 0
                    + 16777216 * (flip_bit p pos).getD 6 0,
                  { handler with
                    position :=
                      (flip_bit p pos).getD 3 0 + 256 * (flip_bit p pos).getD 4 0
                        + 65536 * (flip_bit p pos).getD 5 0
                        + 16777216 * (flip_bit p pos).getD 6 0 },
                  []⟩
            ∧ (flip_bit p pos).getD 3 0 + 256 * (flip_bit p pos).getD 4 0
                  + 65536 * (flip_bit p pos).getD 5 0 + 16777216 * (flip_bit p pos).getD 6 0
                ≠ p.getD 3 0 + 256 * p.getD 4 0 + 65536 * p.getD 5 0
                  + 16777216 * p.getD 6 0) := by
  have hq := flip_bit_IsBytes p pos hp
  have hlen : 7 ≤ (flip_bit p pos).length := by rw [flip_bit_length]; exact h7
  have hcb := BRITER_CAN_GetEncoderValue_Callback_eq handler (flip_bit p pos) hq hlen
  obtain ⟨a1, a0, a2⟩ := hacc
  constructor
  · intro hlt
    rw [hcb, if_neg]
    rintro ⟨b1, b0, b2⟩
    have hself := flip_bit_getD_self p pos (by omega)
    have hj : pos / 8 = 0 ∨ pos / 8 = 1 ∨ pos / 8 = 2 := by omega
    rcases hj with hj | hj | hj <;> rw [hj] at hself
    · exact hself (b0.trans a0.symm)
    · exact hself (b1.trans a1.symm)
    · exact hself (b2.trans a2.symm)
  · intro hge hlt
    have e0 := flip_bit_getD_ne p pos 0 (by omega)
    have e1 := flip_bit_getD_ne p pos 1 (by omega)
    have e2 := flip_bit_getD_ne p pos 2 (by omega)
    have hself := flip_bit_getD_self p pos (by omega)
    have b3 := IsBytes_getD p hp 3
    have b4 := IsBytes_getD p hp 4
    have b5 := IsBytes_getD p hp 5
    have c3 := IsBytes_getD _ hq 3
    have c4 := IsBytes_getD _ hq 4
    have c5 := IsBytes_getD _ hq 5
    refine ⟨?_, ?_⟩
    · rw [hcb, if_pos ⟨e1.trans a1, e0.trans a0, e2.trans a2⟩]
    · have hj : pos / 8 = 3 ∨ pos / 8 = 4 ∨ pos / 8 = 5 ∨ pos / 8 = 6 := by omega
      rcases hj with hj | hj | hj | hj <;> rw [hj] at hself
      · have f4 := flip_bit_getD_ne p pos 4 (by omega)
        have f5 := flip_bit_getD_ne p pos 5 (by omega)
        have f6 := flip_bit_getD_ne p pos 6 (by omega)
        omega
      · have f3 := flip_bit_getD_ne p pos 3 (by omega)
        have f5 := flip_bit_getD_ne p pos 5 (by omega)
        have f6 := flip_bit_getD_ne p pos 6 (by omega)
        omega
      · have f3 := flip_bit_getD_ne p pos 3 (by omega)
        have f4 := flip_bit_getD_ne p pos 4 (by omega)
        have f6 := flip_bit_getD_ne p pos 6 (by omega)
        omega
      · have f3 := flip_bit_getD_ne p pos 3 (by omega)
        have f4 := flip_bit_getD_ne p pos 4 (by omega)
        have f5 := flip_bit_getD_ne p pos 5 (by omega)
        omega

/-- A flipped bit of the command byte and a flipped bit of the last payload byte of the
position report 07 05 01 01 02 03 04 of device 5. -/
theorem C15_witness :
    BRITER_CAN_GetEncoderValue_Callback ⟨can_idle, 0x05, 0⟩
          (flip_bit [0x07, 0x05, 0x01, 0x01, 0x02, 0x03, 0x04] 17)
        = .ok ⟨0xFFFFFFFF, ⟨can_idle, 0x05, 0⟩, []⟩
      ∧ BRITER_CAN_GetEncoderValue_Callback ⟨can_idle, 0x05, 0⟩
          (flip_bit [0x07, 0x05, 0x01, 0x01, 0x02, 0x03, 0x04] 55)
        = .ok ⟨0x84030201, ⟨can_idle, 0x05, 0x84030201⟩, []⟩ :=
  ⟨(C15_CAN_single_bit_flip ⟨can_idle, 0x05, 0⟩ [0x07, 0x05, 0x01, 0x01, 0x02, 0x03, 0x04] 17
      (by decide) (by decide) (by decide)).1 (by decide),
    ((C15_CAN_single_bit_flip ⟨can_idle, 0x05, 0⟩ [0x07, 0x05, 0x01, 0x01, 0x02, 0x03, 0x04] 55
      (by decide) (by decide) (by decide)).2 (by decide) (by decide)).1⟩

/-- The position report 07 05 01 FF FF FF 7F of device 5 is accepted and reported as
0x7FFFFFFF, which is not below `BRITER_CAN_MAX_VALUE`: the claim C16 fails on it. -/
theorem C16_counterexample :
    BRITER_CAN_GetEncoderValue_Callback ⟨can_idle, 0x05, 0⟩
          [0x07, 0x05, 0x01, 0xFF, 0xFF, 0xFF, 0x7F]
        = .ok ⟨0x7FFFFFFF, ⟨can_idle, 0x05, 0x7FFFFFFF⟩, []⟩
      ∧ BRITER_CAN_MAX_VALUE = 98304 ∧ ¬ (0x7FFFFFFF < BRITER_CAN_MAX_VALUE) :=
  ⟨by rfl, by rfl, by decide⟩

/-- C16 (amended): every position that `BRITER_CAN_GetEncoderValue_Callback` reports for an
accepted frame, as return value and as the handle's position, is the little-endian value
`p[3] + 256 p[4] + 65536 p[5] + 16777216 p[6]` of the payload and lies in [0, 2^32); the
callback applies no further bound, so the position is below `BRITER_CAN_MAX_VALUE` = 98304
exactly when the payload is: `p[6] = 0` and `p[5] = 0`, or `p[5] = 1` with `p[4] < 0x80`. -/
theorem C16_CAN_position_range (handler : Briter_CAN_Handler_t) (p : List Nat)
    (hp : IsBytes p) (h7 : 7 ≤ p.length)
    (hacc : p.getD 1 0 = handler.address ∧ p.getD 0 0 = 7 ∧ p.getD 2 0 = 0x01) :
    BRITER_CAN_GetEncoderValue_Callback handler p
        = .ok ⟨p.getD 3 0 + 256 * p.getD 4 0 + 65536 * p.getD 5 0 + 16777216 * p.getD 6 0,
            { handler with
              position :=
                p.getD 3 0 + 256 * p.getD 4 0 + 65536 * p.getD 5 0 + 16777216 * p.getD 6 0 },
            []⟩
      ∧ p.getD 3 0 + 256 * p.getD 4 0 + 65536 * p.getD 5 0 + 16777216 * p.getD 6 0
          < 4294967296
      ∧ (p.getD 3 0 + 256 * p.getD 4 0 + 65536 * p.getD 5 0 + 16777216 * p.getD 6 0
            < BRITER_CAN_MAX_VALUE
          ↔ p.getD 6 0 = 0 ∧ (p.getD 5 0 = 0 ∨ (p.getD 5 0 = 1 ∧ p.getD 4 0 < 0x80))) := by
  have h3 := IsBytes_getD p hp 3
  have h4 := IsBytes_getD p hp 4
  have h5 := IsBytes_getD p hp 5
  have h6 := IsBytes_getD p hp 6
  have hmax : BRITER_CAN_MAX_VALUE = 98304 := rfl
  refine ⟨?_, by omega, ?_⟩
  · rw [BRITER_CAN_GetEncoderValue_Callback_eq handler p hp h7, if_pos hacc]
  · rw [hmax]; omega

/-- A report of device 5 inside the range (0x00017FFF) and one at its upper end (0x00018000 =
98304). -/
theorem C16_witness :
    BRITER_CAN_GetEncoderValue_Callback ⟨can_idle, 0x05, 0⟩
          [0x07, 0x05, 0x01, 0xFF, 0x7F, 0x01, 0x00]
        = .ok ⟨0x00017FFF, ⟨can_idle, 0x05, 0x00017FFF⟩, []⟩
      ∧ BRITER_CAN_GetEncoderValue_Callback ⟨can_idle, 0x05, 0⟩
          [0x07, 0x05, 0x01, 0x00, 0x80, 0x01, 0x00]
        = .ok ⟨98304, ⟨can_idle, 0x05, 98304⟩, []⟩ :=
  ⟨(C16_CAN_position_range ⟨can_idle, 0x05, 0⟩ [0x07, 0x05, 0x01, 0xFF, 0x7F, 0x01, 0x00]
      (by decide) (by decide) (by decide)).1,
    (C16_CAN_position_range ⟨can_idle, 0x05, 0⟩ [0x07, 0x05, 0x01, 0x00, 0x80, 0x01, 0x00]
      (by decide) (by decide) (by decide)).1⟩

/-! ## Linearity of the CRC and single-bit errors -/

/-- One step of the CRC register is linear over XOR. -/
theorem crc16_shift_xor (x y : Nat) :
    crc16_shift (x ^^^ y) = crc16_shift x ^^^ crc16_shift y := by
  unfold crc16_shift
  rw [Nat.xor_div_two, Nat.xor_mod_two_eq]
  by_cases hx : x % 2 = 1 <;> by_cases hy : y % 2 = 1
  · rw [if_pos hx, if_pos hy, if_neg (by omega), Nat.xor_assoc,
      ← Nat.xor_assoc 0xA001 (y / 2) 0xA001, Nat.xor_comm 0xA001 (y / 2), Nat.xor_assoc,
      Nat.xor_self, Nat.xor_zero]
  · rw [if_pos hx, if_neg hy, if_pos (by omega), Nat.xor_assoc, Nat.xor_assoc,
      Nat.xor_comm 0xA001 (y / 2)]
  · rw [if_neg hx, if_pos hy, if_pos (by omega), Nat.xor_assoc]
  · rw [if_neg hx, if_neg hy, if_neg (by omega)]

theorem crc16_shift_iterate_xor (n x y : Nat) :
    crc16_shift^[n] (x ^^^ y) = crc16_shift^[n] x ^^^ crc16_shift^[n] y := by
  induction n generalizing x y with
  | zero => rfl
  | succ n ih =>
    rw [Function.iterate_succ_apply, Function.iterate_succ_apply, Function.iterate_succ_apply,
      crc16_shift_xor, ih]

/-- A difference in the accumulator, or in the absorbed octet, is carried through the eight
steps of the octet. -/
theorem crc16_octet_xor (acc d b e : Nat) :
    crc16_octet (acc ^^^ d) (b ^^^ e)
      = crc16_octet acc b ^^^ crc16_shift^[8] (d ^^^ e) := by
  unfold crc16_octet
  rw [← crc16_shift_iterate_xor]
  congr 1
  rw [Nat.xor_assoc, Nat.xor_assoc, ← Nat.xor_assoc d b e, Nat.xor_comm d b, Nat.xor_assoc]

theorem foldl_crc16_octet_xor (l : List Nat) (acc d : Nat) :
    l.foldl crc16_octet (acc ^^^ d)
      = l.foldl crc16_octet acc ^^^ crc16_shift^[8 * l.length] d := by
  induction l generalizing acc d with
  | nil => rfl
  | cons b t ih =>
    have h := crc16_octet_xor acc d b 0
    rw [Nat.xor_zero, Nat.xor_zero] at h
    rw [List.foldl_cons, List.foldl_cons, h, ih, List.length_cons, Nat.mul_succ,
      Function.iterate_add_apply]

/-- Changing the byte at index `j` by `e` changes the folded accumulator by the image of `e`
under the steps of the bytes from `j` on. -/
theorem foldl_crc16_octet_set (l : List Nat) (acc j e : Nat) (hj : j < l.length) :
    (l.set j (l.getD j 0 ^^^ e)).foldl crc16_octet acc
      = l.foldl crc16_octet acc ^^^ crc16_shift^[8 * (l.length - j)] e := by
  induction l generalizing acc j with
  | nil => simp at hj
  | cons b t ih =>
    cases j with
    | zero =>
      have h := crc16_octet_xor acc 0 b e
      rw [Nat.xor_zero, Nat.zero_xor] at h
      rw [List.set_cons_zero, List.getD_cons_zero, List.foldl_cons, List.foldl_cons, h,
        foldl_crc16_octet_xor, List.length_cons, Nat.sub_zero, Nat.mul_succ,
        Function.iterate_add_apply]
    | succ j =>
      rw [List.set_cons_succ, List.getD_cons_succ, List.foldl_cons, List.foldl_cons,
        ih _ j (by simpa using hj), List.length_cons, Nat.succ_sub_succ]

/-- No nonzero 16-bit value is sent to zero by a step of the CRC register. -/
theorem crc16_shift_ne_zero (d : Nat) (hd : d < 65536) (h0 : d ≠ 0) : crc16_shift d ≠ 0 := by
  unfold crc16_shift
  split
  · intro h
    have h2 : d / 2 = 0xA001 := Nat.xor_eq_zero.mp h
    omega
  · omega

theorem crc16_shift_iterate_ne_zero (n d : Nat) (hd : d < 65536) (h0 : d ≠ 0) :
    crc16_shift^[n] d ≠ 0 := by
  induction n generalizing d with
  | zero => exact h0
  | succ n ih =>
    rw [Function.iterate_succ_apply]
    exact ih _ (crc16_shift_lt d hd) (crc16_shift_ne_zero d hd h0)

/-- A single flipped bit inside the covered bytes changes the CRC. -/
theorem crc16_flip_bit_ne (l : List Nat) (pos : Nat) (hj : pos / 8 < l.length) :
    crc16 (flip_bit l pos) ≠ crc16 l := by
  unfold crc16 flip_bit
  rw [foldl_crc16_octet_set l _ _ _ hj]
  intro h
  have h2 : List.foldl crc16_octet 0xFFFF l ^^^ crc16_shift^[8 * (l.length - pos / 8)]
      (2 ^ (pos % 8)) = List.foldl crc16_octet 0xFFFF l ^^^ 0 := by rw [h, Nat.xor_zero]
  have hk : pos % 8 < 8 := Nat.mod_lt _ (by norm_num)
  have hlt : 2 ^ (pos % 8) < 65536 :=
    Nat.lt_trans (Nat.pow_lt_pow_right (by norm_num) hk) (by norm_num)
  exact crc16_shift_iterate_ne_zero _ _ hlt (Nat.pos_iff_ne_zero.mp (Nat.two_pow_pos _))
    (Nat.xor_right_inj.mp h2)

/-- The covered bytes of the frame with a bit flipped at a covered byte. -/
theorem flip_bit_take_of_lt (p : List Nat) (pos L : Nat) (hj : pos / 8 < L) :
    (flip_bit p pos).take L = flip_bit (p.take L) pos := by
  unfold flip_bit
  rw [List.set_take]
  congr 1
  rw [List.getD_eq_getElem?_getD, List.getD_eq_getElem?_getD, List.getElem?_take_of_lt hj]

/-- A bit flipped behind the covered bytes leaves them as they are. -/
theorem flip_bit_take_of_le (p : List Nat) (pos L : Nat) (hj : L ≤ pos / 8) :
    (flip_bit p pos).take L = p.take L := by
  unfold flip_bit
  apply List.ext_getElem?
  intro i
  rw [List.getElem?_take, List.getElem?_take]
  split
  · rw [List.getElem?_set_ne (by omega)]
  · rfl

/-- A frame accepted by `Encoder_CheckRX` is rejected once a single bit of it is flipped,
provided the flipped bit lies in the bytes the check reads and is not a bit of the byte-count
field of a READ response. -/
theorem Encoder_CheckRX_flip_rejected (fuel : Nat) (p : List Nat) (a : Nat)
    (f : RS485_Enc_Func_e) (L pos : Nat) (hp : IsBytes p) (hfuel : L < fuel)
    (hL : L = if f = ENC_READ then p.getD 2 0 + 3 else 6) (h255 : L ≤ 255)
    (hlen : L + 2 ≤ p.length) (hacc : Encoder_CheckRX fuel p a f = .ok HAL_OK)
    (hpos : pos / 8 < L + 2) (hcount : f = ENC_READ → pos / 8 ≠ 2) :
    Encoder_CheckRX fuel (flip_bit p pos) a f = .ok HAL_ERROR := by
  have h3 : 3 ≤ L := by rw [hL]; split <;> omega
  have hcond : p.getD 0 0 = a ∧ p.getD 1 0 = f.toNat
      ∧ p.getD L 0 = crc16 (p.take L) % 256 ∧ p.getD (L + 1) 0 = crc16 (p.take L) / 256 := by
    by_contra hc
    rw [Encoder_CheckRX_eq fuel p a f L hp hfuel hL h255 hlen, if_neg hc] at hacc
    cases hacc
  obtain ⟨p0, p1, plo, phi⟩ := hcond
  have hq := flip_bit_IsBytes p pos hp
  have hLq : L = if f = ENC_READ then (flip_bit p pos).getD 2 0 + 3 else 6 := by
    by_cases hf : f = ENC_READ
    · rw [if_pos hf, flip_bit_getD_ne p pos 2 (fun h => hcount hf h.symm)]
      rw [if_pos hf] at hL
      exact hL
    · rw [if_neg hf]
      rw [if_neg hf] at hL
      exact hL
  rw [Encoder_CheckRX_eq fuel (flip_bit p pos) a f L hq hfuel hLq h255
    (by rw [flip_bit_length]; exact hlen), if_neg]
  rintro ⟨q0, q1, qlo, qhi⟩
  have hcases : pos / 8 = 0 ∨ pos / 8 = 1 ∨ (pos / 8 < L ∧ pos / 8 ≠ L ∧ pos / 8 ≠ L + 1)
      ∨ pos / 8 = L ∨ pos / 8 = L + 1 := by omega
  rcases hcases with hj | hj | ⟨hj, hjL, hjL1⟩ | hj | hj
  · have hself := flip_bit_getD_self p pos (by omega)
    rw [hj] at hself
    exact hself (q0.trans p0.symm)
  · have hself := flip_bit_getD_self p pos (by omega)
    rw [hj] at hself
    exact hself (q1.trans p1.symm)
  · have hne := crc16_flip_bit_ne (p.take L) pos (by simp; omega)
    rw [← flip_bit_take_of_lt p pos L hj] at hne
    have elo := flip_bit_getD_ne p pos L (fun h => hjL h.symm)
    have ehi := flip_bit_getD_ne p pos (L + 1) (fun h => hjL1 h.symm)
    rw [elo, plo] at qlo
    rw [ehi, phi] at qhi
    omega
  · have hself := flip_bit_getD_self p pos (by omega)
    rw [hj] at hself
    rw [flip_bit_take_of_le p pos L (by omega)] at qlo
    exact hself (qlo.trans plo.symm)
  · have hself := flip_bit_getD_self p pos (by omega)
    rw [hj] at hself
    rw [flip_bit_take_of_le p pos L (by omega)] at qhi
    exact hself (qhi.trans phi.symm)

/-! ## Single-bit corruption of RS485 responses: claims C13 and C14 -/

/-- C13: for every 8-byte frame accepted by `Encoder_CheckRX` for an address `a` and a write
function code (0x06 or 0x10), and for every one of its 64 bit positions, the frame with that
single bit flipped is rejected by `Encoder_CheckRX` for the same `a` and function code. -/
theorem C13_write_acknowledgement_single_bit (fuel : Nat) (p : List Nat) (a : Nat)
    (f : RS485_Enc_Func_e) (pos : Nat) (hp : IsBytes p) (hlen : p.length = 8)
    (hf : f = ENC_WRITE_SINGLE ∨ f = ENC_WRITE_MULTI) (hfuel : 6 < fuel)
    (hacc : Encoder_CheckRX fuel p a f = .ok HAL_OK) (hpos : pos < 64) :
    Encoder_CheckRX fuel (flip_bit p pos) a f = .ok HAL_ERROR := by
  have hne : f ≠ ENC_READ := by rcases hf with rfl | rfl <;> decide
  exact Encoder_CheckRX_flip_rejected fuel p a f 6 pos hp hfuel (if_neg hne).symm (by decide)
    (by omega) hacc (by omega) (fun h => absurd h hne)

/-- The acknowledgement 01 06 00 05 00 04 98 08 of device 1 with bit 2 of its byte 5
flipped. -/
theorem C13_witness :
    Encoder_CheckRX 7 (flip_bit [0x01, 0x06, 0x00, 0x05, 0x00, 0x04, 0x98, 0x08] 42) 0x01
      ENC_WRITE_SINGLE = .ok HAL_ERROR :=
  C13_write_acknowledgement_single_bit 7 [0x01, 0x06, 0x00, 0x05, 0x00, 0x04, 0x98, 0x08] 0x01
    ENC_WRITE_SINGLE 42 (by decide) (by decide) (by decide) (by decide) (by rfl) (by decide)

/-- What `Encoder_CheckRX` returns for a READ response, with the covered length as the code
computes it in a `uint8_t`. -/
theorem Encoder_CheckRX_read_eq (fuel : Nat) (p : List Nat) (a T : Nat) (hp : IsBytes p)
    (hT : T = (p.getD 2 0 + 3) % 256) (hfuel : T < fuel) (h3 : 3 ≤ p.length)
    (hlen : T + 2 ≤ p.length) :
    Encoder_CheckRX fuel p a ENC_READ
      = .ok (if p.getD 0 0 = a ∧ p.getD 1 0 = 0x03
              ∧ p.getD T 0 = crc16 (p.take T) % 256
              ∧ p.getD (T + 1) 0 = crc16 (p.take T) / 256
            then HAL_OK else HAL_ERROR) := by
  have h255 : T ≤ 255 := by rw [hT]; omega
  have hcrc := crc16_lt _ (IsBytes_take p T hp)
  unfold Encoder_CheckRX
  rw [rd_getD p 0 (by omega)]
  simp only []
  by_cases h0 : p.getD 0 0 = a
  swap
  · rw [if_pos h0, if_neg (fun h => h0 h.1)]
  rw [if_neg (not_not.mpr h0), rd_getD p 1 (by omega)]
  simp only []
  by_cases h1 : p.getD 1 0 = ENC_READ.toNat
  swap
  · rw [if_pos h1, if_neg (fun h => h1 h.2.1)]
  rw [if_neg (not_not.mpr h1), if_pos h1, rd_getD p 2 (by omega)]
  simp only []
  rw [← hT, Calculate_CRC_eq fuel p T (IsBytes_take p T hp) (by omega) h255 hfuel]
  simp only []
  rw [rd_getD p T (by omega)]
  simp only [and_255, Nat.shiftRight_eq_div_pow, Nat.pow_zero, Nat.div_one, Nat.mod_mod]
  by_cases hlo : p.getD T 0 = crc16 (p.take T) % 256
  swap
  · rw [if_pos hlo, if_neg (fun h => hlo h.2.2.1)]
  rw [if_neg (not_not.mpr hlo), rd_getD p (T + 1) (by omega)]
  simp only []
  have hhi : crc16 (List.take T p) / 2 ^ 8 % 256 = crc16 (List.take T p) / 256 := by
    norm_num; omega
  rw [hhi]
  by_cases hhi2 : p.getD (T + 1) 0 = crc16 (p.take T) / 256
  · rw [if_neg (not_not.mpr hhi2), if_pos ⟨h0, h1, hlo, hhi2⟩]
  · rw [if_pos hhi2, if_neg (fun h => hhi2 h.2.2.2)]

theorem crc16_one_octet_ne (x : Nat) (hx : x < 256) :
    ¬ (0x03 = crc16 [x] % 256 ∧ 254 = crc16 [x] / 256) := by
  revert x
  decide

theorem crc16_two_octets_ne (x : Nat) (hx : x < 256) : 255 ≠ crc16 [x, 0x03] % 256 := by
  revert x
  decide

/-- An accepted READ response of `3 + N + 2` bytes declares at most 252 data bytes. -/
theorem accepted_read_count_le (fuel : Nat) (p : List Nat) (a : Nat) (hp : IsBytes p)
    (hlen : p.length = 3 + p.getD 2 0 + 2) (hfuel : 255 < fuel)
    (hacc : Encoder_CheckRX fuel p a ENC_READ = .ok HAL_OK) : p.getD 2 0 ≤ 252 := by
  by_contra hN
  have hb := IsBytes_getD p hp 2
  have h0 := IsBytes_getD p hp 0
  have hcond : p.getD 0 0 = a ∧ p.getD 1 0 = 0x03
      ∧ p.getD (p.getD 2 0 - 253) 0 = crc16 (p.take (p.getD 2 0 - 253)) % 256
      ∧ p.getD (p.getD 2 0 - 253 + 1) 0 = crc16 (p.take (p.getD 2 0 - 253)) / 256 := by
    by_contra hc
    rw [Encoder_CheckRX_read_eq fuel p a (p.getD 2 0 - 253) hp (by omega) (by omega)
      (by omega) (by omega), if_neg hc] at hacc
    cases hacc
  obtain ⟨-, c1, clo, chi⟩ := hcond
  match p, hlen with
  | x :: y :: z :: rest, _ =>
    simp only [List.getD_cons_zero, List.getD_cons_succ] at hb h0 hN c1 clo chi
    have hz : z = 253 ∨ z = 254 ∨ z = 255 := by omega
    rcases hz with rfl | rfl | rfl
    · simp only [Nat.sub_self, List.getD_cons_zero, List.getD_cons_succ, List.take] at clo chi
      have e : crc16 [] / 256 = 255 := by decide
      omega
    · simp only [show 254 - 253 = 1 from rfl, List.getD_cons_zero, List.getD_cons_succ,
        List.take] at clo chi
      exact crc16_one_octet_ne x h0 ⟨c1 ▸ clo, chi⟩
    · simp only [show 255 - 253 = 2 from rfl, List.getD_cons_zero, List.getD_cons_succ,
        List.take] at clo chi
      rw [c1] at clo
      exact crc16_two_octets_ne x h0 clo


/-- The READ response 01 03 04 20 F0 12 34 FC B7 of device 1 (4 data bytes, correct CRC) is
accepted; with bit 2 of its byte-count field flipped it reads 01 03 00 20 F0 ..., whose bytes
3 and 4 are the CRC of 01 03 00, so it is accepted as well and the position decode returns
0x20F01234 instead of the sentinel: the claim C14 fails on it. -/
theorem C14_counterexample :
    Encoder_CheckRX 256 [0x01, 0x03, 0x04, 0x20, 0xF0, 0x12, 0x34, 0xFC, 0xB7] 0x01 ENC_READ
        = .ok HAL_OK
      ∧ flip_bit [0x01, 0x03, 0x04, 0x20, 0xF0, 0x12, 0x34, 0xFC, 0xB7] 18
        = [0x01, 0x03, 0x00, 0x20, 0xF0, 0x12, 0x34, 0xFC, 0xB7]
      ∧ Encoder_CheckRX 256
          (flip_bit [0x01, 0x03, 0x04, 0x20, 0xF0, 0x12, 0x34, 0xFC, 0xB7] 18) 0x01 ENC_READ
        = .ok HAL_OK
      ∧ BRITER_RS485_GetEncoderValue_DMA_Callback 256 ⟨0x01, 0, uart_idle⟩
          (flip_bit [0x01, 0x03, 0x04, 0x20, 0xF0, 0x12, 0x34, 0xFC, 0xB7] 18)
        = .ok ⟨0x20F01234, ⟨0x01, 0, uart_idle⟩, []⟩ :=
  ⟨by rfl, by rfl, by rfl, by rfl⟩

/-- C14 (amended): for every RS485 READ response frame of `3 + N + 2` bytes accepted by
`Encoder_CheckRX`, flipping any single bit of the frame other than a bit of the byte-count
field (byte 2) makes `Encoder_CheckRX` reject it, so that
`BRITER_RS485_GetEncoderValue_DMA_Callback` returns the sentinel 0xFFFFFFFF. -/
theorem C14_read_response_single_bit (fuel : Nat) (handler : Briter_Encoder_t)
    (p : List Nat) (pos : Nat) (hp : IsBytes p) (hlen : p.length = 3 + p.getD 2 0 + 2)
    (haddr : handler.addr < 256) (hfuel : 255 < fuel)
    (hacc : Encoder_CheckRX fuel p handler.addr ENC_READ = .ok HAL_OK)
    (hpos : pos < 8 * p.length) (hcount : pos / 8 ≠ 2) :
    Encoder_CheckRX fuel (flip_bit p pos) handler.addr ENC_READ = .ok HAL_ERROR
      ∧ BRITER_RS485_GetEncoderValue_DMA_Callback fuel handler (flip_bit p pos)
        = .ok ⟨0xFFFFFFFF, handler, []⟩ := by
  have hN := accepted_read_count_le fuel p handler.addr hp hlen hfuel hacc
  have hrej := Encoder_CheckRX_flip_rejected fuel p handler.addr ENC_READ (p.getD 2 0 + 3) pos
    hp (by omega) (if_pos rfl).symm (by omega) (by omega) hacc (by omega) (fun _ => hcount)
  refine ⟨hrej, ?_⟩
  unfold BRITER_RS485_GetEncoderValue_DMA_Callback
  rw [Nat.mod_eq_of_lt haddr, hrej]
  rfl

/-- The response 01 03 04 20 F0 12 34 FC B7 of device 1 with bit 4 of its data byte 5
flipped. -/
theorem C14_witness :
    Encoder_CheckRX 256
          (flip_bit [0x01, 0x03, 0x04, 0x20, 0xF0, 0x12, 0x34, 0xFC, 0xB7] 44) 0x01 ENC_READ
        = .ok HAL_ERROR
      ∧ BRITER_RS485_GetEncoderValue_DMA_Callback 256 ⟨0x01, 0, uart_idle⟩
          (flip_bit [0x01, 0x03, 0x04, 0x20, 0xF0, 0x12, 0x34, 0xFC, 0xB7] 44)
        = .ok ⟨0xFFFFFFFF, ⟨0x01, 0, uart_idle⟩, []⟩ :=
  C14_read_response_single_bit 256 ⟨0x01, 0, uart_idle⟩
    [0x01, 0x03, 0x04, 0x20, 0xF0, 0x12, 0x34, 0xFC, 0xB7] 44 (by decide) (by decide)
    (by decide) (by decide) (by rfl) (by decide) (by decide)

/-! ## The handle after a call: claims C21 and C22 -/

/-- The DMA read request of any handle carries the address the handle holds. -/
theorem BRITER_RS485_GetEncoderValue_DMA_eq (fuel : Nat) (handler : Briter_Encoder_t)
    (haddr : handler.addr < 256) (hf : 6 < fuel) :
    BRITER_RS485_GetEncoderValue_DMA fuel handler
      = .ok ⟨handler.huart.Transmit_DMA (RS485_request handler.addr 0x03 0x00 2), handler,
          [RS485_request handler.addr 0x03 0x00 2]⟩ := by
  have hsc : Encoder_Send_Construct fuel (List.replicate 8 0) ENC_READ (handler.addr % 65536)
      BRITER_RS485_VALUE_ADDR 2 = .ok (RS485_request handler.addr 0x03 0x00 2) := by
    rw [Nat.mod_eq_of_lt (show handler.addr < 65536 by omega), RS485_request_eq]
    exact Encoder_Send_Construct_eq fuel (List.replicate 8 0) ENC_READ handler.addr
      BRITER_RS485_VALUE_ADDR 2 rfl haddr (by decide) (by decide) hf
  unfold BRITER_RS485_GetEncoderValue_DMA
  rw [hsc]
  rfl

/-- C21: the address-change commands do not update the handle. For every handle, every new
address and every behaviour of the transport, `BRITER_RS485_SetAddress` and
`BRITER_CAN_SetAddress` return with the handle they were given, also after a fully validated
acknowledgement; a later request built from the handle they leave (the RS485 DMA read, the
CAN read) still carries the old address. -/
theorem C21_SetAddress_leaves_the_handle (fuel : Nat) (handler : Briter_Encoder_t)
    (to_address : Nat) (heap : Nat → Nat) (hcan : Briter_CAN_Handler_t) (to_can : Nat)
    (haddr : handler.addr < 256) (hto : to_address < 256) (hf : 6 < fuel)
    (ha : hcan.address < 256) :
    (∃ st, BRITER_RS485_SetAddress fuel handler to_address
        = .ok ⟨st, handler, [RS485_request handler.addr 0x06 0x04 to_address]⟩)
      ∧ (handler.huart.Transmit (RS485_request handler.addr 0x06 0x04 to_address) = HAL_OK →
          handler.huart.Receive = HAL_OK →
          (Encoder_Receive handler.huart 8).2 = RS485_request handler.addr 0x06 0x04 to_address →
          BRITER_RS485_SetAddress fuel handler to_address
            = .ok ⟨HAL_OK, handler, [RS485_request handler.addr 0x06 0x04 to_address]⟩)
      ∧ (∀ o, BRITER_RS485_SetAddress fuel handler to_address = .ok o →
          o.handler = handler
            ∧ BRITER_RS485_GetEncoderValue_DMA fuel o.handler
              = .ok ⟨handler.huart.Transmit_DMA (RS485_request handler.addr 0x03 0x00 2),
                  handler, [RS485_request handler.addr 0x03 0x00 2]⟩)
      ∧ BRITER_CAN_SetAddress heap hcan to_can
        = .ok ⟨hcan.hcan.AddTxMessage
              { StdId := hcan.address, ExtId := 0, IDE := .CAN_ID_STD, RTR := .CAN_RTR_DATA,
                DLC := 4, TransmitGlobalTime := .DISABLE }
              [4, hcan.address, 0x02, to_can % 256],
            hcan,
            [({ StdId := hcan.address, ExtId := 0, IDE := .CAN_ID_STD, RTR := .CAN_RTR_DATA,
                DLC := 4, TransmitGlobalTime := .DISABLE },
              [4, hcan.address, 0x02, to_can % 256])]⟩
      ∧ (∀ o, BRITER_CAN_SetAddress heap hcan to_can = .ok o →
          o.handler = hcan
            ∧ BRITER_CAN_ReadValue heap o.handler
              = .ok ⟨hcan.hcan.AddTxMessage
                    { StdId := hcan.address, ExtId := 0, IDE := .CAN_ID_STD,
                      RTR := .CAN_RTR_DATA, DLC := 4, TransmitGlobalTime := .DISABLE }
                    [4, hcan.address, 0x01, 0x00],
                  hcan,
                  [({ StdId := hcan.address, ExtId := 0, IDE := .CAN_ID_STD,
                      RTR := .CAN_RTR_DATA, DLC := 4, TransmitGlobalTime := .DISABLE },
                    [4, hcan.address, 0x01, 0x00])]⟩) := by
  have hrs := (RS485_command.SetAddress to_address).call_outcome fuel handler hto haddr hf
  have hcn := (CAN_command.SetAddress to_can).can_call_outcome heap hcan ha
  have hrs2 : BRITER_RS485_SetAddress fuel handler to_address = _ := hrs
  have hcn2 : BRITER_CAN_SetAddress heap hcan to_can = _ := hcn
  refine ⟨⟨_, hrs2⟩, ?_, ?_, hcn2, ?_⟩
  · intro htx hrx hbuf
    rw [hrs2]
    exact congrArg Except.ok (congrArg (fun s => Outcome.mk s handler _)
      (if_pos ⟨htx, hrx, hbuf⟩))
  · intro o ho
    rw [hrs2] at ho
    cases ho
    exact ⟨rfl, BRITER_RS485_GetEncoderValue_DMA_eq fuel handler haddr hf⟩
  · intro o ho
    rw [hcn2] at ho
    cases ho
    exact ⟨rfl, CAN_Tx_4_eq heap hcan BRITER_CAN_GET_VALUE 0 ha⟩

/-- Device 1 acknowledges the change of its address to 2; the next read request still
starts with 01. On the CAN bus, device 5 is told to become 6; the next read still goes to
identifier 5. -/
theorem C21_witness :
    BRITER_RS485_SetAddress 7
          ⟨0x01, 0, uart_delivering [0x01, 0x06, 0x00, 0x04, 0x00, 0x02, 0x49, 0xCA]⟩ 0x02
        = .ok ⟨HAL_OK,
            ⟨0x01, 0, uart_delivering [0x01, 0x06, 0x00, 0x04, 0x00, 0x02, 0x49, 0xCA]⟩,
            [[0x01, 0x06, 0x00, 0x04, 0x00, 0x02, 0x49, 0xCA]]⟩
      ∧ BRITER_RS485_GetEncoderValue_DMA 7
          ⟨0x01, 0, uart_delivering [0x01, 0x06, 0x00, 0x04, 0x00, 0x02, 0x49, 0xCA]⟩
        = .ok ⟨HAL_OK,
            ⟨0x01, 0, uart_delivering [0x01, 0x06, 0x00, 0x04, 0x00, 0x02, 0x49, 0xCA]⟩,
            [[0x01, 0x03, 0x00, 0x00, 0x00, 0x02, 0xC4, 0x0B]]⟩
      ∧ BRITER_CAN_ReadValue (fun _ => 0) ⟨can_idle, 0x05, 0⟩
        = .ok ⟨HAL_OK, ⟨can_idle, 0x05, 0⟩,
            [({ StdId := 0x05, ExtId := 0, IDE := .CAN_ID_STD, RTR := .CAN_RTR_DATA, DLC := 4,
                TransmitGlobalTime := .DISABLE }, [0x04, 0x05, 0x01, 0x00])]⟩ :=
  have h := C21_SetAddress_leaves_the_handle 7
    ⟨0x01, 0, uart_delivering [0x01, 0x06, 0x00, 0x04, 0x00, 0x02, 0x49, 0xCA]⟩ 0x02
    (fun _ => 0) ⟨can_idle, 0x05, 0⟩ 0x06 (by decide) (by decide) (by decide) (by decide)
  have h1 := h.2.1 rfl rfl (by decide)
  ⟨h1, (h.2.2.1 _ h1).2, (h.2.2.2.2 _ h.2.2.2.1).2⟩

/-- The accepted position report 07 05 01 01 02 03 04 changes the handle of device 5: its
position field goes from 0 to 0x04030201. The claim C22 fails on the CAN decode. -/
theorem C22_counterexample :
    BRITER_CAN_GetEncoderValue_Callback ⟨can_idle, 0x05, 0⟩
          [0x07, 0x05, 0x01, 0x01, 0x02, 0x03, 0x04]
        = .ok ⟨0x04030201, ⟨can_idle, 0x05, 0x04030201⟩, []⟩
      ∧ (⟨can_idle, 0x05, 0x04030201⟩ : Briter_CAN_Handler_t).position
        ≠ (⟨can_idle, 0x05, 0⟩ : Briter_CAN_Handler_t).position :=
  ⟨by rfl, by decide⟩

/-- The return value of the RS485 decode depends on the handle through its address only. -/
theorem BRITER_RS485_GetEncoderValue_DMA_Callback_ret (fuel : Nat)
    (h1 h2 : Briter_Encoder_t) (p : List Nat) (h : h1.addr = h2.addr) :
    Except.map Outcome.ret (BRITER_RS485_GetEncoderValue_DMA_Callback fuel h1 p)
      = Except.map Outcome.ret (BRITER_RS485_GetEncoderValue_DMA_Callback fuel h2 p) := by
  unfold BRITER_RS485_GetEncoderValue_DMA_Callback
  rw [h]
  cases Encoder_CheckRX fuel p (h2.addr % 256) ENC_READ with
  | error e => rfl
  | ok st =>
    simp only []
    by_cases hst : st ≠ HAL_OK
    · rw [if_pos hst, if_pos hst]; rfl
    · rw [if_neg hst, if_neg hst]
      cases RS485_assemble p with
      | error e => rfl
      | ok v => rfl

/-- Whatever the buffer, the RS485 decode returns with the handle it was given. -/
theorem BRITER_RS485_GetEncoderValue_DMA_Callback_handler (fuel : Nat)
    (handler : Briter_Encoder_t) (p : List Nat)
    (o : Outcome Briter_Encoder_t (List Nat) Nat)
    (ho : BRITER_RS485_GetEncoderValue_DMA_Callback fuel handler p = .ok o) :
    o.handler = handler ∧ o.sent = [] := by
  unfold BRITER_RS485_GetEncoderValue_DMA_Callback at ho
  split at ho
  · cases ho
  · split at ho
    · cases ho; exact ⟨rfl, rfl⟩
    · split at ho
      · cases ho
      · cases ho; exact ⟨rfl, rfl⟩

/-- C22 (amended): `BRITER_RS485_GetEncoderValue_DMA_Callback` is stateless: whenever
`Encoder_CheckRX` returns, accepting or rejecting, the callback returns with every field of
the handle unchanged, and its return value depends on the handle through the address only.
`BRITER_CAN_GetEncoderValue_Callback` leaves the handle unchanged when it rejects the frame;
when it accepts, it stores the decoded position in the handle's `position` field and leaves
`hcan` and `address` unchanged; its return value depends on the handle through the address
only. The RS485 decode does return when the length `(p[2] + 3) mod 256` it takes from the
frame and the two CRC bytes after it lie inside the buffer. -/
theorem C22_handles_after_decoding (fuel : Nat) (handler : Briter_Encoder_t) (p : List Nat)
    (hcan : Briter_CAN_Handler_t) (q : List Nat) (hp : IsBytes p) (hp7 : 7 ≤ p.length)
    (haddr : handler.addr < 256) (hq : IsBytes q) (hq7 : 7 ≤ q.length) :
    (∀ st, Encoder_CheckRX fuel p handler.addr ENC_READ = .ok st →
        ∃ v, BRITER_RS485_GetEncoderValue_DMA_Callback fuel handler p
          = .ok ⟨v, handler, []⟩)
      ∧ (∀ o, BRITER_RS485_GetEncoderValue_DMA_Callback fuel handler p = .ok o →
          o.handler = handler)
      ∧ (∀ other : Briter_Encoder_t, other.addr = handler.addr →
          Except.map Outcome.ret (BRITER_RS485_GetEncoderValue_DMA_Callback fuel other p)
            = Except.map Outcome.ret (BRITER_RS485_GetEncoderValue_DMA_Callback fuel handler p))
      ∧ (¬ (q.getD 1 0 = hcan.address ∧ q.getD 0 0 = 7 ∧ q.getD 2 0 = 0x01) →
          BRITER_CAN_GetEncoderValue_Callback hcan q = .ok ⟨0xFFFFFFFF, hcan, []⟩)
      ∧ (q.getD 1 0 = hcan.address ∧ q.getD 0 0 = 7 ∧ q.getD 2 0 = 0x01 →
          BRITER_CAN_GetEncoderValue_Callback hcan q
            = .ok ⟨q.getD 3 0 + 256 * q.getD 4 0 + 65536 * q.getD 5 0 + 16777216 * q.getD 6 0,
                ⟨hcan.hcan, hcan.address,
                  q.getD 3 0 + 256 * q.getD 4 0 + 65536 * q.getD 5 0
                    + 16777216 * q.getD 6 0⟩,
                []⟩)
      ∧ (∀ other : Briter_CAN_Handler_t, other.address = hcan.address →
          Except.map Outcome.ret (BRITER_CAN_GetEncoderValue_Callback other q)
            = Except.map Outcome.ret (BRITER_CAN_GetEncoderValue_Callback hcan q))
      ∧ ((p.getD 2 0 + 3) % 256 < fuel → (p.getD 2 0 + 3) % 256 + 2 ≤ p.length →
          ∃ v, BRITER_RS485_GetEncoderValue_DMA_Callback fuel handler p
            = .ok ⟨v, handler, []⟩) := by
  have hret : ∀ st, Encoder_CheckRX fuel p handler.addr ENC_READ = .ok st →
      ∃ v, BRITER_RS485_GetEncoderValue_DMA_Callback fuel handler p
        = .ok ⟨v, handler, []⟩ := by
    intro st hst
    unfold BRITER_RS485_GetEncoderValue_DMA_Callback
    rw [Nat.mod_eq_of_lt haddr, hst]
    simp only []
    by_cases h : st ≠ HAL_OK
    · rw [if_pos h]; exact ⟨_, rfl⟩
    · rw [if_neg h, (RS485_assemble_eq p hp hp7).1]; exact ⟨_, rfl⟩
  refine ⟨hret, ?_, ?_, ?_, ?_, ?_, ?_⟩
  · intro o ho
    exact (BRITER_RS485_GetEncoderValue_DMA_Callback_handler fuel handler p o ho).1
  · intro other h
    exact BRITER_RS485_GetEncoderValue_DMA_Callback_ret fuel other handler p h
  · intro h
    rw [BRITER_CAN_GetEncoderValue_Callback_eq hcan q hq hq7, if_neg h]
  · intro h
    rw [BRITER_CAN_GetEncoderValue_Callback_eq hcan q hq hq7, if_pos h]
  · intro other h
    rw [BRITER_CAN_GetEncoderValue_Callback_eq hcan q hq hq7,
      BRITER_CAN_GetEncoderValue_Callback_eq other q hq hq7, h]
    by_cases hc : q.getD 1 0 = hcan.address ∧ q.getD 0 0 = 7 ∧ q.getD 2 0 = 0x01
    · rw [if_pos hc, if_pos hc]; rfl
    · rw [if_neg hc, if_neg hc]; rfl
  · intro hf hl
    exact hret _ (Encoder_CheckRX_read_eq fuel p handler.addr _ hp rfl hf (by omega) hl)

/-- An accepted and a rejected READ response leave the handle of device 1 as it was (stored
value 0x11); an accepted CAN report stores its position in the handle of device 5, a rejected
one does not. -/
theorem C22_witness :
    BRITER_RS485_GetEncoderValue_DMA_Callback 8 ⟨0x01, 0x11, uart_idle⟩
          [0x01, 0x03, 0x04, 0x80, 0x01, 0x02, 0x03, 0xC3, 0x52]
        = .ok ⟨0x80010203, ⟨0x01, 0x11, uart_idle⟩, []⟩
      ∧ BRITER_CAN_GetEncoderValue_Callback ⟨can_idle, 0x05, 0x11⟩
          [0x07, 0x05, 0x01, 0x01, 0x02, 0x03, 0x04]
        = .ok ⟨0x04030201, ⟨can_idle, 0x05, 0x04030201⟩, []⟩
      ∧ BRITER_CAN_GetEncoderValue_Callback ⟨can_idle, 0x05, 0x11⟩
          [0x07, 0x06, 0x01, 0x01, 0x02, 0x03, 0x04]
        = .ok ⟨0xFFFFFFFF, ⟨can_idle, 0x05, 0x11⟩, []⟩ := by
  have h := C22_handles_after_decoding 8 ⟨0x01, 0x11, uart_idle⟩
    [0x01, 0x03, 0x04, 0x80, 0x01, 0x02, 0x03, 0xC3, 0x52] ⟨can_idle, 0x05, 0x11⟩
    [0x07, 0x05, 0x01, 0x01, 0x02, 0x03, 0x04] (by decide) (by decide) (by decide)
    (by decide) (by decide)
  have h2 := C22_handles_after_decoding 8 ⟨0x01, 0x11, uart_idle⟩
    [0x01, 0x03, 0x04, 0x80, 0x01, 0x02, 0x03, 0xC3, 0x52] ⟨can_idle, 0x05, 0x11⟩
    [0x07, 0x06, 0x01, 0x01, 0x02, 0x03, 0x04] (by decide) (by decide) (by decide)
    (by decide) (by decide)
  obtain ⟨v, hv⟩ := h.1 HAL_OK (by rfl)
  have e : BRITER_RS485_GetEncoderValue_DMA_Callback 8 ⟨0x01, 0x11, uart_idle⟩
      [0x01, 0x03, 0x04, 0x80, 0x01, 0x02, 0x03, 0xC3, 0x52]
      = .ok ⟨0x80010203, ⟨0x01, 0x11, uart_idle⟩, []⟩ := by rfl
  have hv2 : v = 0x80010203 := congrArg Outcome.ret (Except.ok.inj (hv.symm.trans e))
  subst hv2
  exact ⟨hv, h.2.2.2.2.1 (by decide), h2.2.2.2.1 (by decide)⟩

/-! ## What the RS485 decode returns: claims C23 and C24 -/

theorem or_reverse (a b c d : Nat) : a ||| b ||| c ||| d = d ||| c ||| b ||| a := by
  rw [Nat.or_comm (a ||| b ||| c) d, Nat.or_comm (a ||| b) c, Nat.or_comm a b,
    ← Nat.or_assoc, ← Nat.or_assoc]

/-- Big-endian assembly of four bytes: the bitwise OR of the shifted bytes is their
positional sum. -/
theorem or_shifts_be_eq_sum (b3 b4 b5 b6 : Nat) (h4 : b4 < 256) (h5 : b5 < 256)
    (h6 : b6 < 256) :
    b3 <<< 24 ||| b4 <<< 16 ||| b5 <<< 8 ||| b6
      = 16777216 * b3 + 65536 * b4 + 256 * b5 + b6 := by
  rw [or_reverse, or_shifts_eq_sum b6 b5 b4 b3 h6 h5 h4]
  omega

/-- What `BRITER_RS485_GetEncoderValue_DMA_Callback` returns once `Encoder_CheckRX` has
returned the status `st`. -/
theorem BRITER_RS485_GetEncoderValue_DMA_Callback_eq (fuel : Nat)
    (handler : Briter_Encoder_t) (p : List Nat) (st : HAL_StatusTypeDef) (hp : IsBytes p)
    (h7 : 7 ≤ p.length) (haddr : handler.addr < 256)
    (hst : Encoder_CheckRX fuel p handler.addr ENC_READ = .ok st) :
    BRITER_RS485_GetEncoderValue_DMA_Callback fuel handler p
      = .ok ⟨if st = HAL_OK then
            p.getD 3 0 <<< 24 ||| p.getD 4 0 <<< 16 ||| p.getD 5 0 <<< 8 ||| p.getD 6 0
          else 0xFFFFFFFF,
          handler, []⟩ := by
  unfold BRITER_RS485_GetEncoderValue_DMA_Callback
  rw [Nat.mod_eq_of_lt haddr, hst]
  simp only []
  by_cases h : st = HAL_OK
  · rw [if_neg (not_not.mpr h), if_pos h, (RS485_assemble_eq p hp h7).1]
  · rw [if_pos h, if_neg h]; rfl

/-- A READ response of device 1 declaring 2 data bytes, 01 03 02 12 34 B5 33 with its
correct CRC 0x33B5, is accepted and decoded to 0x1234B533: the two CRC bytes are taken as the
low half of the position. The claim C23 fails on it. -/
theorem C23_counterexample :
    crc16 [0x01, 0x03, 0x02, 0x12, 0x34] = 0x33B5
      ∧ Encoder_CheckRX 256 [0x01, 0x03, 0x02, 0x12, 0x34, 0xB5, 0x33] 0x01 ENC_READ
        = .ok HAL_OK
      ∧ BRITER_RS485_GetEncoderValue_DMA_Callback 256 ⟨0x01, 0, uart_idle⟩
          [0x01, 0x03, 0x02, 0x12, 0x34, 0xB5, 0x33]
        = .ok ⟨0x1234B533, ⟨0x01, 0, uart_idle⟩, []⟩
      ∧ (0x1234B533 : Nat) ≠ 0xFFFFFFFF
      ∧ [0x01, 0x03, 0x02, 0x12, 0x34, 0xB5, 0x33].getD 2 0 ≠ 4 :=
  ⟨by decide, by rfl, by rfl, by decide, by decide⟩

/-- C23 (amended): for every buffer of at least 7 bytes on which
`BRITER_RS485_GetEncoderValue_DMA_Callback` returns a value other than the sentinel,
`Encoder_CheckRX` has accepted the frame for the handle's address and the READ function, and
the value is `p[3]<<24 | p[4]<<16 | p[5]<<8 | p[6]`. The declared byte count is not compared
with 4: a CRC-valid read response declaring 2 data bytes `d0 d1` is accepted and decoded from
its two data bytes followed by its two CRC bytes. -/
theorem C23_decode_of_accepted_frames (fuel : Nat) (handler : Briter_Encoder_t)
    (p : List Nat) (o : Outcome Briter_Encoder_t (List Nat) Nat) (hp : IsBytes p)
    (h7 : 7 ≤ p.length) (haddr : handler.addr < 256)
    (ho : BRITER_RS485_GetEncoderValue_DMA_Callback fuel handler p = .ok o)
    (hne : o.ret ≠ 0xFFFFFFFF) :
    Encoder_CheckRX fuel p handler.addr ENC_READ = .ok HAL_OK
      ∧ o.ret = p.getD 3 0 <<< 24 ||| p.getD 4 0 <<< 16 ||| p.getD 5 0 <<< 8 ||| p.getD 6 0
      ∧ (∀ d0 d1 : Nat, d0 < 256 → d1 < 256 → 5 < fuel →
          Encoder_CheckRX fuel
              [handler.addr, 0x03, 0x02, d0, d1,
                crc16 [handler.addr, 0x03, 0x02, d0, d1] &&& 0xFF,
                crc16 [handler.addr, 0x03, 0x02, d0, d1] >>> 8]
              handler.addr ENC_READ = .ok HAL_OK
            ∧ BRITER_RS485_GetEncoderValue_DMA_Callback fuel handler
                [handler.addr, 0x03, 0x02, d0, d1,
                  crc16 [handler.addr, 0x03, 0x02, d0, d1] &&& 0xFF,
                  crc16 [handler.addr, 0x03, 0x02, d0, d1] >>> 8]
              = .ok ⟨d0 <<< 24 ||| d1 <<< 16
                    ||| (crc16 [handler.addr, 0x03, 0x02, d0, d1] &&& 0xFF) <<< 8
                    ||| crc16 [handler.addr, 0x03, 0x02, d0, d1] >>> 8,
                  handler, []⟩) := by
  refine ⟨?_, ?_, ?_⟩
  · unfold BRITER_RS485_GetEncoderValue_DMA_Callback at ho
    rw [Nat.mod_eq_of_lt haddr] at ho
    split at ho
    · cases ho
    · next st hst =>
      by_cases h : st = HAL_OK
      · rw [hst, h]
      · rw [if_pos h] at ho
        cases ho
        exact absurd rfl hne
  · unfold BRITER_RS485_GetEncoderValue_DMA_Callback at ho
    rw [Nat.mod_eq_of_lt haddr] at ho
    split at ho
    · cases ho
    · next st hst =>
      by_cases h : st = HAL_OK
      · rw [if_neg (not_not.mpr h), (RS485_assemble_eq p hp h7).1] at ho
        cases ho
        rfl
      · rw [if_pos h] at ho
        cases ho
        exact absurd rfl hne
  · intro d0 d1 h0 h1 hf
    have hbody : IsBytes [handler.addr, 0x03, 0x02, d0, d1] := by
      intro b hb
      simp only [List.mem_cons, List.mem_singleton, List.not_mem_nil, or_false] at hb
      omega
    have hcrc := crc16_lt _ hbody
    simp only [and_255, Nat.shiftRight_eq_div_pow]
    have hq : IsBytes [handler.addr, 0x03, 0x02, d0, d1,
        crc16 [handler.addr, 0x03, 0x02, d0, d1] % 256,
        crc16 [handler.addr, 0x03, 0x02, d0, d1] / 2 ^ 8] := by
      intro b hb
      simp only [List.mem_cons, List.mem_singleton, List.not_mem_nil, or_false] at hb
      omega
    have hcheck : Encoder_CheckRX fuel
        [handler.addr, 0x03, 0x02, d0, d1,
          crc16 [handler.addr, 0x03, 0x02, d0, d1] % 256,
          crc16 [handler.addr, 0x03, 0x02, d0, d1] / 2 ^ 8]
        handler.addr ENC_READ = .ok HAL_OK := by
      refine (Encoder_CheckRX_eq fuel _ handler.addr ENC_READ 5 hq hf ?_ ?_ ?_).trans ?_
      · exact (if_pos rfl).symm
      · decide
      · exact Nat.le_refl 7
      · exact congrArg Except.ok (if_pos ⟨rfl, rfl, rfl, rfl⟩)
    refine ⟨hcheck, ?_⟩
    rw [BRITER_RS485_GetEncoderValue_DMA_Callback_eq fuel handler _ HAL_OK hq (Nat.le_refl 7)
      haddr hcheck, if_pos rfl]
    rfl

/-- The response 01 03 02 12 34 B5 33 of device 1, decoded as 0x1234B533. -/
theorem C23_witness :
    Encoder_CheckRX 256 [0x01, 0x03, 0x02, 0x12, 0x34, 0xB5, 0x33] 0x01 ENC_READ
        = .ok HAL_OK
      ∧ (0x1234B533 : Nat) = [0x01, 0x03, 0x02, 0x12, 0x34, 0xB5, 0x33].getD 3 0 <<< 24
          ||| [0x01, 0x03, 0x02, 0x12, 0x34, 0xB5, 0x33].getD 4 0 <<< 16
          ||| [0x01, 0x03, 0x02, 0x12, 0x34, 0xB5, 0x33].getD 5 0 <<< 8
          ||| [0x01, 0x03, 0x02, 0x12, 0x34, 0xB5, 0x33].getD 6 0 :=
  have h := C23_decode_of_accepted_frames 256 ⟨0x01, 0, uart_idle⟩
    [0x01, 0x03, 0x02, 0x12, 0x34, 0xB5, 0x33] ⟨0x1234B533, ⟨0x01, 0, uart_idle⟩, []⟩
    (by decide) (by decide) (by decide) (by rfl) (by decide)
  ⟨h.1, h.2.1⟩

/-- The READ response with data FF FF FF FF and its own CRC consists of bytes. -/
theorem IsBytes_all_ones_frame (a : Nat) (ha : a < 256) :
    IsBytes [a, 0x03, 0x04, 0xFF, 0xFF, 0xFF, 0xFF,
        crc16 [a, 0x03, 0x04, 0xFF, 0xFF, 0xFF, 0xFF] % 256,
        crc16 [a, 0x03, 0x04, 0xFF, 0xFF, 0xFF, 0xFF] / 256] := by
  have hbody : IsBytes [a, 0x03, 0x04, 0xFF, 0xFF, 0xFF, 0xFF] := by
    intro b hb
    simp only [List.mem_cons, List.mem_singleton, List.not_mem_nil, or_false] at hb
    omega
  have hcrc := crc16_lt _ hbody
  intro b hb
  simp only [List.mem_cons, List.mem_singleton, List.not_mem_nil, or_false] at hb
  omega

/-- The CAN position report with payload FF FF FF FF consists of bytes. -/
theorem IsBytes_all_ones_report (a : Nat) (ha : a < 256) :
    IsBytes [0x07, a, 0x01, 0xFF, 0xFF, 0xFF, 0xFF] := by
  intro b hb
  simp only [List.mem_cons, List.mem_singleton, List.not_mem_nil, or_false] at hb
  omega

/-- The READ response with data FF FF FF FF and its own CRC passes `Encoder_CheckRX`. -/
theorem Encoder_CheckRX_all_ones (fuel a : Nat) (ha : a < 256) (hf : 7 < fuel) :
    Encoder_CheckRX fuel
        [a, 0x03, 0x04, 0xFF, 0xFF, 0xFF, 0xFF,
          crc16 [a, 0x03, 0x04, 0xFF, 0xFF, 0xFF, 0xFF] % 256,
          crc16 [a, 0x03, 0x04, 0xFF, 0xFF, 0xFF, 0xFF] / 256]
        a ENC_READ = .ok HAL_OK := by
  refine (Encoder_CheckRX_eq fuel _ a ENC_READ 7 (IsBytes_all_ones_frame a ha) hf ?_ ?_ ?_).trans ?_
  · exact (if_pos rfl).symm
  · decide
  · exact Nat.le_refl 9
  · refine congrArg Except.ok (if_pos ?_)
    simp only [List.getD_cons_succ, List.getD_cons_zero, List.take_succ_cons,
      List.take_zero]
    refine ⟨?_, ?_, ?_, ?_⟩ <;> trivial
/-- C24: the error sentinel is not disjoint from the value space. Once `Encoder_CheckRX` has
returned, `BRITER_RS485_GetEncoderValue_DMA_Callback` returns 0xFFFFFFFF if and only if the
frame was rejected or bytes 3..6 are all 0xFF; `BRITER_CAN_GetEncoderValue_Callback` returns
0xFFFFFFFF if and only if the header check fails or bytes 3..6 are all 0xFF. Hence there are
accepted frames whose decoded result equals the sentinel: the READ response with data
FF FF FF FF and the CAN report with payload FF FF FF FF. -/
theorem C24_sentinel_inside_the_value_space (fuel : Nat) (handler : Briter_Encoder_t)
    (p : List Nat) (st : HAL_StatusTypeDef) (hcan : Briter_CAN_Handler_t) (q : List Nat)
    (hp : IsBytes p) (hp7 : 7 ≤ p.length) (haddr : handler.addr < 256)
    (hst : Encoder_CheckRX fuel p handler.addr ENC_READ = .ok st) (hq : IsBytes q)
    (hq7 : 7 ≤ q.length) (ha : hcan.address < 256) (hf : 7 < fuel) :
    (∃ o, BRITER_RS485_GetEncoderValue_DMA_Callback fuel handler p = .ok o
        ∧ (o.ret = 0xFFFFFFFF ↔
            st ≠ HAL_OK ∨ (p.getD 3 0 = 0xFF ∧ p.getD 4 0 = 0xFF ∧ p.getD 5 0 = 0xFF
              ∧ p.getD 6 0 = 0xFF)))
      ∧ (∃ o, BRITER_CAN_GetEncoderValue_Callback hcan q = .ok o
        ∧ (o.ret = 0xFFFFFFFF ↔
            ¬ (q.getD 1 0 = hcan.address ∧ q.getD 0 0 = 7 ∧ q.getD 2 0 = 0x01)
              ∨ (q.getD 3 0 = 0xFF ∧ q.getD 4 0 = 0xFF ∧ q.getD 5 0 = 0xFF
                ∧ q.getD 6 0 = 0xFF)))
      ∧ Encoder_CheckRX fuel
          [handler.addr, 0x03, 0x04, 0xFF, 0xFF, 0xFF, 0xFF,
            crc16 [handler.addr, 0x03, 0x04, 0xFF, 0xFF, 0xFF, 0xFF] % 256,
            crc16 [handler.addr, 0x03, 0x04, 0xFF, 0xFF, 0xFF, 0xFF] / 256]
          handler.addr ENC_READ = .ok HAL_OK
      ∧ BRITER_RS485_GetEncoderValue_DMA_Callback fuel handler
          [handler.addr, 0x03, 0x04, 0xFF, 0xFF, 0xFF, 0xFF,
            crc16 [handler.addr, 0x03, 0x04, 0xFF, 0xFF, 0xFF, 0xFF] % 256,
            crc16 [handler.addr, 0x03, 0x04, 0xFF, 0xFF, 0xFF, 0xFF] / 256]
        = .ok ⟨0xFFFFFFFF, handler, []⟩
      ∧ BRITER_CAN_GetEncoderValue_Callback hcan
          [0x07, hcan.address, 0x01, 0xFF, 0xFF, 0xFF, 0xFF]
        = .ok ⟨0xFFFFFFFF, ⟨hcan.hcan, hcan.address, 0xFFFFFFFF⟩, []⟩ := by
  have p3 := IsBytes_getD p hp 3
  have p4 := IsBytes_getD p hp 4
  have p5 := IsBytes_getD p hp 5
  have p6 := IsBytes_getD p hp 6
  have q3 := IsBytes_getD q hq 3
  have q4 := IsBytes_getD q hq 4
  have q5 := IsBytes_getD q hq 5
  have q6 := IsBytes_getD q hq 6
  refine ⟨⟨_, BRITER_RS485_GetEncoderValue_DMA_Callback_eq fuel handler p st hp hp7 haddr hst,
    ?_⟩, ⟨_, BRITER_CAN_GetEncoderValue_Callback_eq hcan q hq hq7, ?_⟩, ?_⟩
  · show (if st = HAL_OK then _ else _) = _ ↔ _
    by_cases h : st = HAL_OK
    · rw [if_pos h, or_shifts_be_eq_sum _ _ _ _ p4 p5 p6]
      constructor
      · intro hv; right; omega
      · rintro (hn | ⟨e3, e4, e5, e6⟩)
        · exact absurd h hn
        · omega
    · rw [if_neg h]
      exact ⟨fun _ => Or.inl h, fun _ => rfl⟩
  · by_cases h : q.getD 1 0 = hcan.address ∧ q.getD 0 0 = 7 ∧ q.getD 2 0 = 0x01
    · rw [if_pos h]
      show q.getD 3 0 + 256 * q.getD 4 0 + 65536 * q.getD 5 0 + 16777216 * q.getD 6 0 = _ ↔ _
      constructor
      · intro hv; right; omega
      · rintro (hn | ⟨e3, e4, e5, e6⟩)
        · exact absurd h hn
        · omega
    · rw [if_neg h]
      exact ⟨fun _ => Or.inl h, fun _ => rfl⟩
  · have hfr := IsBytes_all_ones_frame handler.addr haddr
    have hcheck := Encoder_CheckRX_all_ones fuel handler.addr haddr hf
    refine ⟨hcheck, ?_, ?_⟩
    · rw [BRITER_RS485_GetEncoderValue_DMA_Callback_eq fuel handler _ HAL_OK hfr
        (Nat.le_add_left 7 2) haddr hcheck, if_pos rfl]
      simp only [List.getD_cons_succ, List.getD_cons_zero]
      rfl
    · rw [BRITER_CAN_GetEncoderValue_Callback_eq hcan _
        (IsBytes_all_ones_report hcan.address ha) (Nat.le_refl 7)]
      simp only [List.getD_cons_succ, List.getD_cons_zero]
      rw [if_pos ⟨trivial, trivial, trivial⟩]

/-- Device 1 answers with data FF FF FF FF and a correct CRC, CAN device 5 reports the
payload FF FF FF FF: both accepted frames decode to 0xFFFFFFFF. -/
theorem C24_witness :
    Encoder_CheckRX 8 [0x01, 0x03, 0x04, 0xFF, 0xFF, 0xFF, 0xFF, 0xFB, 0xA7] 0x01 ENC_READ
        = .ok HAL_OK
      ∧ BRITER_RS485_GetEncoderValue_DMA_Callback 8 ⟨0x01, 0, uart_idle⟩
          [0x01, 0x03, 0x04, 0xFF, 0xFF, 0xFF, 0xFF, 0xFB, 0xA7]
        = .ok ⟨0xFFFFFFFF, ⟨0x01, 0, uart_idle⟩, []⟩
      ∧ BRITER_CAN_GetEncoderValue_Callback ⟨can_idle, 0x05, 0⟩
          [0x07, 0x05, 0x01, 0xFF, 0xFF, 0xFF, 0xFF]
        = .ok ⟨0xFFFFFFFF, ⟨can_idle, 0x05, 0xFFFFFFFF⟩, []⟩ :=
  (C24_sentinel_inside_the_value_space 8 ⟨0x01, 0, uart_idle⟩
    [0x01, 0x03, 0x04, 0xFF, 0xFF, 0xFF, 0xFF, 0xFB, 0xA7] HAL_OK ⟨can_idle, 0x05, 0⟩
    [0x07, 0x05, 0x01, 0xFF, 0xFF, 0xFF, 0xFF] (by decide) (by decide) (by decide) (by rfl)
    (by decide) (by decide) (by decide) (by decide)).2.2

/-! ## The receive buffer of the polling read: claim C25 -/

/-- The bytes `Encoder_Receive` leaves in the buffer. -/
theorem Encoder_Receive_getD (huart : UART_HandleTypeDef) (n i : Nat) (h : i < n) :
    (Encoder_Receive huart n).2.getD i 0 = huart.RxData i % 256 := by
  simp [Encoder_Receive, List.getD, h]

/-- On a 9-byte buffer that carries the expected address and function code and a byte-count
field of 6 or more, `Encoder_CheckRX` reads `pData[9]` or beyond. -/
theorem Encoder_CheckRX_beyond_9 (fuel : Nat) (p : List Nat) (a : Nat) (hp : IsBytes p)
    (hlen : p.length = 9) (hf : 9 < fuel) (h0 : p.getD 0 0 = a) (h1 : p.getD 1 0 = 0x03)
    (h2 : 9 ≤ (p.getD 2 0 + 3) % 256) :
    Encoder_CheckRX fuel p a ENC_READ = .error .outOfBounds := by
  have h1r : p.getD 1 0 = ENC_READ.toNat := h1
  unfold Encoder_CheckRX
  rw [rd_getD p 0 (by omega)]
  simp only []
  rw [if_neg (not_not.mpr h0), rd_getD p 1 (by omega)]
  simp only []
  rw [if_neg (not_not.mpr h1r), if_pos h1r, rd_getD p 2 (by omega)]
  simp only []
  by_cases h9 : (p.getD 2 0 + 3) % 256 = 9
  · rw [h9, Calculate_CRC_eq fuel p 9 (IsBytes_take p 9 hp) (by omega) (by omega) hf]
    simp only []
    rw [rd_of_le p 9 (by omega)]
  · unfold Calculate_CRC
    rw [Calculate_CRC_loop_oob p _ hp (by omega) (by omega) 9 0 fuel 0xffff (by omega) hf
      (by norm_num)]

/-- C25 (what the code does instead): the polling read `BRITER_RS485_GetEncoderValue` receives
into `uint8_t receive_buf[9]`. Whenever both transfers succeed and the 9 received bytes carry
the address of the handle, the function code 0x03 and a byte-count field `n` with
`(n + 3) mod 256 ≥ 9` (that is, `n` in 6..252), `Encoder_CheckRX` reads an index of the buffer
beyond 8, and so does the polling read. -/
theorem C25_polling_read_leaves_the_buffer (fuel : Nat) (handler : Briter_Encoder_t)
    (haddr : handler.addr < 256) (hf : 9 < fuel)
    (htx : handler.huart.Transmit (RS485_request handler.addr 0x03 0x00 2) = HAL_OK)
    (hrx : handler.huart.Receive = HAL_OK)
    (h0 : handler.huart.RxData 0 % 256 = handler.addr)
    (h1 : handler.huart.RxData 1 % 256 = 0x03)
    (h2 : 9 ≤ (handler.huart.RxData 2 % 256 + 3) % 256) :
    (Encoder_Receive handler.huart 9).2.length = 9
      ∧ Encoder_CheckRX fuel (Encoder_Receive handler.huart 9).2 handler.addr ENC_READ
        = .error .outOfBounds
      ∧ BRITER_RS485_GetEncoderValue fuel handler = .error .outOfBounds := by
  have hsc : Encoder_Send_Construct fuel (List.replicate 8 0) ENC_READ (handler.addr % 65536)
      BRITER_RS485_VALUE_ADDR 2 = .ok (RS485_request handler.addr 0x03 0x00 2) := by
    rw [Nat.mod_eq_of_lt (show handler.addr < 65536 by omega), RS485_request_eq]
    exact Encoder_Send_Construct_eq fuel (List.replicate 8 0) ENC_READ handler.addr
      BRITER_RS485_VALUE_ADDR 2 rfl haddr (by decide) (by decide) (by omega)
  have htake : (RS485_request handler.addr 0x03 0x00 2).take 8
      = RS485_request handler.addr 0x03 0x00 2 := by
    rw [RS485_request_eq]; rfl
  have hcheck : Encoder_CheckRX fuel (Encoder_Receive handler.huart 9).2 handler.addr ENC_READ
      = .error .outOfBounds := by
    refine Encoder_CheckRX_beyond_9 fuel _ handler.addr (Encoder_Receive_IsBytes _ 9)
      (Encoder_Receive_length _ 9) hf ?_ ?_ ?_
    · rw [Encoder_Receive_getD _ 9 0 (by decide)]; exact h0
    · rw [Encoder_Receive_getD _ 9 1 (by decide)]; exact h1
    · rw [Encoder_Receive_getD _ 9 2 (by decide)]; exact h2
  refine ⟨Encoder_Receive_length _ 9, hcheck, ?_⟩
  unfold BRITER_RS485_GetEncoderValue
  rw [hsc]
  simp only []
  have ht : Encoder_Transmit handler.huart (RS485_request handler.addr 0x03 0x00 2) 8
      = HAL_OK := by
    unfold Encoder_Transmit; rw [htake]; exact htx
  have hr : (Encoder_Receive handler.huart 9).1 = HAL_OK := hrx
  rw [if_neg (not_not.mpr ht), if_neg (not_not.mpr hr), Nat.mod_eq_of_lt haddr, hcheck]

/-- Device 1 on a transport that delivers 01 03 0A 00 00 00 00 00 00: the byte-count field is
10, `total_byte` is 13 and `Calculate_CRC` reads `receive_buf[9]`. -/
theorem C25_witness :
    (Encoder_Receive (uart_delivering [0x01, 0x03, 0x0A, 0x00, 0x00, 0x00, 0x00, 0x00, 0x00])
        9).2 = [0x01, 0x03, 0x0A, 0x00, 0x00, 0x00, 0x00, 0x00, 0x00]
      ∧ Encoder_CheckRX 10 [0x01, 0x03, 0x0A, 0x00, 0x00, 0x00, 0x00, 0x00, 0x00] 0x01 ENC_READ
        = .error .outOfBounds
      ∧ BRITER_RS485_GetEncoderValue 10
          ⟨0x01, 0, uart_delivering [0x01, 0x03, 0x0A, 0x00, 0x00, 0x00, 0x00, 0x00, 0x00]⟩
        = .error .outOfBounds :=
  ⟨by decide,
    (C25_polling_read_leaves_the_buffer 10
      ⟨0x01, 0, uart_delivering [0x01, 0x03, 0x0A, 0x00, 0x00, 0x00, 0x00, 0x00, 0x00]⟩
      (by decide) (by decide) rfl rfl (by decide) (by decide) (by decide)).2⟩

end Briter
